import Mathlib

/-!
# MOSN data plane: SofaRPC connection pool and stream connection

A shallow embedding of `pkg/stream/sofarpc/connpool.go` and
`pkg/stream/sofarpc/stream.go`, followed by the parts of `pkg/proxy/proxy.go`,
`pkg/stream/http2/stream.go`, `pkg/xds/conv/convertxds.go` and `pkg/server/server.go`
that the theorems are about.  Go objects become records, pointer updates
become explicit state passing, callbacks into other layers are recorded as
values, and a nil dereference is the `none` result of an `Option`.

Logging, tracing spans and buffer-pool bookkeeping do not influence control
flow and are left out.  Statistics counters (go-metrics `Counter`, an `int64`
with `Inc` and `Dec`) are integers.
-/

namespace Mosn

/-! ## Go maps -/

/-- A Go map (or `sync.Map`) as an association list holding each key at most once. -/
abbrev GoMap (K V : Type) := List (K × V)

namespace GoMap

variable {K V : Type} [DecidableEq K]

/-- Map lookup `v, ok := m[k]`. -/
def load : GoMap K V → K → Option V
  | [], _ => none
  | (k', v) :: t, k => if k' = k then some v else load t k

/-- Map deletion `delete(m, k)`. -/
def delete : GoMap K V → K → GoMap K V
  | [], _ => []
  | (k', v) :: t, k => if k' = k then delete t k else (k', v) :: delete t k

/-- Map assignment `m[k] = v`. -/
def store (m : GoMap K V) (k : K) (v : V) : GoMap K V :=
  (k, v) :: delete m k

/-- Number of entries, `len(m)`. -/
def len (m : GoMap K V) : Nat := m.length

end GoMap

/-! ## Shared types -/

/-- A Go `byte`. -/
abbrev Byte := Fin 256

/-- Largest `uint64` plus one. -/
def uint64Mod : Nat := 18446744073709551616

/-- The value kinds a context slot may hold. -/
inductive CtxValue where
  | byte (b : Byte)
  | uint64 (n : Nat)
  | other (tag : Nat)
  deriving DecidableEq, Repr

/-- The built-in slots of a mosn context that the pool and the stream layer read. -/
structure Context where
  subProtocol : Option CtxValue
  streamID : Option CtxValue
  deriving DecidableEq, Repr

/-- A `context.Context` argument; `none` is the nil context. -/
abbrev Ctx := Option Context

/-- Connection events of `mosn.io/api`. -/
inductive ConnectionEvent where
  | RemoteClose
  | LocalClose
  | OnReadErrClose
  | OnWriteErrClose
  | OnConnect
  | Connected
  | ConnectTimeout
  | ConnectFailed
  | OnReadTimeout
  | OnWriteTimeout
  deriving DecidableEq, Repr

/-- Method `ConnectionEvent.IsClose` of `mosn.io/api`. -/
def ConnectionEvent.IsClose : ConnectionEvent → Bool
  | .LocalClose | .RemoteClose | .OnReadErrClose | .OnWriteErrClose | .OnWriteTimeout => true
  | _ => false

/-- Close types of `mosn.io/api`. -/
inductive ConnectionCloseType where
  | FlushWrite
  | NoFlush
  deriving DecidableEq, Repr

/-- Upstream statistics touched by the pool (host stats and cluster stats share the shape). -/
structure Stats where
  UpstreamConnectionTotal : Int
  UpstreamConnectionActive : Int
  UpstreamConnectionClose : Int
  UpstreamConnectionLocalClose : Int
  UpstreamConnectionLocalCloseWithActiveRequest : Int
  UpstreamConnectionRemoteClose : Int
  UpstreamConnectionRemoteCloseWithActiveRequest : Int
  UpstreamConnectionConFail : Int
  UpstreamRequestTotal : Int
  UpstreamRequestActive : Int
  UpstreamRequestPendingOverflow : Int
  UpstreamRequestTimeout : Int
  UpstreamRequestFailureEject : Int
  UpstreamRequestLocalReset : Int
  UpstreamRequestRemoteReset : Int
  deriving DecidableEq, Repr

/-- All counters at zero. -/
def Stats.zero : Stats :=
  ⟨0, 0, 0, 0, 0, 0, 0, 0, 0, 0, 0, 0, 0, 0, 0⟩

/-- Modelled from the spec: the cluster resource manager's request resource, a current
count checked against the circuit-breaker threshold ("permits one more request"). -/
structure Resource where
  current : Int
  max : Nat
  deriving DecidableEq, Repr

/-- Modelled from the spec: `CanCreate` permits one more request below the threshold. -/
def Resource.CanCreate (r : Resource) : Bool := decide (r.current < r.max)

/-- Modelled from the spec: `Increase` adds one in-flight request. -/
def Resource.Increase (r : Resource) : Resource := { r with current := r.current + 1 }

/-- Modelled from the spec: `Decrease` removes one in-flight request. -/
def Resource.Decrease (r : Resource) : Resource := { r with current := r.current - 1 }

/-- The upstream host of a pool: `HostStats()`, `ClusterInfo().Stats()` and
`ClusterInfo().ResourceManager().Requests()`. -/
structure Host where
  address : Nat
  hostStats : Stats
  clusterStats : Stats
  requests : Resource
  deriving DecidableEq, Repr

/-! ## connpool.go -/

/-- Client state `Init`. -/
def Init : Nat := 0
/-- Client state `Connecting`. -/
def Connecting : Nat := 1
/-- Client state `Connected`. -/
def Connected : Nat := 2

/-- The default sub protocol byte. -/
def defaultSubProtocol : Byte := 0

/-- An upstream response receiver handed to `NewStream`, named by a handle. -/
abbrev Receiver := Nat

/-- Modelled from the spec: the underlying stream client of an active client, which
allocates upstream streams; only its connection id and stream-id counter are kept. -/
structure CodecClient where
  connID : Nat
  currStreamID : Nat
  deriving DecidableEq, Repr

/-- The struct `activeClient`. -/
structure ActiveClient where
  subProtocol : Byte
  keepAlive : Bool
  client : Option CodecClient
  closeWithActiveReq : Bool
  totalStream : Nat
  state : Nat
  deriving DecidableEq, Repr

/-- The placeholder `&activeClient{}` with `state = Init` stored by `CheckAndInit`. -/
def fakeclient : ActiveClient :=
  { subProtocol := 0, keepAlive := false, client := none, closeWithActiveReq := false,
    totalStream := 0, state := Init }

/-- The struct `connPool`. -/
structure ConnPool where
  activeClients : GoMap Byte ActiveClient
  host : Host
  deriving DecidableEq, Repr

/-- Function `NewConnPool`. -/
def NewConnPool (host : Host) : ConnPool :=
  { activeClients := [], host := host }

/-- Function `getSubProtocol`. -/
def getSubProtocol : Ctx → Byte
  | some c =>
    match c.subProtocol with
    | some (CtxValue.byte code) => code
    | _ => defaultSubProtocol
  | none => defaultSubProtocol

/-- The upstream stream a pool hands out: the sender returned by the stream client,
with the receiver it was created for and the event listeners attached to it
(each listener is an active client, named by its connection id). -/
structure StreamSender where
  conn : Nat
  id : Nat
  receiver : Option Receiver
  eventListeners : List Nat
  deriving DecidableEq, Repr

/-- Modelled from the spec: the stream client's `NewStream`, which takes the next
stream id of its connection. -/
def CodecClient.NewStream (c : CodecClient) (receiver : Option Receiver) :
    CodecClient × StreamSender :=
  let id := (c.currStreamID + 1) % uint64Mod
  ({ c with currStreamID := id },
   { conn := c.connID, id := id, receiver := receiver, eventListeners := [] })

/-- Pool failure reasons passed to `OnFailure`. -/
inductive PoolFailureReason where
  | Overflow
  | ConnectionFailure
  deriving DecidableEq, Repr

/-- The calls a pool makes on a `PoolEventListener`. -/
inductive PoolCallback where
  | OnFailure (reason : PoolFailureReason) (host : Nat)
  | OnReady (sender : StreamSender) (host : Nat)
  deriving DecidableEq, Repr

/-- The result of `newActiveClient`: `none` when `Connect` returns an error.  On
success the connection counters are bumped.  Events the transport raises on its listeners
are delivered through `onConnectionEvent`, not here. -/
def newActiveClient (subProtocol : Byte) (pool : ConnPool) (connID : Nat) (connectOK : Bool) :
    ConnPool × Option ActiveClient :=
  let ac : ActiveClient :=
    { subProtocol := subProtocol
      keepAlive := decide (subProtocol ≠ defaultSubProtocol)
      client := some { connID := connID, currStreamID := 0 }
      closeWithActiveReq := false
      totalStream := 0
      state := Init }
  if connectOK then
    let hs := pool.host.hostStats
    let cs := pool.host.clusterStats
    let hs1 := { hs with UpstreamConnectionTotal := hs.UpstreamConnectionTotal + 1,
                         UpstreamConnectionActive := hs.UpstreamConnectionActive + 1 }
    let cs1 := { cs with UpstreamConnectionTotal := cs.UpstreamConnectionTotal + 1,
                         UpstreamConnectionActive := cs.UpstreamConnectionActive + 1 }
    ({ pool with host := { pool.host with hostStats := hs1, clusterStats := cs1 } }, some ac)
  else
    (pool, none)

/-- The body of the goroutine started by `connPool.init`: dial, then store the
connected client or delete the entry. -/
def ConnPool.init (p : ConnPool) (sub : Byte) (connID : Nat) (connectOK : Bool) :
    ConnPool × Option ActiveClient :=
  match newActiveClient sub p connID connectOK with
  | (p1, some client) =>
    let client1 := { client with state := Connected }
    ({ p1 with activeClients := GoMap.store p1.activeClients sub client1 }, some client1)
  | (p1, none) =>
    ({ p1 with activeClients := GoMap.delete p1.activeClients sub }, none)

/-- The outcome of `CheckAndInit`: the pool afterwards, the returned flag, and the
sub protocols for which `p.init` started a dial goroutine. -/
structure CheckAndInitResult where
  pool : ConnPool
  ready : Bool
  dials : List Byte
  deriving DecidableEq, Repr

/-- Method `connPool.CheckAndInit`, run sequentially. -/
def ConnPool.CheckAndInit (p : ConnPool) (ctx : Ctx) : CheckAndInitResult :=
  let subProtocol := getSubProtocol ctx
  -- `Load`, and on a miss `LoadOrStore` of the placeholder
  let (p1, client) : ConnPool × ActiveClient :=
    match GoMap.load p.activeClients subProtocol with
    | none => ({ p with activeClients := GoMap.store p.activeClients subProtocol fakeclient },
               fakeclient)
    | some v => (p, v)
  if client.state = Connected then
    { pool := p1, ready := true, dials := [] }
  else if client.state = Init then
    -- the compare-and-swap succeeds; the entry is the same object
    let client1 := { client with state := Connecting }
    { pool := { p1 with activeClients := GoMap.store p1.activeClients subProtocol client1 },
      ready := false, dials := [subProtocol] }
  else
    { pool := p1, ready := false, dials := [] }

/-- The outcome of the pool's `NewStream`: the pool afterwards and the listener
callbacks it made, in order. -/
structure NewStreamResult where
  pool : ConnPool
  callbacks : List PoolCallback
  deriving DecidableEq, Repr

/-- Method `connPool.NewStream`.  A Connected entry whose stream client is nil cannot
allocate a stream: that nil dereference is the `none` result. -/
def ConnPool.NewStream (p : ConnPool) (ctx : Ctx) (responseDecoder : Option Receiver) :
    Option NewStreamResult :=
  let subProtocol := getSubProtocol ctx
  match GoMap.load p.activeClients subProtocol with
  | none => some { pool := p, callbacks := [PoolCallback.OnFailure .ConnectionFailure p.host.address] }
  | some activeClient =>
    if activeClient.state ≠ Connected then
      some { pool := p, callbacks := [PoolCallback.OnFailure .ConnectionFailure p.host.address] }
    else if ¬ p.host.requests.CanCreate then
      let hs := p.host.hostStats
      let cs := p.host.clusterStats
      let host1 := { p.host with
        hostStats := { hs with UpstreamRequestPendingOverflow := hs.UpstreamRequestPendingOverflow + 1 },
        clusterStats := { cs with UpstreamRequestPendingOverflow := cs.UpstreamRequestPendingOverflow + 1 } }
      some { pool := { p with host := host1 },
             callbacks := [PoolCallback.OnFailure .Overflow p.host.address] }
    else
      let hs := p.host.hostStats
      let cs := p.host.clusterStats
      let hs1 := { hs with UpstreamRequestTotal := hs.UpstreamRequestTotal + 1 }
      let cs1 := { cs with UpstreamRequestTotal := cs.UpstreamRequestTotal + 1 }
      match activeClient.client with
      | none => none
      | some codec =>
        match responseDecoder with
        | none =>
          -- oneway
          let (codec1, streamEncoder) := codec.NewStream none
          let ac1 := { activeClient with
            totalStream := (activeClient.totalStream + 1) % uint64Mod, client := some codec1 }
          some { pool := { activeClients := GoMap.store p.activeClients subProtocol ac1,
                           host := { p.host with hostStats := hs1, clusterStats := cs1 } },
                 callbacks := [PoolCallback.OnReady streamEncoder p.host.address] }
        | some r =>
          let (codec1, s) := codec.NewStream (some r)
          let streamEncoder := { s with eventListeners := s.eventListeners ++ [codec.connID] }
          let ac1 := { activeClient with
            totalStream := (activeClient.totalStream + 1) % uint64Mod, client := some codec1 }
          let hs2 := { hs1 with UpstreamRequestActive := hs1.UpstreamRequestActive + 1 }
          let cs2 := { cs1 with UpstreamRequestActive := cs1.UpstreamRequestActive + 1 }
          some { pool := { activeClients := GoMap.store p.activeClients subProtocol ac1,
                           host := { p.host with hostStats := hs2, clusterStats := cs2,
                                                 requests := p.host.requests.Increase } },
                 callbacks := [PoolCallback.OnReady streamEncoder p.host.address] }

/-- The outcome of `onConnectionEvent`: the pool afterwards and whether the handler
called `client.client.Close()`. -/
structure ConnEventResult where
  pool : ConnPool
  closeCalled : Bool
  deriving DecidableEq, Repr

/-- Method `connPool.onConnectionEvent`. -/
def ConnPool.onConnectionEvent (p : ConnPool) (client : ActiveClient) (event : ConnectionEvent) :
    ConnEventResult :=
  if event.IsClose then
    let hs := p.host.hostStats
    let cs := p.host.clusterStats
    let hs1 := { hs with UpstreamConnectionClose := hs.UpstreamConnectionClose + 1,
                         UpstreamConnectionActive := hs.UpstreamConnectionActive - 1 }
    let cs1 := { cs with UpstreamConnectionClose := cs.UpstreamConnectionClose + 1,
                         UpstreamConnectionActive := cs.UpstreamConnectionActive - 1 }
    let (hs2, cs2) : Stats × Stats :=
      match event with
      | .LocalClose =>
        let h := { hs1 with UpstreamConnectionLocalClose := hs1.UpstreamConnectionLocalClose + 1 }
        let c := { cs1 with UpstreamConnectionLocalClose := cs1.UpstreamConnectionLocalClose + 1 }
        if client.closeWithActiveReq then
          ({ h with UpstreamConnectionLocalCloseWithActiveRequest :=
                      h.UpstreamConnectionLocalCloseWithActiveRequest + 1 },
           { c with UpstreamConnectionLocalCloseWithActiveRequest :=
                      c.UpstreamConnectionLocalCloseWithActiveRequest + 1 })
        else (h, c)
      | .RemoteClose =>
        let h := { hs1 with UpstreamConnectionRemoteClose := hs1.UpstreamConnectionRemoteClose + 1 }
        let c := { cs1 with UpstreamConnectionRemoteClose := cs1.UpstreamConnectionRemoteClose + 1 }
        if client.closeWithActiveReq then
          ({ h with UpstreamConnectionRemoteCloseWithActiveRequest :=
                      h.UpstreamConnectionRemoteCloseWithActiveRequest + 1 },
           { c with UpstreamConnectionRemoteCloseWithActiveRequest :=
                      c.UpstreamConnectionRemoteCloseWithActiveRequest + 1 })
        else (h, c)
      | _ => (hs1, cs1)
    { pool := { activeClients := GoMap.delete p.activeClients client.subProtocol,
                host := { p.host with hostStats := hs2, clusterStats := cs2 } },
      closeCalled := false }
  else if event = .ConnectTimeout then
    let hs := p.host.hostStats
    let cs := p.host.clusterStats
    { pool := { p with host := { p.host with
        hostStats := { hs with UpstreamRequestTimeout := hs.UpstreamRequestTimeout + 1 },
        clusterStats := { cs with UpstreamRequestTimeout := cs.UpstreamRequestTimeout + 1 } } },
      closeCalled := true }
  else if event = .ConnectFailed then
    let hs := p.host.hostStats
    let cs := p.host.clusterStats
    { pool := { p with host := { p.host with
        hostStats := { hs with UpstreamConnectionConFail := hs.UpstreamConnectionConFail + 1 },
        clusterStats := { cs with UpstreamConnectionConFail := cs.UpstreamConnectionConFail + 1 } } },
      closeCalled := false }
  else
    { pool := p, closeCalled := false }

/-- Method `connPool.onStreamDestroy`. -/
def ConnPool.onStreamDestroy (p : ConnPool) : ConnPool :=
  let hs := p.host.hostStats
  let cs := p.host.clusterStats
  { p with host := { p.host with
      hostStats := { hs with UpstreamRequestActive := hs.UpstreamRequestActive - 1 },
      clusterStats := { cs with UpstreamRequestActive := cs.UpstreamRequestActive - 1 },
      requests := p.host.requests.Decrease } }

/-! ### The pool among its collaborators

The pool together with what surrounds it: the dial goroutines started by
`p.init` that have not yet run, the open upstream connections (each with the
active client registered as its event listener), and the upstream streams handed
out and not yet destroyed. -/

/-- A pool with its pending dials, open connections and live streams. -/
structure PoolWorld where
  pool : ConnPool
  dials : List Byte
  conns : List ActiveClient
  nextConn : Nat
  streams : List StreamSender
  deriving DecidableEq, Repr

/-- A fresh pool for a host: nothing dialled, nothing handed out. -/
def PoolWorld.fresh (host : Host) : PoolWorld :=
  { pool := NewConnPool host, dials := [], conns := [], nextConn := 1, streams := [] }

/-- What can happen to a pool. -/
inductive PoolEvent where
  | checkAndInit (ctx : Ctx)
  | dialDone (sub : Byte) (connectOK : Bool)
  | connEvent (conn : Nat) (event : ConnectionEvent)
  | newStream (ctx : Ctx) (responseDecoder : Option Receiver)
  | destroyStream (conn : Nat) (id : Nat)
  deriving DecidableEq, Repr

/-- Whether an active client listens on connection `conn`. -/
def ActiveClient.onConn (a : ActiveClient) (conn : Nat) : Bool :=
  match a.client with
  | some c => decide (c.connID = conn)
  | none => false

/-- Whether a stream is the one with this connection and id. -/
def StreamSender.isStream (s : StreamSender) (conn id : Nat) : Bool :=
  decide (s.conn = conn) && decide (s.id = id)

/-- Remove the first element satisfying `f`. -/
def removeFirst {α : Type} (f : α → Bool) : List α → List α
  | [] => []
  | x :: t => if f x then t else x :: removeFirst f t

/-- One step of the pool.  An event that cannot occur in the current state (the
completion of a dial that was never started, an event on a connection that is not
open, the destruction of a stream that is not live) leaves the state unchanged. -/
def PoolWorld.step (w : PoolWorld) : PoolEvent → PoolWorld
  | .checkAndInit ctx =>
    let r := w.pool.CheckAndInit ctx
    { w with pool := r.pool, dials := w.dials ++ r.dials }
  | .dialDone sub connectOK =>
    if sub ∈ w.dials then
      match w.pool.init sub w.nextConn connectOK with
      | (p1, some client) =>
        { w with pool := p1, dials := w.dials.erase sub, conns := client :: w.conns,
                 nextConn := w.nextConn + 1 }
      | (p1, none) =>
        { w with pool := p1, dials := w.dials.erase sub, nextConn := w.nextConn + 1 }
    else w
  | .connEvent conn event =>
    match w.conns.find? (fun a => a.onConn conn) with
    | none => w
    | some client =>
      let r := w.pool.onConnectionEvent client event
      if event.IsClose then
        { w with pool := r.pool, conns := removeFirst (fun a => a.onConn conn) w.conns }
      else
        { w with pool := r.pool }
  | .newStream ctx responseDecoder =>
    match w.pool.NewStream ctx responseDecoder with
    | none => w
    | some r =>
      match r.callbacks with
      | [PoolCallback.OnReady sender _] => { w with pool := r.pool, streams := sender :: w.streams }
      | _ => { w with pool := r.pool }
  | .destroyStream conn id =>
    match w.streams.find? (fun s => s.isStream conn id) with
    | none => w
    | some s =>
      { w with pool := s.eventListeners.foldl (fun p _ => p.onStreamDestroy) w.pool,
               streams := removeFirst (fun s => s.isStream conn id) w.streams }

/-- Run a sequence of events. -/
def PoolWorld.run (w : PoolWorld) (evs : List PoolEvent) : PoolWorld :=
  evs.foldl PoolWorld.step w

/-- Every Connected entry of the pool carries a stream client, as every client stored
by `init` does. -/
def ConnPool.clientsReady (p : ConnPool) : Bool :=
  p.activeClients.all (fun e => decide (e.2.state ≠ Connected) || e.2.client.isSome)

/-- A host with all counters at zero and a request threshold. -/
def Host.new (address : Nat) (maxRequests : Nat) : Host :=
  { address := address, hostStats := Stats.zero, clusterStats := Stats.zero,
    requests := { current := 0, max := maxRequests } }

/-- The live two-way streams: those created with a non-nil receiver. -/
def PoolWorld.twoWay (w : PoolWorld) : Nat :=
  w.streams.countP (fun s => s.receiver.isSome)

/-- The open connections whose active client serves a sub protocol. -/
def PoolWorld.connsOf (w : PoolWorld) (sub : Byte) : Nat :=
  w.conns.countP (fun a => decide (a.subProtocol = sub))

/-! ## stream.go -/

/-- The error values compared by the stream layer. -/
inductive Err where
  | ErrUnrecognizedCode
  | ErrUnKnownCmdType
  | ErrUnKnownCmdCode
  | ErrNotSofarpcCmd
  | ErrNotResponseBuilder
  | ErrCodecException
  | ErrDeserializeException
  | ErrNoStatusCodeForHijack
  | ErrConnectionHasClosed
  | other (tag : Nat)
  deriving DecidableEq, Repr

/-- Stream reset reasons of package `types`. -/
inductive StreamResetReason where
  | StreamConnectionTermination
  | StreamConnectionFailed
  | StreamConnectionSuccessed
  | StreamLocalReset
  | StreamOverflow
  | StreamRemoteReset
  | other (tag : Nat)
  deriving DecidableEq, Repr

/-- Modelled from the spec: command type `response` is 0. -/
def RESPONSE : Byte := 0
/-- Modelled from the spec: command type `request` is 1. -/
def REQUEST : Byte := 1
/-- Modelled from the spec: command type `request-oneway` is 2. -/
def REQUEST_ONEWAY : Byte := 2
/-- Modelled from the spec: command code `heartbeat` is 0. -/
def HEARTBEAT : Int := 0
/-- Modelled from the spec: command code `rpc-request` is 1. -/
def RPC_REQUEST : Int := 1
/-- Modelled from the spec: command code `rpc-response` is 2. -/
def RPC_RESPONSE : Int := 2

/-- Modelled from the spec: the well-known header key of the injected timeout. -/
def HeaderGlobalTimeout : String := "x-mosn-global-timeout"
/-- Modelled from the spec: the well-known header key of the status. -/
def HeaderStatus : String := "x-mosn-status"

/-- Modelled from the spec: a decoded command behind the `SofaRpcCmd` interface, with
its header map (`Get`, `Set`, `Del`) and its optional body (`Data`, `SetData`). -/
structure SofaRpcCmd where
  protocolCode : Byte
  commandType : Byte
  commandCode : Int
  requestID : Nat
  timeout : Int
  header : GoMap String String
  data : Option (List Byte)
  deriving DecidableEq, Repr

/-- A value of interface type handed to the stream layer: nil, a `SofaRpcCmd`, or a
value of another type. -/
inductive Model where
  | nil
  | sofa (cmd : SofaRpcCmd)
  | other (tag : Nat)
  deriving DecidableEq, Repr

/-- The type `StreamDirection` with its two constants. -/
inductive StreamDirection where
  | ClientStream
  | ServerStream
  deriving DecidableEq, Repr

/-- The struct `stream` (context, buffers and the back reference to the connection
left out). -/
structure Stream where
  connReset : Bool
  id : Nat
  direction : StreamDirection
  receiver : Option Receiver
  sendCmd : Option SofaRpcCmd
  deriving DecidableEq, Repr

/-- Modelled from the spec: the downstream active stream the proxy creates for a new
server stream; it is the receiver of that stream. -/
structure DownStream where
  ID : Nat
  responseSender : Option Nat
  deriving DecidableEq, Repr

/-- The proxy as server-side listener of a stream connection: its list of active
streams and the id counter of `newActiveStream`. -/
structure Proxy where
  activeSteams : List DownStream
  currID : Nat
  deriving DecidableEq, Repr

/-- Method `proxy.NewStreamDetect` (proxy.go): create the active stream and push it to
the back of the active-stream list.  No stream filter factory is configured. -/
def Proxy.NewStreamDetect (p : Proxy) (responseSender : Option Nat) : Proxy × DownStream :=
  let stream : DownStream := { ID := p.currID + 1, responseSender := responseSender }
  ({ activeSteams := p.activeSteams ++ [stream], currID := p.currID + 1 }, stream)

/-- What the stream layer does to its collaborators, in order. -/
inductive Effect where
  | connClose (ccType : ConnectionCloseType) (event : ConnectionEvent)
  | NewStreamDetect (streamID : Nat) (responseSender : Option Nat)
  | OnReceive (receiver : Receiver) (headers : SofaRpcCmd) (data : Option (List Byte))
  | OnDecodeError (receiver : Receiver) (err : Err) (headers : SofaRpcCmd)
  | Encode (cmd : SofaRpcCmd)
  | Write (data : Option (List Byte))
  | ResetStream (id : Nat) (reason : StreamResetReason)
  | DestroyStream (id : Nat)
  deriving DecidableEq, Repr

/-- The struct `streamConnection`.  `streams` is `none` for the nil map,
`streamConnectionEventListener` tells whether client callbacks are set, and
`contextManager` counts the calls of `Next`. -/
structure StreamConnection where
  contextManager : Nat
  currStreamID : Nat
  streams : Option (GoMap Nat Stream)
  streamConnectionEventListener : Bool
  serverStreamConnectionEventListener : Option Proxy
  deriving DecidableEq, Repr

/-- Function `newStreamConnection`. -/
def newStreamConnection (clientCallbacks : Bool) (serverCallbacks : Option Proxy) :
    StreamConnection :=
  { contextManager := 1
    currStreamID := 0
    streams := if clientCallbacks then some [] else none
    streamConnectionEventListener := clientCallbacks
    serverStreamConnectionEventListener := serverCallbacks }

/-- Method `streamConnection.ActiveStreamsNum`. -/
def StreamConnection.ActiveStreamsNum (conn : StreamConnection) : Nat :=
  match conn.streams with
  | some m => GoMap.len m
  | none => 0

/-- Method `streamConnection.NewStream`.  Assigning into the nil map panics. -/
def StreamConnection.NewStream (conn : StreamConnection) (receiver : Option Receiver) :
    Option (StreamConnection × Stream) :=
  let id := (conn.currStreamID + 1) % uint64Mod
  let stream : Stream :=
    { connReset := false, id := id, direction := .ClientStream, receiver := receiver,
      sendCmd := none }
  let conn1 := { conn with currStreamID := id }
  match receiver with
  | some _ =>
    match conn1.streams with
    | some m => some ({ conn1 with streams := some (GoMap.store m id stream) }, stream)
    | none => none
  | none => some (conn1, stream)

/-- Method `streamConnection.onNewStreamDetect`.  Calling the nil server listener
panics. -/
def StreamConnection.onNewStreamDetect (conn : StreamConnection) (cmd : SofaRpcCmd) :
    Option (StreamConnection × Stream × List Effect) :=
  let stream : Stream :=
    { connReset := false, id := cmd.requestID, direction := .ServerStream, receiver := none,
      sendCmd := none }
  match conn.serverStreamConnectionEventListener with
  | none => none
  | some listener =>
    let responseSender := if cmd.commandType = REQUEST_ONEWAY then none else some stream.id
    let (listener1, ds) := listener.NewStreamDetect responseSender
    some ({ conn with serverStreamConnectionEventListener := some listener1 },
          { stream with receiver := some ds.ID },
          [Effect.NewStreamDetect stream.id responseSender])

/-- Method `streamConnection.onStreamRecv`. -/
def StreamConnection.onStreamRecv (conn : StreamConnection) (cmd : SofaRpcCmd) :
    StreamConnection × Option Stream :=
  let requestID := cmd.requestID
  match conn.streams with
  | some m =>
    match GoMap.load m requestID with
    | some stream => ({ conn with streams := some (GoMap.delete m requestID) }, some stream)
    | none => (conn, none)
  | none => (conn, none)

/-- Method `streamConnection.processStream`. -/
def StreamConnection.processStream (conn : StreamConnection) (cmd : SofaRpcCmd) :
    Option (StreamConnection × Option Stream × List Effect) :=
  if cmd.commandType = REQUEST ∨ cmd.commandType = REQUEST_ONEWAY then
    match conn.onNewStreamDetect cmd with
    | some (conn1, stream, es) => some (conn1, some stream, es)
    | none => none
  else if cmd.commandType = RESPONSE then
    let (conn1, stream) := conn.onStreamRecv cmd
    some (conn1, stream, [])
  else
    some (conn, none, [])

/-- Method `streamConnection.handleError`.  Calling a nil receiver panics. -/
def StreamConnection.handleError (conn : StreamConnection) (cmd : Model) (err : Err) :
    Option (StreamConnection × List Effect) :=
  match err with
  | .ErrUnrecognizedCode | .ErrUnKnownCmdType | .ErrUnKnownCmdCode | .ErrNotSofarpcCmd =>
    some (conn, [Effect.connClose .NoFlush .LocalClose])
  | .ErrCodecException | .ErrDeserializeException =>
    match cmd with
    | .sofa c =>
      if c.requestID > 0 then
        match conn.processStream c with
        | none => none
        | some (conn1, some stream, es) =>
          match stream.receiver with
          | some r => some (conn1, es ++ [Effect.OnDecodeError r err c])
          | none => none
        | some (conn1, none, es) => some (conn1, es)
      else
        some (conn, [Effect.connClose .NoFlush .LocalClose])
    | _ => some (conn, [Effect.connClose .NoFlush .LocalClose])
  | _ => some (conn, [])

/-- Method `streamConnection.handleCommand`; `err` is `none` for a nil error. -/
def StreamConnection.handleCommand (conn : StreamConnection) (model : Model) (err : Option Err) :
    Option (StreamConnection × List Effect) :=
  match err with
  | some e => conn.handleError model e
  | none =>
    match model with
    | .sofa cmd =>
      match conn.processStream cmd with
      | none => none
      | some (conn1, some stream, es) =>
        let timeout := toString cmd.timeout
        let cmd1 := { cmd with header := GoMap.store cmd.header HeaderGlobalTimeout timeout }
        match stream.receiver with
        | some r => some (conn1, es ++ [Effect.OnReceive r cmd1 cmd1.data])
        | none => none
      | some (conn1, none, es) => some (conn1, es)
    | _ => conn.handleError model .ErrNotSofarpcCmd

/-- Method `stream.ResetStream`: a client stream not reset by its connection leaves
the stream map, then the base stream notifies its listeners. -/
def Stream.ResetStream (s : Stream) (conn : StreamConnection) (reason : StreamResetReason) :
    StreamConnection × List Effect :=
  let conn1 :=
    if s.direction = .ClientStream ∧ s.connReset = false then
      { conn with streams := conn.streams.map (fun m => GoMap.delete m s.id) }
    else conn
  (conn1, [Effect.ResetStream s.id reason])

/-- The outcome of the codec and the transport for one send: whether `Encode` fails,
and the error of `Write` if any. -/
structure SendOutcome where
  encodeFails : Bool
  writeErr : Option Err
  deriving DecidableEq, Repr

/-- Method `stream.endStream`. -/
def Stream.endStream (s : Stream) (conn : StreamConnection) (io : SendOutcome) :
    StreamConnection × Stream × List Effect :=
  let deferred : List Effect :=
    if s.direction = .ServerStream then [Effect.DestroyStream s.id] else []
  match s.sendCmd with
  | some cmd =>
    let cmd1 := { cmd with requestID := s.id,
                           header := GoMap.delete cmd.header HeaderGlobalTimeout }
    let s1 := { s with sendCmd := some cmd1 }
    if io.encodeFails then
      let (conn1, es) := s1.ResetStream conn .StreamLocalReset
      (conn1, s1, [Effect.Encode cmd1] ++ es ++ deferred)
    else
      match io.writeErr with
      | some e =>
        let reason := if e = .ErrConnectionHasClosed then StreamResetReason.StreamConnectionFailed
                      else StreamResetReason.StreamLocalReset
        let (conn1, es) := s1.ResetStream conn reason
        (conn1, s1, [Effect.Encode cmd1, Effect.Write cmd1.data] ++ es ++ deferred)
      | none => (conn, s1, [Effect.Encode cmd1, Effect.Write cmd1.data] ++ deferred)
  | none => (conn, s, deferred)

/-- Method `stream.buildHijackResp`.  `newResponse` stands for the response builder
looked up from the protocol code and the status string.  The status header is also
deleted from the request, which nothing reads afterwards. -/
def Stream.buildHijackResp (newResponse : Byte → String → Option SofaRpcCmd)
    (request : SofaRpcCmd) : Option SofaRpcCmd × Option Err :=
  match GoMap.load request.header HeaderStatus with
  | some status =>
    match newResponse request.protocolCode status with
    | some hijackResp => (some hijackResp, none)
    | none => (none, some .ErrNotResponseBuilder)
  | none => (none, some .ErrNoStatusCodeForHijack)

/-- The outcome of a sender call: connection, stream, returned error, effects. -/
structure SendResult where
  conn : StreamConnection
  stream : Stream
  err : Option Err
  effects : List Effect
  deriving DecidableEq, Repr

/-- Method `stream.AppendHeaders`. -/
def Stream.AppendHeaders (s : Stream) (conn : StreamConnection)
    (newResponse : Byte → String → Option SofaRpcCmd) (io : SendOutcome)
    (headers : Model) (endStream : Bool) : SendResult :=
  match headers with
  | .sofa cmd =>
    let (s1, err) : Stream × Option Err :=
      match s.direction with
      | .ClientStream => ({ s with sendCmd := some cmd }, none)
      | .ServerStream =>
        if cmd.commandType = RESPONSE then ({ s with sendCmd := some cmd }, none)
        else if cmd.commandType = REQUEST ∨ cmd.commandType = REQUEST_ONEWAY then
          let (resp, e) := Stream.buildHijackResp newResponse cmd
          ({ s with sendCmd := resp }, e)
        else (s, none)
    if endStream then
      let (conn1, s2, es) := s1.endStream conn io
      { conn := conn1, stream := s2, err := err, effects := es }
    else
      { conn := conn, stream := s1, err := err, effects := [] }
  | _ => { conn := conn, stream := s, err := some .ErrNotSofarpcCmd, effects := [] }

/-- Method `stream.AppendData`. -/
def Stream.AppendData (s : Stream) (conn : StreamConnection) (io : SendOutcome)
    (data : Option (List Byte)) (endStream : Bool) : SendResult :=
  let s1 : Stream :=
    match s.sendCmd with
    | some cmd => { s with sendCmd := some { cmd with data := data } }
    | none => s
  if endStream then
    let (conn1, s2, es) := s1.endStream conn io
    { conn := conn1, stream := s2, err := none, effects := es }
  else
    { conn := conn, stream := s1, err := none, effects := [] }

/-- Method `stream.AppendTrailers`. -/
def Stream.AppendTrailers (s : Stream) (conn : StreamConnection) (io : SendOutcome) :
    SendResult :=
  let (conn1, s2, es) := s.endStream conn io
  { conn := conn1, stream := s2, err := none, effects := es }

/-- The commands handed to the encoder. -/
def encoded : List Effect → List SofaRpcCmd
  | [] => []
  | Effect.Encode c :: t => c :: encoded t
  | _ :: t => encoded t

/-- Whether an effect closes the transport connection. -/
def Effect.isClose : Effect → Bool
  | .connClose _ _ => true
  | _ => false

/-- Whether an effect calls a stream receiver. -/
def Effect.isReceiverCall : Effect → Bool
  | .OnReceive _ _ _ => true
  | .OnDecodeError _ _ _ => true
  | _ => false

/-- Whether an effect writes to the transport connection. -/
def Effect.isWrite : Effect → Bool
  | .Write _ => true
  | _ => false

/-- Whether an effect calls the server listener. -/
def Effect.isNewStreamDetect : Effect → Bool
  | .NewStreamDetect _ _ => true
  | _ => false

/-- A pool whose default sub protocol has been dialled successfully. -/
def connectedPool : ConnPool :=
  ((PoolWorld.fresh (Host.new 1 8)).run [.checkAndInit none, .dialDone 0 true]).pool

/-- The state of the entry of a sub protocol, if there is one. -/
def ConnPool.stateOf (p : ConnPool) (sub : Byte) : Option Nat :=
  (GoMap.load p.activeClients sub).map (fun c => c.state)

/-- The three request gauges of a pool: UpstreamRequestActive of the host, of the
cluster, and the request count of the resource manager. -/
def ConnPool.active (p : ConnPool) : Int × Int × Int :=
  (p.host.hostStats.UpstreamRequestActive, p.host.clusterStats.UpstreamRequestActive,
   p.host.requests.current)

/-- Whether a callback is `OnReady`. -/
def PoolCallback.isReady : PoolCallback → Bool
  | .OnReady _ _ => true
  | .OnFailure _ _ => false

/-- Per sub protocol: no entry, no dial, no connection; or a Connecting entry with
exactly one dial in flight; or a Connected entry with no dial and at most one open
connection. -/
def PoolWorld.dialInv (w : PoolWorld) (sub : Byte) : Prop :=
  (w.dials.count sub = 0 ∧ w.pool.stateOf sub = none ∧ w.connsOf sub = 0) ∨
  (w.dials.count sub = 1 ∧ w.pool.stateOf sub = some Connecting ∧ w.connsOf sub = 0) ∨
  (w.dials.count sub = 0 ∧ w.pool.stateOf sub = some Connected ∧ w.connsOf sub ≤ 1)

/-- The request gauges stand at their initial values plus the number of live two-way
streams, and every live stream has the pool as listener exactly when it is two-way. -/
def PoolWorld.activeInv (w : PoolWorld) (base : Int × Int × Int) : Prop :=
  w.pool.active = (base.1 + w.twoWay, base.2.1 + w.twoWay, base.2.2 + w.twoWay) ∧
  ∀ s ∈ w.streams, s.eventListeners.length = if s.receiver.isSome then 1 else 0

/-- A pool whose default sub protocol is being dialled. -/
def connectingPool : ConnPool :=
  ((PoolWorld.fresh (Host.new 1 8)).run [.checkAndInit none]).pool

/-- A response command with request id 7. -/
def response7 : SofaRpcCmd :=
  { protocolCode := 1, commandType := RESPONSE, commandCode := RPC_RESPONSE, requestID := 7,
    timeout := 0, header := [(HeaderGlobalTimeout, "3000"), ("service", "testSofa")],
    data := none }

/-- A request command with request id 7. -/
def request7 : SofaRpcCmd :=
  { protocolCode := 1, commandType := REQUEST, commandCode := RPC_REQUEST, requestID := 7,
    timeout := 3000, header := [("service", "testSofa")], data := none }

/-- A heartbeat request with request id 42. -/
def heartbeat42 : SofaRpcCmd :=
  { protocolCode := 1, commandType := REQUEST, commandCode := HEARTBEAT, requestID := 42,
    timeout := 0, header := [], data := none }

/-- A server-side stream connection whose listener is a proxy with no active stream. -/
def serverConn : StreamConnection :=
  newStreamConnection false (some { activeSteams := [], currID := 0 })

/-- A client-side stream connection with no stream yet. -/
def clientConn : StreamConnection :=
  newStreamConnection true none

/-- A client-side stream connection after a two-way stream was created on it. -/
def clientConnOneStream : StreamConnection :=
  match clientConn.NewStream (some 9) with
  | some (conn, _) => conn
  | none => clientConn

/-- A send on which codec and transport both succeed. -/
def sendOK : SendOutcome := { encodeFails := false, writeErr := none }

/-- A response builder that knows no protocol. -/
def noResponse : Byte → String → Option SofaRpcCmd := fun _ _ => none

/-- The server-side connection after its proxy created the active stream of request 7. -/
def serverConnAfter7 : StreamConnection :=
  { serverConn with serverStreamConnectionEventListener := some ⟨[⟨1, some 7⟩], 1⟩ }

/-- The server stream of request 7, whose receiver is active stream 1. -/
def serverStream7 : Stream :=
  { connReset := false, id := 7, direction := .ServerStream, receiver := some 1, sendCmd := none }

/-- The server-side connection after its proxy created the active stream of the
heartbeat request 42. -/
def serverConnAfter42 : StreamConnection :=
  { serverConn with serverStreamConnectionEventListener := some ⟨[⟨1, some 42⟩], 1⟩ }

/-! ## stream.go: the dispatch loop and stream allocation -/

/-- One call of `codecEngine.Decode`: the decoded model, the error, and the buffer left. -/
structure Decoded where
  cmd : Model
  err : Option Err
  rest : List Byte
  deriving DecidableEq, Repr

/-- How a run of `Dispatch` ends: it returns, with the connection, the buffer left, the
effects and the arguments of each `handleCommand` call in order; or a callee panics; or
the loop is cut off after the given number of rounds. -/
inductive DispatchResult where
  | returned (conn : StreamConnection) (buf : List Byte) (effects : List Effect)
      (handled : List (Model × Option Err))
  | panicked
  | outOfFuel
  deriving DecidableEq, Repr

/-- Method `streamConnection.Dispatch`, its loop bounded by `fuel` rounds.  `decode`
stands for the codec engine. -/
def StreamConnection.Dispatch (decode : List Byte → Decoded) :
    Nat → StreamConnection → List Byte → DispatchResult
  | 0, _, _ => .outOfFuel
  | fuel + 1, conn, buf =>
    let d := decode buf
    if d.cmd = .nil ∧ d.err = none then
      .returned conn d.rest [] []
    else
      match conn.handleCommand d.cmd d.err with
      | none => .panicked
      | some (conn1, es) =>
        if d.err ≠ none then
          .returned conn1 d.rest es [(d.cmd, d.err)]
        else
          match StreamConnection.Dispatch decode fuel
              { conn1 with contextManager := conn1.contextManager + 1 } d.rest with
          | .returned conn2 buf2 es2 hs2 =>
            .returned conn2 buf2 (es ++ es2) ((d.cmd, d.err) :: hs2)
          | r => r

/-- How the decoder stops a dispatch: out of data, or with an error. -/
inductive DecodeStop where
  | needMore
  | failed (cmd : Model) (err : Err)
  deriving DecidableEq, Repr

/-- The decoder yields these commands from the buffer, one after another without error,
and then stops as given. -/
def decodesTo (decode : List Byte → Decoded) : List Byte → List Model → DecodeStop → Prop
  | buf, [], .needMore => (decode buf).cmd = .nil ∧ (decode buf).err = none
  | buf, [], .failed c e => (decode buf).cmd = c ∧ (decode buf).err = some e
  | buf, c :: cs, stop =>
    (decode buf).cmd = c ∧ c ≠ .nil ∧ (decode buf).err = none ∧
      decodesTo decode (decode buf).rest cs stop

/-- The `handleCommand` calls a dispatch makes for these commands and this stop. -/
def expectedCalls (cmds : List Model) : DecodeStop → List (Model × Option Err)
  | .needMore => cmds.map (fun c => (c, none))
  | .failed c e => cmds.map (fun c => (c, none)) ++ [(c, some e)]

/-- What the claim on `Dispatch` describes, stated without the decoder: `handleCommand`
is called on each of the given (command, error) pairs in order, on the connection the
call before left, and the context manager moves on after each call without an error.
The result is the connection after the last call with the effects of all calls in
order, or `none` when one of the calls panics. -/
def handleCommandsInOrder :
    StreamConnection → List (Model × Option Err) → Option (StreamConnection × List Effect)
  | conn, [] => some (conn, [])
  | conn, (cmd, err) :: calls =>
    match conn.handleCommand cmd err with
    | none => none
    | some (conn1, es) =>
      let conn2 :=
        if err = none then { conn1 with contextManager := conn1.contextManager + 1 } else conn1
      match handleCommandsInOrder conn2 calls with
      | none => none
      | some (conn3, es3) => some (conn3, es ++ es3)

/-- The read buffer after the decoder has consumed `k + 1` frames from it. -/
def bufferAfter (decode : List Byte → Decoded) : Nat → List Byte → List Byte
  | 0, buf => (decode buf).rest
  | k + 1, buf => bufferAfter decode k (decode buf).rest

/-- A decoder for examples: every byte is one request frame whose request id is the
byte; the byte 0 is a frame that fails with a codec exception. -/
def byteDecoder : List Byte → Decoded
  | [] => { cmd := .nil, err := none, rest := [] }
  | b :: rest =>
    if b = 0 then { cmd := .nil, err := some .ErrCodecException, rest := rest }
    else { cmd := .sofa { request7 with requestID := b.val }, err := none, rest := rest }

/-- What happens on a stream connection: a caller allocates a stream, a decoded command
is handled, or a stream is reset. -/
inductive ConnOp where
  | NewStream (receiver : Option Receiver)
  | handleCommand (model : Model) (err : Option Err)
  | ResetStream (s : Stream) (reason : StreamResetReason)
  deriving DecidableEq, Repr

/-- Run operations in order, collecting the streams `NewStream` returns; `none` when an
operation panics. -/
def StreamConnection.runOps : StreamConnection → List ConnOp → Option (StreamConnection × List Stream)
  | conn, [] => some (conn, [])
  | conn, .NewStream receiver :: ops =>
    match conn.NewStream receiver with
    | none => none
    | some (conn1, s) =>
      match StreamConnection.runOps conn1 ops with
      | none => none
      | some (conn2, ss) => some (conn2, s :: ss)
  | conn, .handleCommand model err :: ops =>
    match conn.handleCommand model err with
    | none => none
    | some (conn1, _) => StreamConnection.runOps conn1 ops
  | conn, .ResetStream s reason :: ops =>
    StreamConnection.runOps (s.ResetStream conn reason).1 ops

/-- No key of the stream map is above the last allocated stream id. -/
def StreamConnection.keysBounded (conn : StreamConnection) : Prop :=
  ∀ m, conn.streams = some m → ∀ e ∈ m, e.1 ≤ conn.currStreamID

/-- The two request commands the byte decoder yields from the bytes 7 and 9. -/
def decoded7and9 : List Model :=
  [.sofa { request7 with requestID := 7 }, .sofa { request7 with requestID := 9 }]

/-- Operations on a client connection: a two-way stream, a one-way stream, and the
response to the first. -/
def exampleOps : List ConnOp :=
  [.NewStream (some 9), .NewStream none,
   .handleCommand (.sofa { response7 with requestID := 1 }) none]

/-! ## proxy.go -/

/-- The downstream counters of the proxy `Stats` touched on connection events. -/
structure ProxyStats where
  DownstreamConnectionTotal : Int
  DownstreamConnectionDestroy : Int
  DownstreamConnectionActive : Int
  deriving DecidableEq, Repr

/-- The three outcomes of protocol matching in package `stream`: a nil error, `EAGAIN`
and `FAILED`. -/
inductive MatchResult where
  | ok
  | EAGAIN
  | FAILED
  deriving DecidableEq, Repr

/-- Filter status values of `mosn.io/api`. -/
inductive FilterStatus where
  | Continue
  | Stop
  deriving DecidableEq, Repr

/-- The struct `proxy` as read filter: its listener part `Proxy` (the active streams),
the server stream connection once created (named by its protocol), and the global and
listener stats. -/
structure ProxyFilter where
  proxy : Proxy
  serverStreamConn : Option String
  stats : ProxyStats
  listenerStats : ProxyStats
  deriving DecidableEq, Repr

/-- What the proxy does to its collaborators, in order. -/
inductive ProxyEffect where
  | SelectStreamFactoryProtocol (prot : String) (magic : List Byte)
  | connClose (ccType : ConnectionCloseType) (event : ConnectionEvent)
  | CreateServerStreamConnection (protocol : String)
  | Dispatch (buf : List Byte)
  | OnResetStream (ds : DownStream) (reason : StreamResetReason)
  deriving DecidableEq, Repr

/-- Method `proxy.OnData`.  `selectProtocol` stands for
`stream.SelectStreamFactoryProtocol`, and `tlsProtocol` is the negotiated protocol when
the raw connection is a TLS connection. -/
def ProxyFilter.OnData (selectProtocol : String → List Byte → String × MatchResult)
    (p : ProxyFilter) (tlsProtocol : Option String) (buf : List Byte) :
    ProxyFilter × FilterStatus × List ProxyEffect :=
  match p.serverStreamConn with
  | none =>
    let prot := match tlsProtocol with
      | some negotiated => negotiated
      | none => ""
    let (protocol, err) := selectProtocol prot buf
    if err = .EAGAIN then
      (p, .Stop, [ProxyEffect.SelectStreamFactoryProtocol prot buf])
    else if err = .FAILED then
      (p, .Stop, [ProxyEffect.SelectStreamFactoryProtocol prot buf,
                  ProxyEffect.connClose .NoFlush .OnReadErrClose])
    else
      ({ p with serverStreamConn := some protocol }, .Stop,
       [ProxyEffect.SelectStreamFactoryProtocol prot buf,
        ProxyEffect.CreateServerStreamConnection protocol, ProxyEffect.Dispatch buf])
  | some _ => (p, .Stop, [ProxyEffect.Dispatch buf])

/-- Method `proxy.onDownstreamEvent`.  The reset of an active stream is recorded; the
list is walked as it stands when the event arrives. -/
def ProxyFilter.onDownstreamEvent (p : ProxyFilter) (event : ConnectionEvent) :
    ProxyFilter × List ProxyEffect :=
  if event.IsClose then
    let stats1 := { p.stats with
      DownstreamConnectionDestroy := p.stats.DownstreamConnectionDestroy + 1,
      DownstreamConnectionActive := p.stats.DownstreamConnectionActive - 1 }
    let listenerStats1 := { p.listenerStats with
      DownstreamConnectionDestroy := p.listenerStats.DownstreamConnectionDestroy + 1,
      DownstreamConnectionActive := p.listenerStats.DownstreamConnectionActive - 1 }
    ({ p with stats := stats1, listenerStats := listenerStats1 },
     p.proxy.activeSteams.map
       (fun ds => ProxyEffect.OnResetStream ds .StreamConnectionTermination))
  else (p, [])

/-- Response flags of `mosn.io/api`, an integer type. -/
abbrev ResponseFlag := Nat

/-- Response flag `UpstreamLocalReset` of `mosn.io/api`. -/
def UpstreamLocalReset : ResponseFlag := 0x8
/-- Response flag `UpstreamRemoteReset` of `mosn.io/api`. -/
def UpstreamRemoteReset : ResponseFlag := 0x10
/-- Response flag `UpstreamConnectionFailure` of `mosn.io/api`. -/
def UpstreamConnectionFailure : ResponseFlag := 0x20
/-- Response flag `UpstreamConnectionTermination` of `mosn.io/api`. -/
def UpstreamConnectionTermination : ResponseFlag := 0x40
/-- Response flag `UpstreamOverflow` of `mosn.io/api`. -/
def UpstreamOverflow : ResponseFlag := 0x80

/-- Method `proxy.streamResetReasonToResponseFlag`. -/
def streamResetReasonToResponseFlag : StreamResetReason → ResponseFlag
  | .StreamConnectionFailed => UpstreamConnectionFailure
  | .StreamConnectionTermination => UpstreamConnectionTermination
  | .StreamLocalReset => UpstreamLocalReset
  | .StreamOverflow => UpstreamOverflow
  | .StreamRemoteReset => UpstreamRemoteReset
  | _ => 0

/-- A proxy filter with no server stream connection yet and three active streams. -/
def proxyThreeStreams : ProxyFilter :=
  { proxy := { activeSteams := [⟨1, some 7⟩, ⟨2, some 8⟩, ⟨3, none⟩], currID := 3 }
    serverStreamConn := none
    stats := { DownstreamConnectionTotal := 5, DownstreamConnectionDestroy := 1,
               DownstreamConnectionActive := 4 }
    listenerStats := { DownstreamConnectionTotal := 2, DownstreamConnectionDestroy := 0,
                       DownstreamConnectionActive := 2 } }

/-- A protocol selection for examples: a buffer starting with byte 1 is SofaRPC, an
empty buffer needs more bytes, anything else fails. -/
def selectByFirstByte : String → List Byte → String × MatchResult
  | _, [] => ("", .EAGAIN)
  | _, b :: _ => if b = 1 then ("SofaRpc", .ok) else ("", .FAILED)

/-! ## http2/stream.go -/

namespace Http2

/-- Modelled from the spec: the client preface "PRI * HTTP/2.0..." of module `http2`,
24 bytes. -/
def ClientPreface : List Byte :=
  [80, 82, 73, 32, 42, 32, 72, 84, 84, 80, 47, 50, 46, 48, 13, 10, 13, 10, 83, 77, 13, 10,
   13, 10]

/-- Method `streamConnFactory.ProtocolMatch` of package `http2`, with the preface
constant as a parameter. -/
def ProtocolMatch (preface : List Byte) (_context : Ctx) (_prot : String)
    (magic : List Byte) : MatchResult :=
  let (size, again) : Nat × Bool :=
    if magic.length ≥ preface.length then (preface.length, false)
    else (magic.length, true)
  if magic.take size = preface.take size then
    if again then .EAGAIN else .ok
  else .FAILED

/-- The error kinds `handleError` tells apart by type. -/
inductive H2Error where
  | StreamError (StreamID : Nat)
  | ConnectionError (code : Nat)
  | other (tag : Nat)
  deriving DecidableEq, Repr

/-- The struct `stream` of package `http2` with the fields of `serverStream` and
`clientStream` the stream maps and resets depend on. -/
structure H2Stream where
  id : Nat
  receiver : Option Receiver
  sendData : Option (List (List Byte))
  deriving DecidableEq, Repr

/-- What an HTTP/2 stream connection does to its collaborators, in order. -/
inductive H2Effect where
  | HandleError (err : Option H2Error)
  | h2sReset (id : Nat)
  | ResetStream (id : Nat) (reason : StreamResetReason)
  | connClose (ccType : ConnectionCloseType) (event : ConnectionEvent)
  deriving DecidableEq, Repr

/-- The struct `serverStreamConnection`: its stream map. -/
structure ServerStreamConnection where
  streams : GoMap Nat H2Stream
  deriving DecidableEq, Repr

/-- The struct `clientStreamConnection`: its stream map. -/
structure ClientStreamConnection where
  streams : GoMap Nat H2Stream
  deriving DecidableEq, Repr

/-- Method `serverStream.ResetStream`: reset the protocol stream, then notify the
listeners of the base stream. -/
def serverStreamReset (s : H2Stream) (reason : StreamResetReason) : List H2Effect :=
  [H2Effect.h2sReset s.id, H2Effect.ResetStream s.id reason]

/-- Method `ResetStream` of a client stream, inherited from the base stream. -/
def clientStreamReset (s : H2Stream) (reason : StreamResetReason) : List H2Effect :=
  [H2Effect.ResetStream s.id reason]

/-- Method `serverStreamConnection.handleError`; `err` is `none` for a nil error. -/
def ServerStreamConnection.handleError (conn : ServerStreamConnection) (err : Option H2Error) :
    ServerStreamConnection × List H2Effect :=
  match err with
  | none => (conn, [H2Effect.HandleError none])
  | some (.StreamError streamID) =>
    match GoMap.load conn.streams streamID with
    | some s =>
      ({ conn with streams := GoMap.delete conn.streams streamID },
       [H2Effect.HandleError err] ++ serverStreamReset s .StreamLocalReset)
    | none => (conn, [H2Effect.HandleError err])
  | some (.ConnectionError _) =>
    (conn, [H2Effect.HandleError err, H2Effect.connClose .NoFlush .OnReadErrClose])
  | some (.other _) =>
    (conn, [H2Effect.HandleError err, H2Effect.connClose .NoFlush .RemoteClose])

/-- Method `clientStreamConnection.handleError`; `err` is `none` for a nil error. -/
def ClientStreamConnection.handleError (conn : ClientStreamConnection) (err : Option H2Error) :
    ClientStreamConnection × List H2Effect :=
  match err with
  | none => (conn, [H2Effect.HandleError none])
  | some (.StreamError streamID) =>
    match GoMap.load conn.streams streamID with
    | some s =>
      ({ conn with streams := GoMap.delete conn.streams streamID },
       [H2Effect.HandleError err] ++ clientStreamReset s .StreamRemoteReset)
    | none => (conn, [H2Effect.HandleError err])
  | some (.ConnectionError _) =>
    (conn, [H2Effect.HandleError err, H2Effect.connClose .FlushWrite .OnReadErrClose])
  | some (.other _) =>
    (conn, [H2Effect.HandleError err, H2Effect.connClose .NoFlush .RemoteClose])

/-- Whether an effect closes the transport. -/
def H2Effect.isClose : H2Effect → Bool
  | .connClose _ _ => true
  | _ => false

/-- The stream resets among the effects, as pairs of stream id and reason. -/
def resets : List H2Effect → List (Nat × StreamResetReason)
  | [] => []
  | H2Effect.ResetStream id reason :: t => (id, reason) :: resets t
  | _ :: t => resets t

/-- The transport closes among the effects, by their event. -/
def closes : List H2Effect → List ConnectionEvent
  | [] => []
  | H2Effect.connClose _ event :: t => event :: closes t
  | _ :: t => closes t

/-- A server connection with the streams 1, 3 and 5. -/
def serverThreeStreams : ServerStreamConnection :=
  { streams := [(1, ⟨1, some 1, none⟩), (3, ⟨3, some 2, none⟩), (5, ⟨5, some 3, none⟩)] }

end Http2

/-! ## xds/conv/convertxds.go -/

/-- The port specifier of an xDS socket address; `unset` covers every other case. -/
inductive XdsPortSpecifier where
  | PortValue (port : Nat)
  | NamedPort (name : String)
  | unset
  deriving DecidableEq, Repr

/-- The address of an xDS endpoint as `GetEndpoint().GetAddress().GetAddress()` returns
it; `unset` covers nil and every other address kind. -/
inductive XdsAddress where
  | SocketAddress (address : String) (port : XdsPortSpecifier)
  | Pipe (path : String)
  | unset
  deriving DecidableEq, Repr

/-- An xDS `LbEndpoint`: its address, its metadata (filter metadata with the values in
their string form, `none` for nil) and its load balancing weight (`none` for nil). -/
structure LbEndpoint where
  address : XdsAddress
  metadata : Option (GoMap String String)
  loadBalancingWeight : Option Nat
  deriving DecidableEq, Repr

/-- The struct `v2.Host` with the fields the conversion fills. -/
structure V2Host where
  Address : String
  Weight : Nat
  MetaData : Option (GoMap String String)
  deriving DecidableEq, Repr

/-- Function `convertMeta`. -/
def convertMeta : Option (GoMap String String) → Option (GoMap String String)
  | none => none
  | some filterMetadata => some (filterMetadata.map (fun e => (e.1, e.2)))

/-- Function `ConvertEndpointsConfig`, with the two weight bounds of package
`configmanager` as parameters.  An endpoint the loop skips with `continue` yields no
host. -/
def ConvertEndpointsConfig (MinHostWeight MaxHostWeight : Nat) :
    Option (List LbEndpoint) → Option (List V2Host)
  | none => none
  | some lbEndpoints =>
    some (lbEndpoints.filterMap (fun xdsHost =>
      let address : Option String :=
        match xdsHost.address with
        | .SocketAddress addr (.PortValue port) => some (addr ++ ":" ++ toString port)
        | .SocketAddress addr (.NamedPort name) => some (addr ++ ":" ++ name)
        | .SocketAddress _ .unset => none
        | .Pipe path => some path
        | .unset => none
      match address with
      | none => none
      | some address =>
        let host : V2Host :=
          { Address := address, Weight := 0, MetaData := convertMeta xdsHost.metadata }
        let weight := xdsHost.loadBalancingWeight.getD 0
        if weight < MinHostWeight then some { host with Weight := MinHostWeight }
        else if weight > MaxHostWeight then some { host with Weight := MaxHostWeight }
        else some host))

/-- The match specifier of an xDS header matcher; `unset` covers nil and the kinds the
conversion does not read. -/
inductive HeaderMatchSpecifier where
  | ExactMatch (value : String)
  | RegexMatch (value : String)
  | unset
  deriving DecidableEq, Repr

/-- An xDS `HeaderMatcher`. -/
structure XdsHeaderMatcher where
  Name : String
  HeaderMatchSpecifier : HeaderMatchSpecifier
  InvertMatch : Bool
  deriving DecidableEq, Repr

/-- Getter `GetName`, safe on a nil matcher. -/
def XdsHeaderMatcher.GetName : Option XdsHeaderMatcher → String
  | some h => h.Name
  | none => ""

/-- Getter `GetRegexMatch`: the pattern when the specifier is a regex match, else "". -/
def XdsHeaderMatcher.GetRegexMatch : Option XdsHeaderMatcher → String
  | some { HeaderMatchSpecifier := .RegexMatch v, .. } => v
  | _ => ""

/-- Getter `GetExactMatch`: the value when the specifier is an exact match, else "". -/
def XdsHeaderMatcher.GetExactMatch : Option XdsHeaderMatcher → String
  | some { HeaderMatchSpecifier := .ExactMatch v, .. } => v
  | _ => ""

/-- The struct `v2.HeaderMatcher`. -/
structure HeaderMatcher where
  Name : String
  Value : String
  Regex : Bool
  deriving DecidableEq, Repr

/-- The step `if strings.HasPrefix(name, ":") { name = name[1:] }`. -/
def dropPseudoColon (name : String) : String :=
  match name.data with
  | ':' :: rest => String.mk rest
  | _ => name

/-- Function `convertHeaders`; the list holds pointers, `none` being a nil one. -/
def convertHeaders : Option (List (Option XdsHeaderMatcher)) → Option (List HeaderMatcher)
  | none => none
  | some xdsHeaders =>
    some (xdsHeaders.map (fun xdsHeader =>
      let headerMatcher : HeaderMatcher :=
        if XdsHeaderMatcher.GetRegexMatch xdsHeader ≠ "" then
          { Name := XdsHeaderMatcher.GetName xdsHeader,
            Value := XdsHeaderMatcher.GetRegexMatch xdsHeader, Regex := true }
        else
          { Name := XdsHeaderMatcher.GetName xdsHeader,
            Value := XdsHeaderMatcher.GetExactMatch xdsHeader, Regex := false }
      { headerMatcher with Name := dropPseudoColon headerMatcher.Name }))

/-- An endpoint at 10.0.0.1:80 with load balancing weight 50. -/
def endpointWeight50 : LbEndpoint :=
  { address := .SocketAddress "10.0.0.1" (.PortValue 80), metadata := none,
    loadBalancingWeight := some 50 }

/-- Header matchers for examples: an exact match on `end-user`, a regex match on the
pseudo header `:path`. -/
def exampleHeaders : List (Option XdsHeaderMatcher) :=
  [some { Name := "end-user", HeaderMatchSpecifier := .ExactMatch "jason", InvertMatch := false },
   some { Name := ":path", HeaderMatchSpecifier := .RegexMatch "/v1/.*", InvertMatch := false }]

/-! ## upstream/cluster: the LeastActiveRequest load balancer -/

/-- Modelled from the spec: a host as the load balancer sees it, with its weight, its
health status and its `UpstreamRequestActive` counter. -/
structure LbHost where
  address : Nat
  weight : Nat
  healthy : Bool
  active : Int
  deriving DecidableEq, Repr

/-- Modelled from the spec: the smallest `UpstreamRequestActive` counter among hosts. -/
def leastActive : List LbHost → Option Int
  | [] => none
  | h :: t =>
    match leastActive t with
    | none => some h.active
    | some m => some (min h.active m)

/-- Modelled from the spec: walk the candidates until the drawn number falls into a
host's weight; the last candidate takes what is left. -/
def pickAt : List LbHost → Nat → Option LbHost
  | [], _ => none
  | [h], _ => some h
  | h :: g :: t, r => if r < h.weight then some h else pickAt (g :: t) (r - h.weight)

/-- Modelled from the spec: the weighted pick that breaks ties, driven by a drawn number. -/
def weightedPick (seed : Nat) (candidates : List LbHost) : Option LbHost :=
  pickAt candidates (seed % max 1 (candidates.map (fun h => h.weight)).sum)

/-- Modelled from the spec: `ChooseHost` of the LeastActiveRequest load balancer, whose
code (package `cluster`, loadbalancer.go) is not among the sources: "among healthy
hosts, choose the host with the smallest UpstreamRequestActive counter; ties broken by
weighted pick. If no hosts, return nil". -/
def leastActiveRequestChooseHost (seed : Nat) (hosts : List LbHost) : Option LbHost :=
  match hosts with
  | [] => none
  | _ =>
    let healthy := hosts.filter (fun h => h.healthy)
    match leastActive healthy with
    | none => none
    | some m => weightedPick seed (healthy.filter (fun h => decide (h.active = m)))

/-- Two unhealthy hosts. -/
def unhealthyPair : List LbHost :=
  [{ address := 1, weight := 1, healthy := false, active := 0 },
   { address := 2, weight := 1, healthy := false, active := 3 }]

/-- Three hosts, the middle one unhealthy, the last one least loaded. -/
def mixedHosts : List LbHost :=
  [{ address := 1, weight := 1, healthy := true, active := 4 },
   { address := 2, weight := 1, healthy := false, active := 0 },
   { address := 3, weight := 2, healthy := true, active := 2 }]

/-! ## xds/conv/convertxds.go: stream filters and fault injection -/

/-- Go's `int` and `time.Duration` are 64-bit signed integers: the value an arithmetic
result wraps to. -/
def wrapInt64 (x : Int) : Int :=
  (x + 9223372036854775808) % 18446744073709551616 - 9223372036854775808

/-- A protobuf `types.Struct`, a JSON object, held by its serialised text. -/
structure Struct where
  json : String
  deriving DecidableEq, Repr

/-- The denominators of an xDS `FractionalPercent`; `other` is an enum value outside the
three declared ones. -/
inductive DenominatorType where
  | HUNDRED
  | TEN_THOUSAND
  | MILLION
  | other (value : Nat)
  deriving DecidableEq, Repr

/-- The number each declared denominator stands for (envoy/type/percent.proto). -/
def DenominatorType.scale : DenominatorType → Option Nat
  | .HUNDRED => some 100
  | .TEN_THOUSAND => some 10000
  | .MILLION => some 1000000
  | .other _ => none

/-- An xDS `FractionalPercent`; the numerator is a `uint32`. -/
structure FractionalPercent where
  Numerator : Nat
  Denominator : DenominatorType
  deriving DecidableEq, Repr

/-- Function `convertIstioPercentage`; `none` is the nil pointer.  Division of a `uint32`
cannot leave the range of `uint32`. -/
def convertIstioPercentage : Option FractionalPercent → Nat
  | none => 0
  | some percent =>
    match percent.Denominator with
    | .MILLION => percent.Numerator / 10000
    | .TEN_THOUSAND => percent.Numerator / 100
    | .HUNDRED => percent.Numerator
    | .other _ => percent.Numerator

/-- An xDS `FaultDelay`: its percentage and the fixed delay of its delay specifier in
nanoseconds (`none` when `GetFixedDelay` returns nil). -/
structure FaultDelay where
  Percentage : Option FractionalPercent
  FixedDelay : Option Int
  deriving DecidableEq, Repr

/-- An xDS `FaultAbort`: its percentage and the HTTP status of its error type (`none`
when the error type is unset). -/
structure FaultAbort where
  Percentage : Option FractionalPercent
  HttpStatus : Option Nat
  deriving DecidableEq, Repr

/-- An xDS `HTTPFault` with the fields the conversion reads. -/
structure HTTPFault where
  Delay : Option FaultDelay
  Abort : Option FaultAbort
  UpstreamCluster : String
  Headers : Option (List (Option XdsHeaderMatcher))
  deriving DecidableEq, Repr

/-- Getter `GetFixedDelay`, safe on a nil delay. -/
def FaultDelay.GetFixedDelay : Option FaultDelay → Option Int
  | some d => d.FixedDelay
  | none => none

/-- Getter `GetPercentage` of a delay, safe on nil. -/
def FaultDelay.GetPercentage : Option FaultDelay → Option FractionalPercent
  | some d => d.Percentage
  | none => none

/-- Getter `GetPercentage` of an abort, safe on nil. -/
def FaultAbort.GetPercentage : Option FaultAbort → Option FractionalPercent
  | some a => a.Percentage
  | none => none

/-- Getter `GetHttpStatus`, safe on nil; 0 when the error type is not an HTTP status. -/
def FaultAbort.GetHttpStatus : Option FaultAbort → Nat
  | some a => a.HttpStatus.getD 0
  | none => 0

/-- The struct `v2.DelayInject`: the percent and the duration of its
`DelayInjectConfig`. -/
structure DelayInject where
  Percent : Nat
  Duration : Int
  deriving DecidableEq, Repr

/-- The struct `v2.AbortInject`. -/
structure AbortInject where
  Status : Int
  Percent : Nat
  deriving DecidableEq, Repr

/-- The struct `v2.StreamFaultInject`; its zero value has every field empty. -/
structure StreamFaultInject where
  Delay : Option DelayInject := none
  Abort : Option AbortInject := none
  UpstreamCluster : String := ""
  Headers : Option (List HeaderMatcher) := none
  deriving DecidableEq, Repr

/-- The struct `v2.StreamPayloadLimit`, also the fields read from the xDS
`PayloadLimit` message. -/
structure StreamPayloadLimit where
  MaxEntitySize : Int := 0
  HttpStatus : Int := 0
  deriving DecidableEq, Repr

/-- The struct `v2.CidrRange`. -/
structure CidrRange where
  Address : String
  Length : Nat
  deriving DecidableEq, Repr

/-- The struct `v2.TCPRoute`. -/
structure TCPRoute where
  Cluster : String
  SourceAddrs : Option (List CidrRange)
  DestinationAddrs : Option (List CidrRange)
  SourcePort : String
  DestinationPort : String
  deriving DecidableEq, Repr

/-- The struct `v2.Proxy` with the fields the conversion fills; `ExtendConfig` holds the
sub protocol of an `XProxyExtendConfig`. -/
structure V2Proxy where
  DownstreamProtocol : String
  UpstreamProtocol : String
  RouterConfigName : String
  ExtendConfig : Option String
  deriving DecidableEq, Repr

/-- The struct `v2.TCPProxy` with the fields the conversion fills. -/
structure V2TCPProxy where
  StatPrefix : String
  Cluster : String
  IdleTimeout : Option Int
  MaxConnectAttempts : Nat
  Routes : Option (List TCPRoute)
  deriving DecidableEq, Repr

/-- A filter config, in the source a `map[string]interface{}` obtained by a JSON round
trip of one of these values; the map is held by the value it encodes. -/
inductive FilterConfig where
  | StreamFaultInject (v : StreamFaultInject)
  | StreamPayloadLimit (v : StreamPayloadLimit)
  | Mixer (clientConfig : String)
  | Proxy (v : V2Proxy)
  | TCPProxy (v : V2TCPProxy)
  deriving DecidableEq, Repr

/-- The struct `v2.Filter` (its field `Type` is written `Type_`); a nil config map is
`none`. -/
structure V2Filter where
  Type_ : String := ""
  Config : Option FilterConfig := none
  deriving DecidableEq, Repr

/-- Stream filter name `v2.MIXER` (package config/v2). -/
def MIXER : String := "mixer"
/-- Stream filter name `v2.FaultStream` (package config/v2). -/
def FaultStream : String := "fault"
/-- Stream filter name `v2.PayloadLimit` (package config/v2). -/
def PayloadLimit : String := "payload_limit"
/-- Istio's name of the fault filter. -/
def IstioFault : String := "envoy.fault"
/-- Istio-side name of the payload limit filter. -/
def MosnPayloadLimit : String := "mosn.payload_limit"

/-- An HTTP or stream filter entry of a connection manager: its name and config. -/
structure HttpFilter where
  Name : String
  Config : Option Struct
  deriving DecidableEq, Repr

/-- An xDS `HttpConnectionManager` as far as the conversion reads it: the route config
name of its RDS source, the name of its inline route configuration (`none` when nil) and
its HTTP filters. -/
structure HttpConnectionManager where
  RdsRouteConfigName : String := ""
  RouteConfig : Option String := none
  HttpFilters : List HttpFilter := []
  deriving DecidableEq, Repr

/-- An xDS `XProxy` message as far as the conversion reads it. -/
structure XProxy where
  RdsRouteConfigName : String := ""
  RouteConfig : Option String := none
  XProtocol : String := ""
  StreamFilters : List HttpFilter := []
  deriving DecidableEq, Repr

/-- An xDS `CidrRange`; `PrefixLen` is a wrapped `uint32`, `none` when nil. -/
structure XdsCidrRange where
  AddressPrefix : String
  PrefixLen : Option Nat
  deriving DecidableEq, Repr

/-- A route of the deprecated v1 TCP proxy configuration. -/
structure XdsTCPRoute where
  Cluster : String
  DestinationIpList : Option (List (Option XdsCidrRange))
  DestinationPorts : String
  SourceIpList : Option (List (Option XdsCidrRange))
  SourcePorts : String
  deriving DecidableEq, Repr

/-- The message `TcpProxy_DeprecatedV1`: a slice of route pointers. -/
structure TcpProxyDeprecatedV1 where
  Routes : List (Option XdsTCPRoute)
  deriving DecidableEq, Repr

/-- An xDS `TcpProxy` message as far as the conversion reads it. -/
structure TcpProxy where
  StatPrefix : String := ""
  Cluster : String := ""
  IdleTimeout : Option Int := none
  MaxConnectAttempts : Option Nat := none
  DeprecatedV1 : Option TcpProxyDeprecatedV1 := none
  deriving DecidableEq, Repr

/-- The calls that leave the package: `xdsutil.StructToMessage` into each message type
(with its error where the caller looks at it, and the message as far as it was filled
where the caller ignores the error), the JSON form of a mixer client config, and the
feature gate of the payload limit. -/
structure Codec where
  toHTTPFault : Option Struct → Except String HTTPFault
  toPayloadLimit : Option Struct → Except String StreamPayloadLimit
  toHttpClientConfig : Option Struct → Except String String
  toServiceConfig : Option Struct → Except String String
  toHttpConnectionManager : Option Struct → HttpConnectionManager
  toXProxy : Option Struct → XProxy
  toTcpProxy : Option Struct → TcpProxy
  PayLoadLimitEnable : Bool

/-- Function `makeJsonMap`: the JSON round trip of a config value into a map, which
does not fail on the config structs of this package. -/
def makeJsonMap (v : FilterConfig) : Except String FilterConfig := .ok v

/-- What `filter.Config, err = f(s)` leaves in the config: the map, or nil on error. -/
def configOf : Except String FilterConfig → Option FilterConfig
  | .ok cfg => some cfg
  | .error _ => none

/-- Function `convertMixerConfig`. -/
def convertMixerConfig (c : Codec) (s : Option Struct) : Except String FilterConfig :=
  match c.toHttpClientConfig s with
  | .error err => .error err
  | .ok clientConfig => .ok (.Mixer clientConfig)

/-- Function `convertStreamPayloadLimitConfig`. -/
def convertStreamPayloadLimitConfig (c : Codec) (s : Option Struct) :
    Except String FilterConfig :=
  match c.toPayloadLimit s with
  | .error err => .error err
  | .ok payloadLimitConfig =>
    makeJsonMap (.StreamPayloadLimit
      { MaxEntitySize := payloadLimitConfig.MaxEntitySize,
        HttpStatus := payloadLimitConfig.HttpStatus })

/-- Function `convertStreamFaultInjectConfig`. -/
def convertStreamFaultInjectConfig (c : Codec) (s : Option Struct) :
    Except String FilterConfig :=
  match c.toHTTPFault s with
  | .error err => .error err
  | .ok faultConfig =>
    let fixed_delay : Int :=
      match FaultDelay.GetFixedDelay faultConfig.Delay with
      | some d => d
      | none => 0
    let delayPercent := convertIstioPercentage (FaultDelay.GetPercentage faultConfig.Delay)
    let abortPercent := convertIstioPercentage (FaultAbort.GetPercentage faultConfig.Abort)
    makeJsonMap (.StreamFaultInject
      { Delay := some { Percent := delayPercent, Duration := fixed_delay },
        Abort := some { Percent := abortPercent,
                        Status := (FaultAbort.GetHttpStatus faultConfig.Abort : Int) },
        UpstreamCluster := faultConfig.UpstreamCluster,
        Headers := convertHeaders faultConfig.Headers })

/-- Function `convertStreamFilter`. -/
def convertStreamFilter (c : Codec) (name : String) (s : Option Struct) : V2Filter :=
  let filter : V2Filter := {}
  if name = MIXER then
    { filter with Type_ := name, Config := configOf (convertMixerConfig c s) }
  else if name = FaultStream ∨ name = IstioFault then
    match s with
    | none =>
      { filter with Type_ := FaultStream, Config := configOf (makeJsonMap (.StreamFaultInject {})) }
    | some _ =>
      { filter with Type_ := FaultStream, Config := configOf (convertStreamFaultInjectConfig c s) }
  else if name = MosnPayloadLimit then
    if c.PayLoadLimitEnable then
      match s with
      | none =>
        let cfg := configOf (makeJsonMap (.StreamPayloadLimit {}))
        { filter with Type_ := PayloadLimit, Config := cfg }
      | some _ =>
        let cfg := configOf (convertStreamPayloadLimitConfig c s)
        { filter with Type_ := PayloadLimit, Config := cfg }
    else filter
  else filter

/-- A value of the per-route config map: the mixer's `client.ServiceConfig`, or a filter
config map. -/
inductive PerRouteValue where
  | ServiceConfig (v : String)
  | Config (cfg : FilterConfig)
  deriving DecidableEq, Repr

/-- The body of the loop of `convertPerRouteConfig` for one entry of the xDS map.  An
entry that fails to convert is skipped with `continue`. -/
def convertPerRouteEntry (c : Codec) (perRouteConfig : GoMap String PerRouteValue)
    (entry : String × Option Struct) : GoMap String PerRouteValue :=
  let key := entry.1
  let config := entry.2
  if key = MIXER then
    match c.toServiceConfig config with
    | .error _ => perRouteConfig
    | .ok serviceConfig => GoMap.store perRouteConfig key (.ServiceConfig serviceConfig)
  else if key = FaultStream ∨ key = IstioFault then
    match convertStreamFaultInjectConfig c config with
    | .error _ => perRouteConfig
    | .ok cfg => GoMap.store perRouteConfig FaultStream (.Config cfg)
  else if key = PayloadLimit then
    if c.PayLoadLimitEnable then
      match convertStreamPayloadLimitConfig c config with
      | .error _ => perRouteConfig
      | .ok cfg => GoMap.store perRouteConfig PayloadLimit (.Config cfg)
    else perRouteConfig
  else perRouteConfig

/-- Function `convertPerRouteConfig`; the entries are visited in the order of the list. -/
def convertPerRouteConfig (c : Codec) (xdsPerRouteConfig : GoMap String (Option Struct)) :
    GoMap String PerRouteValue :=
  xdsPerRouteConfig.foldl (convertPerRouteEntry c) []

/-! ## xds/conv/convertxds.go: TCP routes -/

/-- Function `convertCidrRange`; the slice holds pointers and the getters are safe on a
nil one. -/
def convertCidrRange : Option (List (Option XdsCidrRange)) → Option (List CidrRange)
  | none => none
  | some cidr =>
    some (cidr.map (fun cidrRange =>
      match cidrRange with
      | some r => { Address := r.AddressPrefix, Length := r.PrefixLen.getD 0 }
      | none => { Address := "", Length := 0 }))

/-- Function `convertTCPRoute`; the routes are pointers and the getters are safe on a
nil one. -/
def convertTCPRoute : Option TcpProxyDeprecatedV1 → Option (List TCPRoute)
  | none => none
  | some deprecatedV1 =>
    some (deprecatedV1.Routes.map (fun router =>
      match router with
      | some r =>
        { Cluster := r.Cluster,
          SourceAddrs := convertCidrRange r.SourceIpList,
          DestinationAddrs := convertCidrRange r.DestinationIpList,
          SourcePort := r.SourcePorts,
          DestinationPort := r.DestinationPorts }
      | none =>
        { Cluster := "",
          SourceAddrs := convertCidrRange none,
          DestinationAddrs := convertCidrRange none,
          SourcePort := "",
          DestinationPort := "" }))

/-! ## xds/conv/convertxds.go: listeners -/

/-- Network filter name `xdsutil.HTTPConnectionManager`. -/
def HTTPConnectionManagerName : String := "envoy.http_connection_manager"
/-- Network filter name `xdsutil.TCPProxy`. -/
def TCPProxyName : String := "envoy.tcp_proxy"
/-- Network filter name `v2.RPC_PROXY`. -/
def RPC_PROXY : String := "rpc_proxy"
/-- Network filter name `v2.X_PROXY`. -/
def X_PROXY : String := "x_proxy"
/-- Filter type `v2.DEFAULT_NETWORK_FILTER`. -/
def DEFAULT_NETWORK_FILTER : String := "proxy"
/-- Filter type `v2.TCP_PROXY`. -/
def TCP_PROXY : String := "tcp_proxy"
/-- Listener filter name `v2.ORIGINALDST_LISTENER_FILTER`. -/
def ORIGINALDST_LISTENER_FILTER : String := "original_dst"
/-- Protocol name `protocol.HTTP1`. -/
def HTTP1 : String := "Http1"
/-- Protocol name `protocol.Xprotocol`. -/
def Xprotocol : String := "X"

/-- The table `supportFilter`: the network filters a listener may carry. -/
def supportFilter (name : String) : Bool :=
  name = HTTPConnectionManagerName ∨ name = TCPProxyName ∨ name = RPC_PROXY ∨
    name = X_PROXY ∨ name = MIXER

/-- The table `httpBaseConfig`. -/
def httpBaseConfig (name : String) : Bool :=
  name = HTTPConnectionManagerName ∨ name = RPC_PROXY

/-- An xDS listener filter: its name (the typed config is not read). -/
structure XdsListenerFilter where
  Name : String
  deriving DecidableEq, Repr

/-- An xDS network filter. -/
structure XdsFilter where
  Name : String
  Config : Option Struct
  deriving DecidableEq, Repr

/-- An xDS filter chain: the text of its match and its filters, `none` for a nil
slice.  The TLS context is left out. -/
structure XdsFilterChain where
  FilterChainMatch : String := "<nil>"
  Filters : Option (List XdsFilter)
  deriving DecidableEq, Repr

/-- An xDS listener with the fields the conversion reads apart from its address and its
access logs: `BindToPort` is the value wrapped in `DeprecatedV1` (`none` when either
pointer is nil), the slices are `none` when nil. -/
structure XdsListener where
  Name : String
  BindToPort : Option Bool := none
  UseOriginalDst : Option Bool := none
  PerConnectionBufferLimitBytes : Option Nat := none
  ListenerFilters : Option (List XdsListenerFilter) := none
  FilterChains : Option (List XdsFilterChain) := none
  deriving DecidableEq, Repr

/-- The struct `v2.FilterChain`: match and filters; the TLS configuration is left out. -/
structure V2FilterChain where
  FilterChainMatch : String
  Filters : Option (List V2Filter)
  deriving DecidableEq, Repr

/-- The struct `v2.Listener` with the fields of `XdsListener` carried over, and the
three filter lists. -/
structure V2Listener where
  Name : String
  BindToPort : Bool
  Inspector : Bool
  UseOriginalDst : Bool
  PerConnBufferLimitBytes : Nat
  ListenerFilters : Option (List V2Filter) := none
  FilterChains : Option (List V2FilterChain) := none
  StreamFilters : Option (List V2Filter) := none
  deriving DecidableEq, Repr

/-- A Go run-time panic. -/
inductive GoPanic where
  | indexOutOfRange (index length : Nat)
  deriving DecidableEq, Repr

/-- Slice indexing `xs[i]`, which panics outside the bounds. -/
def index {α : Type} (xs : List α) (i : Nat) : Except GoPanic α :=
  match xs[i]? with
  | some x => .ok x
  | none => .error (.indexOutOfRange i xs.length)

/-- Function `isSupport`. -/
def isSupport : Option XdsListener → Bool
  | none => false
  | some xdsListener =>
    if xdsListener.Name = "virtual" then true
    else
      (xdsListener.FilterChains.getD []).all (fun filterChain =>
        (filterChain.Filters.getD []).all (fun filter => supportFilter filter.Name))

/-- Function `convertBindToPort`, on the wrapped value. -/
def convertBindToPort : Option Bool → Bool
  | none => true
  | some value => value

/-- Function `convertListenerFilter`. -/
def convertListenerFilter (name : String) : V2Filter :=
  let filter : V2Filter := {}
  if name = ORIGINALDST_LISTENER_FILTER then { filter with Type_ := name }
  else filter

/-- Function `convertListenerFilters`. -/
def convertListenerFilters : Option (List XdsListenerFilter) → Option (List V2Filter)
  | none => none
  | some listenerFilter =>
    some (listenerFilter.foldl (fun filters filter =>
      let listenerfilter := convertListenerFilter filter.Name
      if listenerfilter.Type_ ≠ "" then filters ++ [listenerfilter] else filters) [])

/-- Function `convertStreamFilters`. -/
def convertStreamFilters (c : Codec) (networkFilter : XdsFilter) : List V2Filter :=
  let name := networkFilter.Name
  if httpBaseConfig name then
    let filterConfig := c.toHttpConnectionManager networkFilter.Config
    filterConfig.HttpFilters.foldl (fun filters filter =>
      let streamFilter := convertStreamFilter c filter.Name filter.Config
      if streamFilter.Type_ ≠ "" then filters ++ [streamFilter] else filters) []
  else if name = X_PROXY then
    let filterConfig := c.toXProxy networkFilter.Config
    filterConfig.StreamFilters.foldl (fun filters filter =>
      filters ++ [convertStreamFilter c filter.Name filter.Config]) []
  else []

/-- The name `ConvertRouterConf` gives the router configuration, `none` when it returns
a nil configuration. -/
def routerConfigNameOf (routeConfigName : String) (xdsRouteConfig : Option String) :
    Option String :=
  if routeConfigName ≠ "" then some routeConfigName
  else xdsRouteConfig

/-- Function `convertFilterConfig`: the returned map as the list of its entries, `none`
for a nil map.  Handing the router configuration to the routers manager does not
change the returned map and is left out. -/
def convertFilterConfig (c : Codec) (name : String) (s : Option Struct) :
    Option (GoMap String FilterConfig) :=
  match s with
  | none => none
  | some _ =>
    if name = HTTPConnectionManagerName ∨ name = RPC_PROXY then
      let filterConfig := c.toHttpConnectionManager s
      let routerConfig :=
        routerConfigNameOf filterConfig.RdsRouteConfigName filterConfig.RouteConfig
      let proxyConfig : V2Proxy :=
        if name = HTTPConnectionManagerName then
          { DownstreamProtocol := HTTP1, UpstreamProtocol := HTTP1, RouterConfigName := "",
            ExtendConfig := none }
        else
          { DownstreamProtocol := Xprotocol, UpstreamProtocol := Xprotocol,
            RouterConfigName := "", ExtendConfig := none }
      let routerConfigName := routerConfig.getD ""
      some (GoMap.store [] DEFAULT_NETWORK_FILTER
        (.Proxy { proxyConfig with RouterConfigName := routerConfigName }))
    else if name = X_PROXY then
      let filterConfig := c.toXProxy s
      let routerConfig :=
        routerConfigNameOf filterConfig.RdsRouteConfigName filterConfig.RouteConfig
      let proxyConfig : V2Proxy :=
        { DownstreamProtocol := Xprotocol, UpstreamProtocol := Xprotocol,
          RouterConfigName := "", ExtendConfig := some filterConfig.XProtocol }
      let routerConfigName := routerConfig.getD ""
      some (GoMap.store [] DEFAULT_NETWORK_FILTER
        (.Proxy { proxyConfig with RouterConfigName := routerConfigName }))
    else if name = TCPProxyName then
      let filterConfig := c.toTcpProxy s
      let tcpProxyConfig : V2TCPProxy :=
        { StatPrefix := filterConfig.StatPrefix,
          Cluster := filterConfig.Cluster,
          IdleTimeout := filterConfig.IdleTimeout,
          MaxConnectAttempts := filterConfig.MaxConnectAttempts.getD 0,
          Routes := convertTCPRoute filterConfig.DeprecatedV1 }
      some (GoMap.store [] TCP_PROXY (.TCPProxy tcpProxyConfig))
    else if name = MIXER then none
    else none

/-- Function `convertFilters`. -/
def convertFilters (c : Codec) : Option (List XdsFilter) → Option (List V2Filter)
  | none => none
  | some xdsFilters =>
    some (xdsFilters.foldl (fun filters xdsFilter =>
      let filterMaps := convertFilterConfig c xdsFilter.Name xdsFilter.Config
      (filterMaps.getD []).foldl (fun filters entry =>
        filters ++ [{ Type_ := entry.1, Config := some entry.2 }]) filters) [])

/-- Function `convertFilterChains`. -/
def convertFilterChains (c : Codec) : Option (List XdsFilterChain) → Option (List V2FilterChain)
  | none => none
  | some xdsFilterChains =>
    some (xdsFilterChains.foldl (fun filterChains xdsFilterChain =>
      filterChains ++ [{ FilterChainMatch := xdsFilterChain.FilterChainMatch,
                         Filters := convertFilters c xdsFilterChain.Filters }]) [])

/-- Function `ConvertListenerConfig`: the listener it returns (`none` for nil), or the
panic that ends it. -/
def ConvertListenerConfig (c : Codec) (xdsListener : Option XdsListener) :
    Except GoPanic (Option V2Listener) :=
  if ¬ isSupport xdsListener then .ok none
  else
    match xdsListener with
    | none => .ok none
    | some l =>
      let listenerConfig : V2Listener :=
        { Name := l.Name,
          BindToPort := convertBindToPort l.BindToPort,
          Inspector := true,
          UseOriginalDst := l.UseOriginalDst.getD false,
          PerConnBufferLimitBytes := l.PerConnectionBufferLimitBytes.getD 0 }
      if listenerConfig.Name = "virtual" then .ok (some listenerConfig)
      else
        let listenerFilters := convertListenerFilters l.ListenerFilters
        let listenerConfig1 := { listenerConfig with ListenerFilters := listenerFilters }
        let filterChains := convertFilterChains c l.FilterChains
        let listenerConfig2 := { listenerConfig1 with FilterChains := filterChains }
        match listenerConfig2.FilterChains with
        | some [filterChain] =>
          match filterChain.Filters with
          | some _ =>
            match index (l.FilterChains.getD []) 0 with
            | .error p => .error p
            | .ok xdsFilterChain =>
              match index (xdsFilterChain.Filters.getD []) 0 with
              | .error p => .error p
              | .ok networkFilter =>
                let streamFilters := convertStreamFilters c networkFilter
                .ok (some { listenerConfig2 with StreamFilters := some streamFilters })
          | none => .ok (some listenerConfig2)
        | _ => .ok (some listenerConfig2)

/-! ## http2/stream.go: body chunks and the stream-map mutex -/

namespace Http2

/-- Function `buffer.NewIoBuffer`: an empty buffer of the given capacity.  A buffer is
held by its unread bytes. -/
def NewIoBuffer (_capacity : Nat) : List Byte := []

/-- The statement of `handleFrame` that stores the bytes of a data frame on the stream:
`stream.sendData = append(stream.sendData, buffer.NewIoBufferBytes(data).Clone())`. -/
def H2Stream.receiveData (s : H2Stream) (data : List Byte) : H2Stream :=
  { s with sendData := some (s.sendData.getD [] ++ [data]) }

/-- Method `stream.buildData`.  Handing the chunks back to the buffer pool after
copying them is left out. -/
def H2Stream.buildData (s : H2Stream) : List Byte :=
  match s.sendData with
  | none => NewIoBuffer 0
  | some sendData =>
    if sendData.length = 1 then sendData.headD []
    else
      let size := sendData.foldl (fun size buf => size + buf.length) 0
      sendData.foldl (fun data buf => data ++ buf) (NewIoBuffer size)

/-- The state of a `sync.RWMutex` of the standard library: how many read locks are held
and whether the write lock is held. -/
structure RWMutex where
  readers : Nat
  writer : Bool
  deriving DecidableEq, Repr

/-- A mutex nobody holds. -/
def RWMutex.unlocked : RWMutex := { readers := 0, writer := false }

/-- How one call on the mutex ends: it goes through, it blocks the caller, or the run
time stops the program with a fatal error. -/
inductive LockStep where
  | done (mu : RWMutex)
  | blocks
  | fatal (message : String)
  deriving DecidableEq, Repr

/-- Method `RWMutex.RLock`: waits while the write lock is held. -/
def RWMutex.RLock (mu : RWMutex) : LockStep :=
  if mu.writer then .blocks else .done { mu with readers := mu.readers + 1 }

/-- Method `RWMutex.RUnlock`: a fatal error when no read lock is held. -/
def RWMutex.RUnlock (mu : RWMutex) : LockStep :=
  if mu.readers = 0 then .fatal "sync: RUnlock of unlocked RWMutex"
  else .done { mu with readers := mu.readers - 1 }

/-- Method `RWMutex.Lock`: waits while any lock is held. -/
def RWMutex.Lock (mu : RWMutex) : LockStep :=
  if mu.writer ∨ mu.readers > 0 then .blocks else .done { mu with writer := true }

/-- Method `RWMutex.Unlock`: a fatal error when the write lock is not held. -/
def RWMutex.Unlock (mu : RWMutex) : LockStep :=
  if mu.writer then .done { mu with writer := false }
  else .fatal "sync: Unlock of unlocked RWMutex"

/-- How an operation of a stream connection ends: with its return value, the mutex as it
leaves it and what it did to the streams; blocked on the mutex; or stopped by a fatal
error after what it had done. -/
inductive Outcome (α : Type) where
  | returned (value : α) (mu : RWMutex) (effects : List H2Effect)
  | blocked
  | fatal (message : String) (effects : List H2Effect)
  deriving DecidableEq, Repr

/-- Method `serverStreamConnection.ActiveStreamsNum`: `RLock`, then the deferred
`Unlock` once the length is taken. -/
def ServerStreamConnection.ActiveStreamsNum (conn : ServerStreamConnection) (mutex : RWMutex) :
    Outcome Nat :=
  match mutex.RLock with
  | .blocks => .blocked
  | .fatal message => .fatal message []
  | .done mutex1 =>
    let value := GoMap.len conn.streams
    match mutex1.Unlock with
    | .blocks => .blocked
    | .fatal message => .fatal message []
    | .done mutex2 => .returned value mutex2 []

/-- Method `serverStreamConnection.Reset`: `RLock`, the reset of every stream of the
map, then the deferred `Unlock`. -/
def ServerStreamConnection.Reset (conn : ServerStreamConnection) (mutex : RWMutex)
    (reason : StreamResetReason) : Outcome Unit :=
  match mutex.RLock with
  | .blocks => .blocked
  | .fatal message => .fatal message []
  | .done mutex1 =>
    let effects := conn.streams.foldl (fun es e => es ++ serverStreamReset e.2 reason) []
    match mutex1.Unlock with
    | .blocks => .blocked
    | .fatal message => .fatal message effects
    | .done mutex2 => .returned () mutex2 effects

/-- Method `clientStreamConnection.ActiveStreamsNum`: `RLock`, then the deferred
`RUnlock` once the length is taken. -/
def ClientStreamConnection.ActiveStreamsNum (conn : ClientStreamConnection) (mutex : RWMutex) :
    Outcome Nat :=
  match mutex.RLock with
  | .blocks => .blocked
  | .fatal message => .fatal message []
  | .done mutex1 =>
    let value := GoMap.len conn.streams
    match mutex1.RUnlock with
    | .blocks => .blocked
    | .fatal message => .fatal message []
    | .done mutex2 => .returned value mutex2 []

/-- Method `clientStreamConnection.Reset`: `Lock`, the reset of every stream of the map
(a connection termination is reported as a connection failure), then the deferred
`Unlock`. -/
def ClientStreamConnection.Reset (conn : ClientStreamConnection) (mutex : RWMutex)
    (reason : StreamResetReason) : Outcome Unit :=
  match mutex.Lock with
  | .blocks => .blocked
  | .fatal message => .fatal message []
  | .done mutex1 =>
    let reason1 := if reason = .StreamConnectionTermination then .StreamConnectionFailed else reason
    let effects := conn.streams.foldl (fun es e => es ++ clientStreamReset e.2 reason1) []
    match mutex1.Unlock with
    | .blocks => .blocked
    | .fatal message => .fatal message effects
    | .done mutex2 => .returned () mutex2 effects

/-- A client connection with the streams 1, 3 and 5. -/
def clientThreeStreams : ClientStreamConnection :=
  { streams := serverThreeStreams.streams }

end Http2

/-! ## server/server.go -/

/-- The struct `server` by its name; its handler is addressed through it. -/
structure Server where
  serverName : String
  deriving DecidableEq, Repr

/-- What the shutdown functions do to the handlers and to the clock, in order. -/
inductive ServerEffect where
  | NewTimer (d : Int)
  | handlerStopConnection (serverName : String)
  | receiveTimer
  deriving DecidableEq, Repr

/-- Function `StopConnection`, over the registered servers. -/
def StopConnection (servers : List Server) : List ServerEffect :=
  servers.map (fun server => ServerEffect.handlerStopConnection server.serverName)

/-- Function `WaitConnectionsDone`, with the variable `buffer.ConnReadTimeout` and the
registered servers as parameters; durations are in nanoseconds.  The result is the
returned error (`none` for nil) and what was done until the return. -/
def WaitConnectionsDone (ConnReadTimeout : Int) (servers : List Server) (duration : Int) :
    Option String × List ServerEffect :=
  let timeout := wrapInt64 (wrapInt64 (2 * duration) + wrapInt64 (2 * ConnReadTimeout))
  (none, [ServerEffect.NewTimer timeout] ++ StopConnection servers ++ [ServerEffect.receiveTimer])

/-- One second as a `time.Duration`. -/
def Second : Int := 1000000000

/-! ## proxy.go: the worker pool -/

/-- The `interface{}` value handed to a config-parsed listener: an `int`, or a value of
another type (nil included). -/
inductive ConfigData where
  | int (v : Int)
  | other (tag : String)
  deriving DecidableEq, Repr

/-- What `initWorkerPool` does, in order. -/
inductive InitEffect where
  | initGlobalStats
  | NewWorkerPool (size : Int)
  deriving DecidableEq, Repr

/-- Function `initWorkerPool`, with the result of `runtime.NumCPU()` as a parameter.
The result is the returned error (`none` for nil) and what was done. -/
def initWorkerPool (NumCPU : Int) (data : ConfigData) (_endParsing : Bool) :
    Option String × List InitEffect :=
  let poolSize := wrapInt64 (NumCPU * 256)
  let poolSize :=
    match data with
    | .int pNum => if pNum > 0 then wrapInt64 (pNum * 256) else poolSize
    | .other _ => poolSize
  (none, [InitEffect.initGlobalStats, InitEffect.NewWorkerPool poolSize])

/-! ## Examples for the xDS conversion -/

/-- The route of the package's test of `convertTCPRoute`. -/
def testRoute : XdsTCPRoute :=
  { Cluster := "tcp",
    DestinationIpList := some [some { AddressPrefix := "192.168.1.1", PrefixLen := some 32 }],
    DestinationPorts := "50",
    SourceIpList := some [some { AddressPrefix := "192.168.1.2", PrefixLen := some 32 }],
    SourcePorts := "40" }

/-- The header matcher of the package's tests: an exact match on `end-user`. -/
def endUserJason : XdsHeaderMatcher :=
  { Name := "end-user", HeaderMatchSpecifier := .ExactMatch "jason", InvertMatch := false }

/-- The fault of the package's per-route test: full delay of one second, full abort with
status 500. -/
def exampleFault : HTTPFault :=
  { Delay := some { Percentage := some ⟨100, .HUNDRED⟩, FixedDelay := some 1000000000 },
    Abort := some { Percentage := some ⟨100, .HUNDRED⟩, HttpStatus := some 500 },
    UpstreamCluster := "testupstream",
    Headers := some [some endUserJason] }

/-- A codec for examples: the struct with text "fault" decodes to `exampleFault`, every
other struct fails to decode where an error is reported and decodes to an empty message
where it is ignored. -/
def exampleCodec : Codec :=
  { toHTTPFault := fun s =>
      if s = some ⟨"fault"⟩ then .ok exampleFault else .error "no fault"
    toPayloadLimit := fun _ => .error "no payload limit"
    toHttpClientConfig := fun _ => .error "no mixer config"
    toServiceConfig := fun _ => .error "no service config"
    toHttpConnectionManager := fun _ => {}
    toXProxy := fun _ => {}
    toTcpProxy := fun _ => {}
    PayLoadLimitEnable := false }

/-- A listener for examples: one filter chain whose filter slice is empty but not nil. -/
def listenerEmptyFilters : XdsListener :=
  { Name := "0.0.0.0_80", FilterChains := some [{ Filters := some [] }] }

/-- A listener for examples: one filter chain with a mixer filter, an original-destination
listener filter between two others. -/
def listenerMixer : XdsListener :=
  { Name := "0.0.0.0_80",
    ListenerFilters := some [⟨"tls_inspector"⟩, ⟨"original_dst"⟩, ⟨"other"⟩],
    FilterChains := some [{ Filters := some [{ Name := "mixer", Config := some ⟨"m"⟩ }] }] }

/-! ## Lemmas on Go maps -/

namespace GoMap

variable {K V : Type} [DecidableEq K]

theorem load_delete_self (m : GoMap K V) (k : K) : load (delete m k) k = none := by
  induction m with
  | nil => rfl
  | cons e t ih =>
    obtain ⟨k', v⟩ := e
    by_cases h : k' = k
    · simp [delete, h, ih]
    · simp [delete, load, h, ih]

theorem load_delete_ne (m : GoMap K V) {k k' : K} (h : k ≠ k') :
    load (delete m k) k' = load m k' := by
  induction m with
  | nil => rfl
  | cons e t ih =>
    obtain ⟨k1, v⟩ := e
    by_cases h1 : k1 = k
    · subst h1
      simp [delete, load, h, ih]
    · by_cases h2 : k1 = k'
      · subst h2
        simp [delete, load, h1]
      · simp [delete, load, h1, h2, ih]

theorem load_store_self (m : GoMap K V) (k : K) (v : V) : load (store m k v) k = some v := by
  simp [store, load]

theorem load_store_ne (m : GoMap K V) {k k' : K} (v : V) (h : k ≠ k') :
    load (store m k v) k' = load m k' := by
  simp [store, load, h, load_delete_ne m h]

theorem all_delete (m : GoMap K V) (k : K) (f : K × V → Bool) (h : m.all f = true) :
    (delete m k).all f = true := by
  induction m with
  | nil => rfl
  | cons e t ih =>
    obtain ⟨k', v⟩ := e
    simp only [List.all_cons, Bool.and_eq_true] at h
    by_cases h1 : k' = k
    · simp only [delete, h1, if_true]
      exact ih h.2
    · simp only [delete, h1, if_false, List.all_cons, Bool.and_eq_true]
      exact ⟨h.1, ih h.2⟩

theorem all_store (m : GoMap K V) (k : K) (v : V) (f : K × V → Bool) (h : m.all f = true)
    (hv : f (k, v) = true) : (store m k v).all f = true := by
  simp only [store, List.all_cons, Bool.and_eq_true]
  exact ⟨hv, all_delete m k f h⟩

theorem all_load (m : GoMap K V) (f : K × V → Bool) (h : m.all f = true) {k : K} {v : V}
    (hl : load m k = some v) : f (k, v) = true := by
  induction m with
  | nil => simp [load] at hl
  | cons e t ih =>
    obtain ⟨k', v'⟩ := e
    simp only [List.all_cons, Bool.and_eq_true] at h
    by_cases h1 : k' = k
    · simp only [load, h1, if_true, Option.some.injEq] at hl
      subst h1; subst hl
      exact h.1
    · simp only [load, h1, if_false] at hl
      exact ih h.2 hl

end GoMap

/-! ## The connection pool -/

/-- A Connected entry of a pool with ready clients carries a stream client. -/
theorem clientsReady_load {p : ConnPool} (h : p.clientsReady = true) {sub : Byte}
    {c : ActiveClient} (hl : GoMap.load p.activeClients sub = some c) (hc : c.state = Connected) :
    ∃ codec, c.client = some codec := by
  have := GoMap.all_load p.activeClients _ h hl
  simp only [Bool.or_eq_true, decide_eq_true_eq] at this
  rcases this with h1 | h1
  · exact absurd hc h1
  · exact Option.isSome_iff_exists.mp h1

/-- Claim C1: every call of the pool's NewStream makes exactly one listener callback:
OnFailure(ConnectionFailure) with the pool unchanged when there is no entry for the
sub protocol or the entry is not Connected; otherwise OnFailure(Overflow) with
UpstreamRequestPendingOverflow one higher on host and cluster stats and nothing else
changed when CanCreate is false; otherwise OnReady with UpstreamRequestTotal one higher
on host and cluster stats. -/
theorem C1_NewStream_one_callback (p : ConnPool) (ctx : Ctx) (responseDecoder : Option Receiver)
    (hready : p.clientsReady = true) :
    ∃ r, p.NewStream ctx responseDecoder = some r ∧ r.callbacks.length = 1 ∧
      (((GoMap.load p.activeClients (getSubProtocol ctx) = none ∨
          ∃ c, GoMap.load p.activeClients (getSubProtocol ctx) = some c ∧ c.state ≠ Connected) ∧
        r.callbacks = [PoolCallback.OnFailure .ConnectionFailure p.host.address] ∧ r.pool = p) ∨
       ((∃ c, GoMap.load p.activeClients (getSubProtocol ctx) = some c ∧ c.state = Connected) ∧
        p.host.requests.CanCreate = false ∧
        r.callbacks = [PoolCallback.OnFailure .Overflow p.host.address] ∧
        r.pool.activeClients = p.activeClients ∧
        r.pool.host.requests = p.host.requests ∧
        r.pool.host.hostStats = { p.host.hostStats with UpstreamRequestPendingOverflow :=
          p.host.hostStats.UpstreamRequestPendingOverflow + 1 } ∧
        r.pool.host.clusterStats = { p.host.clusterStats with UpstreamRequestPendingOverflow :=
          p.host.clusterStats.UpstreamRequestPendingOverflow + 1 } ∧
        r.pool.host.hostStats.UpstreamRequestTotal = p.host.hostStats.UpstreamRequestTotal ∧
        r.pool.host.clusterStats.UpstreamRequestTotal = p.host.clusterStats.UpstreamRequestTotal) ∨
       ((∃ c, GoMap.load p.activeClients (getSubProtocol ctx) = some c ∧ c.state = Connected) ∧
        p.host.requests.CanCreate = true ∧
        (∃ sender, r.callbacks = [PoolCallback.OnReady sender p.host.address] ∧
          sender.receiver = responseDecoder) ∧
        r.pool.host.hostStats.UpstreamRequestTotal = p.host.hostStats.UpstreamRequestTotal + 1 ∧
        r.pool.host.clusterStats.UpstreamRequestTotal =
          p.host.clusterStats.UpstreamRequestTotal + 1 ∧
        r.pool.host.hostStats.UpstreamRequestPendingOverflow =
          p.host.hostStats.UpstreamRequestPendingOverflow ∧
        r.pool.host.clusterStats.UpstreamRequestPendingOverflow =
          p.host.clusterStats.UpstreamRequestPendingOverflow)) := by
  unfold ConnPool.NewStream
  dsimp only
  split
  · next hl => exact ⟨_, rfl, rfl, Or.inl ⟨Or.inl hl, rfl, rfl⟩⟩
  · next c hl =>
    by_cases hc : c.state = Connected
    · rw [if_neg (not_not.mpr hc)]
      by_cases hcan : p.host.requests.CanCreate = true
      · rw [if_neg (not_not.mpr hcan)]
        obtain ⟨codec, hcodec⟩ := clientsReady_load hready hl hc
        rw [hcodec]
        cases responseDecoder with
        | none =>
          exact ⟨_, rfl, rfl, Or.inr (Or.inr
            ⟨⟨c, hl, hc⟩, hcan, ⟨_, rfl, rfl⟩, rfl, rfl, rfl, rfl⟩)⟩
        | some rd =>
          exact ⟨_, rfl, rfl, Or.inr (Or.inr
            ⟨⟨c, hl, hc⟩, hcan, ⟨_, rfl, rfl⟩, rfl, rfl, rfl, rfl⟩)⟩
      · rw [if_pos hcan]
        have hcan1 : p.host.requests.CanCreate = false := by simpa using hcan
        exact ⟨_, rfl, rfl, Or.inr (Or.inl
          ⟨⟨c, hl, hc⟩, hcan1, rfl, rfl, rfl, rfl, rfl, rfl, rfl⟩)⟩
    · rw [if_pos hc]
      exact ⟨_, rfl, rfl, Or.inl ⟨Or.inr ⟨c, hl, hc⟩, rfl, rfl⟩⟩

/-- Witness for C1: on a pool with a connected default client and room for requests, a
two-way NewStream makes exactly one callback. -/
theorem C1_NewStream_one_callback_witness :
    connectedPool.clientsReady = true ∧
    ∃ r, connectedPool.NewStream none (some 7) = some r ∧ r.callbacks.length = 1 :=
  ⟨by decide, by
    obtain ⟨r, h1, h2, _⟩ := C1_NewStream_one_callback connectedPool none (some 7) (by decide)
    exact ⟨r, h1, h2⟩⟩

/-- The three outcomes of `CheckAndInit`, by the entry found. -/
theorem CheckAndInit_none {p : ConnPool} {ctx : Ctx}
    (h : GoMap.load p.activeClients (getSubProtocol ctx) = none) :
    p.CheckAndInit ctx =
      ⟨⟨GoMap.store (GoMap.store p.activeClients (getSubProtocol ctx) fakeclient)
          (getSubProtocol ctx) { fakeclient with state := Connecting }, p.host⟩,
        false, [getSubProtocol ctx]⟩ := by
  unfold ConnPool.CheckAndInit
  simp only [h]
  rfl

theorem CheckAndInit_some {p : ConnPool} {ctx : Ctx} {c : ActiveClient}
    (h : GoMap.load p.activeClients (getSubProtocol ctx) = some c) :
    p.CheckAndInit ctx =
      if c.state = Connected then { pool := p, ready := true, dials := [] }
      else if c.state = Init then
        ⟨⟨GoMap.store p.activeClients (getSubProtocol ctx) { c with state := Connecting },
          p.host⟩, false, [getSubProtocol ctx]⟩
      else { pool := p, ready := false, dials := [] } := by
  unfold ConnPool.CheckAndInit
  simp only [h]

/-- `CheckAndInit` answers true exactly on a Connected entry. -/
theorem CheckAndInit_ready_iff (p : ConnPool) (ctx : Ctx) :
    (p.CheckAndInit ctx).ready = true ↔
      ∃ c, GoMap.load p.activeClients (getSubProtocol ctx) = some c ∧ c.state = Connected := by
  cases hl : GoMap.load p.activeClients (getSubProtocol ctx) with
  | none =>
    rw [CheckAndInit_none hl]
    simp
  | some c =>
    rw [CheckAndInit_some hl]
    by_cases hc : c.state = Connected
    · rw [if_pos hc]
      simp [hc]
    · by_cases hi : c.state = Init
      · rw [if_neg hc, if_pos hi]
        simp [hc]
      · rw [if_neg hc, if_neg hi]
        simp [hc]

/-- Claim C2: run sequentially, CheckAndInit returns true exactly when the map holds an
entry for the context's sub protocol whose state is Connected; and when it returns true
it starts no dial and leaves the pool, hence every entry, unchanged. -/
theorem C2_CheckAndInit_true_iff_connected (p : ConnPool) (ctx : Ctx) :
    ((p.CheckAndInit ctx).ready = true ↔
      ∃ c, GoMap.load p.activeClients (getSubProtocol ctx) = some c ∧ c.state = Connected) ∧
    ((p.CheckAndInit ctx).ready = true →
      (p.CheckAndInit ctx).dials = [] ∧ (p.CheckAndInit ctx).pool = p) := by
  cases hl : GoMap.load p.activeClients (getSubProtocol ctx) with
  | none =>
    rw [CheckAndInit_none hl]
    simp
  | some c =>
    rw [CheckAndInit_some hl]
    by_cases hc : c.state = Connected
    · rw [if_pos hc]
      simp [hc]
    · by_cases hi : c.state = Init
      · rw [if_neg hc, if_pos hi]
        simp [hc]
      · rw [if_neg hc, if_neg hi]
        simp [hc]

/-- Witness for C2: on the connected pool CheckAndInit returns true, starts no dial and
changes nothing. -/
theorem C2_CheckAndInit_true_iff_connected_witness :
    (connectedPool.CheckAndInit none).ready = true ∧
    (connectedPool.CheckAndInit none).dials = [] ∧
    (connectedPool.CheckAndInit none).pool = connectedPool :=
  ⟨by decide, (C2_CheckAndInit_true_iff_connected connectedPool none).2 (by decide)⟩

/-- Claim C5: the active-client state machine.  When the dial fails the entry of the
sub protocol is removed, and the next CheckAndInit for it returns false and starts a new
dial.  When the dial succeeds the entry is a Connected client and the next CheckAndInit
returns true.  A close event delivered for a client removes the entry of that client's
sub protocol, and the next CheckAndInit for it returns false and starts a new dial. -/
theorem C5_dial_and_close_transitions (p : ConnPool) (ctx : Ctx) (connID : Nat) :
    (GoMap.load (p.init (getSubProtocol ctx) connID false).1.activeClients (getSubProtocol ctx)
        = none ∧
      (p.init (getSubProtocol ctx) connID false).2 = none ∧
      ((p.init (getSubProtocol ctx) connID false).1.CheckAndInit ctx).ready = false ∧
      ((p.init (getSubProtocol ctx) connID false).1.CheckAndInit ctx).dials
        = [getSubProtocol ctx]) ∧
    ((∃ c, GoMap.load (p.init (getSubProtocol ctx) connID true).1.activeClients
          (getSubProtocol ctx) = some c ∧ c.state = Connected ∧
          c.subProtocol = getSubProtocol ctx ∧
          (p.init (getSubProtocol ctx) connID true).2 = some c) ∧
      ((p.init (getSubProtocol ctx) connID true).1.CheckAndInit ctx).ready = true ∧
      ((p.init (getSubProtocol ctx) connID true).1.CheckAndInit ctx).dials = []) ∧
    (∀ (client : ActiveClient) (event : ConnectionEvent),
      event.IsClose = true → client.subProtocol = getSubProtocol ctx →
      GoMap.load (p.onConnectionEvent client event).pool.activeClients client.subProtocol
        = none ∧
      ((p.onConnectionEvent client event).pool.CheckAndInit ctx).ready = false ∧
      ((p.onConnectionEvent client event).pool.CheckAndInit ctx).dials
        = [getSubProtocol ctx]) := by
  refine ⟨?_, ?_, ?_⟩
  · have h : GoMap.load (p.init (getSubProtocol ctx) connID false).1.activeClients
        (getSubProtocol ctx) = none := by
      simp [ConnPool.init, newActiveClient, GoMap.load_delete_self]
    refine ⟨h, by simp [ConnPool.init, newActiveClient], ?_, ?_⟩
    · rw [CheckAndInit_none h]
    · rw [CheckAndInit_none h]
  · have h : GoMap.load (p.init (getSubProtocol ctx) connID true).1.activeClients
        (getSubProtocol ctx) = some (Option.get ((p.init (getSubProtocol ctx) connID true).2)
          (by simp [ConnPool.init, newActiveClient])) := by
      simp [ConnPool.init, newActiveClient, GoMap.load_store_self]
    have hs : (Option.get ((p.init (getSubProtocol ctx) connID true).2)
          (by simp [ConnPool.init, newActiveClient])).state = Connected := by
      simp [ConnPool.init, newActiveClient]
    refine ⟨⟨_, h, hs, by simp [ConnPool.init, newActiveClient], by simp⟩, ?_, ?_⟩
    · rw [CheckAndInit_some h, if_pos hs]
    · rw [CheckAndInit_some h, if_pos hs]
  · intro client event hclose hsub
    have h : GoMap.load (p.onConnectionEvent client event).pool.activeClients
        client.subProtocol = none := by
      simp [ConnPool.onConnectionEvent, hclose, GoMap.load_delete_self]
    refine ⟨h, ?_, ?_⟩
    · rw [hsub] at h
      rw [CheckAndInit_none h]
    · rw [hsub] at h
      rw [CheckAndInit_none h]

/-- Witness for C5: a remote close delivered for the connected default client removes
its entry, and the next CheckAndInit re-dials. -/
theorem C5_dial_and_close_transitions_witness :
    ConnectionEvent.RemoteClose.IsClose = true ∧
    GoMap.load (connectedPool.onConnectionEvent
      { fakeclient with state := Connected } .RemoteClose).pool.activeClients 0 = none ∧
    ((connectedPool.onConnectionEvent
      { fakeclient with state := Connected } .RemoteClose).pool.CheckAndInit none).ready = false ∧
    ((connectedPool.onConnectionEvent
      { fakeclient with state := Connected } .RemoteClose).pool.CheckAndInit none).dials = [0] :=
  ⟨rfl, (C5_dial_and_close_transitions connectedPool none 5).2.2
    { fakeclient with state := Connected } .RemoteClose rfl rfl⟩

/-! ### Effect of each operation on entry states and request gauges -/

theorem find_removeFirst_countP {α : Type} (f g : α → Bool) {l : List α} {x : α}
    (h : l.find? f = some x) :
    (removeFirst f l).countP g + (if g x then 1 else 0) = l.countP g := by
  induction l with
  | nil => simp at h
  | cons y t ih =>
    by_cases hy : f y = true
    · simp only [List.find?, hy, Option.some.injEq] at h
      subst h
      simp [removeFirst, hy, List.countP_cons]
    · have hy1 : f y = false := by simpa using hy
      simp only [List.find?, hy1] at h
      have := ih h
      simp only [removeFirst, hy1, Bool.false_eq_true, if_false, List.countP_cons]
      omega

theorem mem_removeFirst {α : Type} (f : α → Bool) {l : List α} {y : α}
    (h : y ∈ removeFirst f l) : y ∈ l := by
  induction l with
  | nil => simp [removeFirst] at h
  | cons z t ih =>
    by_cases hz : f z = true
    · simp only [removeFirst, hz, if_true] at h
      exact List.mem_cons_of_mem _ h
    · have hz1 : f z = false := by simpa using hz
      simp only [removeFirst, hz1, Bool.false_eq_true, if_false, List.mem_cons] at h
      rcases h with h1 | h2
      · exact h1 ▸ List.mem_cons_self _ _
      · exact List.mem_cons_of_mem _ (ih h2)

theorem stateOf_CheckAndInit_ne (p : ConnPool) (ctx : Ctx) {sub : Byte}
    (h : getSubProtocol ctx ≠ sub) : (p.CheckAndInit ctx).pool.stateOf sub = p.stateOf sub := by
  unfold ConnPool.stateOf
  cases hl : GoMap.load p.activeClients (getSubProtocol ctx) with
  | none =>
    rw [CheckAndInit_none hl]
    simp [GoMap.load_store_ne _ _ h]
  | some c =>
    rw [CheckAndInit_some hl]
    split_ifs <;> simp [GoMap.load_store_ne _ _ h]

theorem CheckAndInit_host (p : ConnPool) (ctx : Ctx) : (p.CheckAndInit ctx).pool.host = p.host := by
  cases hl : GoMap.load p.activeClients (getSubProtocol ctx) with
  | none => rw [CheckAndInit_none hl]
  | some c =>
    rw [CheckAndInit_some hl]
    split_ifs <;> rfl

theorem init_ok (p : ConnPool) (sub : Byte) (connID : Nat) :
    ∃ c p1, p.init sub connID true = (p1, some c) ∧ c.state = Connected ∧ c.subProtocol = sub ∧
      c.client = some { connID := connID, currStreamID := 0 } ∧
      p1.activeClients = GoMap.store p.activeClients sub c ∧ p1.active = p.active :=
  ⟨_, _, rfl, rfl, rfl, rfl, rfl, rfl⟩

theorem init_fail (p : ConnPool) (sub : Byte) (connID : Nat) :
    p.init sub connID false = (⟨GoMap.delete p.activeClients sub, p.host⟩, none) := rfl

theorem onConnectionEvent_active (p : ConnPool) (client : ActiveClient) (event : ConnectionEvent) :
    (p.onConnectionEvent client event).pool.active = p.active := by
  obtain ⟨sp, ka, cl, cw, ts, st⟩ := client
  cases cw <;> cases event <;> rfl

theorem onConnectionEvent_clients (p : ConnPool) (client : ActiveClient) (event : ConnectionEvent) :
    (p.onConnectionEvent client event).pool.activeClients =
      if event.IsClose then GoMap.delete p.activeClients client.subProtocol
      else p.activeClients := by
  obtain ⟨sp, ka, cl, cw, ts, st⟩ := client
  cases cw <;> cases event <;> rfl

theorem foldl_onStreamDestroy (l : List Nat) (p : ConnPool) :
    (l.foldl (fun q _ => q.onStreamDestroy) p).activeClients = p.activeClients ∧
    (l.foldl (fun q _ => q.onStreamDestroy) p).active =
      (p.active.1 - l.length, p.active.2.1 - l.length, p.active.2.2 - l.length) := by
  induction l generalizing p with
  | nil => simp [ConnPool.active]
  | cons x t ih =>
    obtain ⟨h1, h2⟩ := ih p.onStreamDestroy
    refine ⟨h1, ?_⟩
    simp only [List.foldl_cons, h2, List.length_cons]
    simp only [ConnPool.active, ConnPool.onStreamDestroy, Resource.Decrease, Prod.mk.injEq]
    push_cast
    refine ⟨?_, ?_, ?_⟩ <;> ring

/-- What NewStream does to entry states, gauges and the stream it hands out. -/
theorem NewStream_effect {p : ConnPool} {ctx : Ctx} {rd : Option Receiver} {r : NewStreamResult}
    (h : p.NewStream ctx rd = some r) :
    (∀ sub, r.pool.stateOf sub = p.stateOf sub) ∧
    ((r.pool.active = p.active ∧ ∃ reason, r.callbacks = [PoolCallback.OnFailure reason p.host.address]) ∨
     (r.pool.active = p.active ∧ rd = none ∧
        ∃ sender, r.callbacks = [PoolCallback.OnReady sender p.host.address] ∧
          sender.receiver = none ∧ sender.eventListeners = []) ∨
     (r.pool.active = (p.active.1 + 1, p.active.2.1 + 1, p.active.2.2 + 1) ∧ rd ≠ none ∧
        ∃ sender, r.callbacks = [PoolCallback.OnReady sender p.host.address] ∧
          sender.receiver = rd ∧ sender.eventListeners.length = 1)) := by
  unfold ConnPool.NewStream at h
  dsimp only at h
  split at h
  · simp only [Option.some.injEq] at h
    subst h
    exact ⟨fun _ => rfl, Or.inl ⟨rfl, _, rfl⟩⟩
  · next c hl =>
    by_cases hc : c.state = Connected
    · rw [if_neg (not_not.mpr hc)] at h
      by_cases hcan : p.host.requests.CanCreate = true
      · rw [if_neg (not_not.mpr hcan)] at h
        have hstate : ∀ (ac : ActiveClient) (host1 : Host), ac.state = c.state → ∀ sub,
            ConnPool.stateOf ⟨GoMap.store p.activeClients (getSubProtocol ctx) ac, host1⟩ sub
              = p.stateOf sub := by
          intro ac host1 hac sub
          unfold ConnPool.stateOf
          by_cases hs : getSubProtocol ctx = sub
          · subst hs
            simp [GoMap.load_store_self, hl, hac]
          · simp [GoMap.load_store_ne _ _ hs]
        cases hcl : c.client with
        | none => simp [hcl] at h
        | some codec =>
          rw [hcl] at h
          cases rd with
          | none =>
            simp only [Option.some.injEq] at h
            subst h
            exact ⟨fun sub => hstate _ _ (by rfl) sub, Or.inr (Or.inl ⟨rfl, rfl, _, rfl, rfl, rfl⟩)⟩
          | some rcv =>
            simp only [Option.some.injEq] at h
            subst h
            refine ⟨fun sub => hstate _ _ (by rfl) sub, Or.inr (Or.inr ⟨rfl, by simp, _, rfl, rfl, rfl⟩)⟩
      · rw [if_pos hcan] at h
        simp only [Option.some.injEq] at h
        subst h
        exact ⟨fun _ => rfl, Or.inl ⟨rfl, _, rfl⟩⟩
    · rw [if_pos hc] at h
      simp only [Option.some.injEq] at h
      subst h
      exact ⟨fun _ => rfl, Or.inl ⟨rfl, _, rfl⟩⟩

theorem CheckAndInit_cases (p : ConnPool) (ctx : Ctx) :
    ((p.stateOf (getSubProtocol ctx) = none ∨ p.stateOf (getSubProtocol ctx) = some Init) ∧
      (p.CheckAndInit ctx).dials = [getSubProtocol ctx] ∧ (p.CheckAndInit ctx).ready = false ∧
      (p.CheckAndInit ctx).pool.stateOf (getSubProtocol ctx) = some Connecting) ∨
    ((p.stateOf (getSubProtocol ctx) ≠ none ∧ p.stateOf (getSubProtocol ctx) ≠ some Init) ∧
      (p.CheckAndInit ctx).dials = [] ∧ (p.CheckAndInit ctx).pool = p) := by
  unfold ConnPool.stateOf
  cases hl : GoMap.load p.activeClients (getSubProtocol ctx) with
  | none =>
    rw [CheckAndInit_none hl]
    exact Or.inl ⟨Or.inl rfl, rfl, rfl, by simp [GoMap.load_store_self]⟩
  | some c =>
    rw [CheckAndInit_some hl]
    by_cases hc : c.state = Connected
    · rw [if_pos hc]
      refine Or.inr ⟨⟨by simp, ?_⟩, rfl, rfl⟩
      simp [hc, Connected, Init]
    · by_cases hi : c.state = Init
      · rw [if_neg hc, if_pos hi]
        exact Or.inl ⟨Or.inr (by simp [hi]), rfl, rfl, by simp [GoMap.load_store_self]⟩
      · rw [if_neg hc, if_neg hi]
        exact Or.inr ⟨⟨by simp, by simpa using hi⟩, rfl, rfl⟩

theorem dialInv_congr {w w1 : PoolWorld} {sub : Byte}
    (hd : w1.dials.count sub = w.dials.count sub) (hs : w1.pool.stateOf sub = w.pool.stateOf sub)
    (hc : w1.connsOf sub = w.connsOf sub) (h : w.dialInv sub) : w1.dialInv sub := by
  unfold PoolWorld.dialInv at *
  rw [hd, hs, hc]
  exact h

/-- The per sub protocol invariant survives every step. -/
theorem step_dialInv (w : PoolWorld) (hinv : ∀ sub, w.dialInv sub) (ev : PoolEvent) :
    ∀ sub, (w.step ev).dialInv sub := by
  intro sub
  have hw := hinv sub
  cases ev with
  | checkAndInit ctx =>
    by_cases hs : getSubProtocol ctx = sub
    · subst hs
      rcases CheckAndInit_cases w.pool ctx with ⟨hst, hd, _, hst1⟩ | ⟨_, hd, hp⟩
      · unfold PoolWorld.dialInv at hw ⊢
        simp only [PoolWorld.step, PoolWorld.connsOf, hd, List.count_append,
          List.count_singleton_self, hst1] at hw ⊢
        rcases hw with ⟨h1, h2, h3⟩ | ⟨h1, h2, h3⟩ | ⟨h1, h2, h3⟩
        · exact Or.inr (Or.inl ⟨by omega, trivial, h3⟩)
        · rw [h2] at hst
          simp [Connecting, Init] at hst
        · rw [h2] at hst
          simp [Connected, Init] at hst
      · refine dialInv_congr ?_ ?_ ?_ hw
        · simp [PoolWorld.step, hd]
        · simp [PoolWorld.step, hp]
        · rfl
    · refine dialInv_congr ?_ ?_ ?_ hw
      · rcases CheckAndInit_cases w.pool ctx with ⟨_, hd, _, _⟩ | ⟨_, hd, _⟩
        · simp [PoolWorld.step, hd, List.count_singleton, hs]
        · simp [PoolWorld.step, hd]
      · exact stateOf_CheckAndInit_ne w.pool ctx hs
      · rfl
  | dialDone s0 connectOK =>
    by_cases hmem : s0 ∈ w.dials
    · cases connectOK with
      | true =>
        obtain ⟨c, p1, hinit, hstate, hsub, _, hclients, _⟩ := init_ok w.pool s0 w.nextConn
        by_cases hs : s0 = sub
        · subst hs
          unfold PoolWorld.dialInv at hw ⊢
          have hcnt : 1 ≤ w.dials.count s0 := List.one_le_count_iff.mpr hmem
          have hst1 : p1.stateOf s0 = some Connected := by
            simp [ConnPool.stateOf, hclients, GoMap.load_store_self, hstate]
          simp only [PoolWorld.step, hmem, if_true, hinit, List.count_erase_self, hst1,
            PoolWorld.connsOf, List.countP_cons, hsub, decide_True] at hw ⊢
          rcases hw with ⟨h1, h2, h3⟩ | ⟨h1, h2, h3⟩ | ⟨h1, h2, h3⟩
          · omega
          · exact Or.inr (Or.inr ⟨by omega, trivial, by simp [h3]⟩)
          · omega
        · refine dialInv_congr ?_ ?_ ?_ hw
          · simp [PoolWorld.step, hmem, hinit, List.count_erase_of_ne (Ne.symm hs)]
          · simp [PoolWorld.step, hmem, hinit, ConnPool.stateOf, hclients,
              GoMap.load_store_ne _ _ hs]
          · simp [PoolWorld.step, hmem, hinit, PoolWorld.connsOf, List.countP_cons, hsub, hs]
      | false =>
        by_cases hs : s0 = sub
        · subst hs
          unfold PoolWorld.dialInv at hw ⊢
          have hcnt : 1 ≤ w.dials.count s0 := List.one_le_count_iff.mpr hmem
          have hst1 : ConnPool.stateOf ⟨GoMap.delete w.pool.activeClients s0, w.pool.host⟩ s0
              = none := by
            simp [ConnPool.stateOf, GoMap.load_delete_self]
          simp only [PoolWorld.step, hmem, if_true, init_fail, List.count_erase_self, hst1,
            PoolWorld.connsOf] at hw ⊢
          rcases hw with ⟨h1, h2, h3⟩ | ⟨h1, h2, h3⟩ | ⟨h1, h2, h3⟩
          · omega
          · exact Or.inl ⟨by omega, trivial, h3⟩
          · omega
        · refine dialInv_congr ?_ ?_ ?_ hw
          · simp [PoolWorld.step, hmem, init_fail, List.count_erase_of_ne (Ne.symm hs)]
          · simp [PoolWorld.step, hmem, init_fail, ConnPool.stateOf, GoMap.load_delete_ne _ hs]
          · simp [PoolWorld.step, hmem, init_fail, PoolWorld.connsOf]
    · simpa [PoolWorld.step, hmem] using hw
  | connEvent conn event =>
    cases hf : w.conns.find? (fun a => a.onConn conn) with
    | none => simpa [PoolWorld.step, hf] using hw
    | some client =>
      by_cases hclose : event.IsClose = true
      · have hcount := find_removeFirst_countP (fun a : ActiveClient => a.onConn conn)
          (fun a : ActiveClient => decide (a.subProtocol = sub)) hf
        by_cases hs : client.subProtocol = sub
        · subst hs
          unfold PoolWorld.dialInv at hw ⊢
          have hst1 : (w.pool.onConnectionEvent client event).pool.stateOf client.subProtocol
              = none := by
            simp [ConnPool.stateOf, onConnectionEvent_clients, hclose, GoMap.load_delete_self]
          simp only [PoolWorld.step, hf, hclose, if_true, hst1, PoolWorld.connsOf] at hw ⊢
          simp only [decide_True, if_true] at hcount
          rcases hw with ⟨h1, h2, h3⟩ | ⟨h1, h2, h3⟩ | ⟨h1, h2, h3⟩
          · omega
          · omega
          · exact Or.inl ⟨h1, trivial, by omega⟩
        · refine dialInv_congr ?_ ?_ ?_ hw
          · simp [PoolWorld.step, hf, hclose]
          · simp [PoolWorld.step, hf, hclose, ConnPool.stateOf, onConnectionEvent_clients,
              GoMap.load_delete_ne _ hs]
          · simp only [PoolWorld.step, hf, hclose, if_true, PoolWorld.connsOf]
            simp only [hs, decide_False, Bool.false_eq_true, if_false, Nat.add_zero] at hcount
            exact hcount
      · refine dialInv_congr ?_ ?_ ?_ hw
        · simp [PoolWorld.step, hf, hclose]
        · simp [PoolWorld.step, hf, hclose, ConnPool.stateOf, onConnectionEvent_clients]
        · simp [PoolWorld.step, hf, hclose, PoolWorld.connsOf]
  | newStream ctx rd =>
    cases hn : w.pool.NewStream ctx rd with
    | none => simpa [PoolWorld.step, hn] using hw
    | some r =>
      have hst := (NewStream_effect hn).1 sub
      refine dialInv_congr ?_ ?_ ?_ hw
      · simp only [PoolWorld.step, hn]
        split <;> rfl
      · simp only [PoolWorld.step, hn]
        split <;> exact hst
      · simp only [PoolWorld.step, hn]
        split <;> rfl
  | destroyStream conn id =>
    cases hf : w.streams.find? (fun s => s.isStream conn id) with
    | none => simpa [PoolWorld.step, hf] using hw
    | some s =>
      refine dialInv_congr ?_ ?_ ?_ hw
      · simp [PoolWorld.step, hf]
      · simp [PoolWorld.step, hf, ConnPool.stateOf, (foldl_onStreamDestroy _ _).1]
      · simp [PoolWorld.step, hf, PoolWorld.connsOf]

theorem run_dialInv (evs : List PoolEvent) (w : PoolWorld) (hinv : ∀ sub, w.dialInv sub) :
    ∀ sub, (w.run evs).dialInv sub := by
  induction evs generalizing w with
  | nil => exact hinv
  | cons ev t ih => exact ih (w.step ev) (step_dialInv w hinv ev)

theorem fresh_dialInv (host : Host) (sub : Byte) : (PoolWorld.fresh host).dialInv sub :=
  Or.inl ⟨rfl, rfl, rfl⟩

/-- Claim C3: starting from an empty map, after any sequence of CheckAndInit calls, dial
completions, connection events, NewStream calls and stream destructions, at most one
dial is in flight per sub protocol, and one is in flight exactly while the entry is
Connecting.  A CheckAndInit call starts a dial only for its own sub protocol and only
when the entry was absent (the placeholder in state Init is stored) or in state Init,
leaving it Connecting; a call made while the entry is Connecting starts no dial and
changes nothing. -/
theorem C3_at_most_one_dial_in_flight (host : Host) (evs : List PoolEvent) (sub : Byte)
    (p : ConnPool) (ctx : Ctx) :
    (((PoolWorld.fresh host).run evs).dials.count sub ≤ 1 ∧
     (sub ∈ ((PoolWorld.fresh host).run evs).dials ↔
        ((PoolWorld.fresh host).run evs).pool.stateOf sub = some Connecting)) ∧
    ((p.CheckAndInit ctx).dials ≠ [] →
       (p.stateOf (getSubProtocol ctx) = none ∨ p.stateOf (getSubProtocol ctx) = some Init) ∧
       (p.CheckAndInit ctx).dials = [getSubProtocol ctx] ∧
       (p.CheckAndInit ctx).pool.stateOf (getSubProtocol ctx) = some Connecting) ∧
    (p.stateOf (getSubProtocol ctx) = some Connecting →
       (p.CheckAndInit ctx).dials = [] ∧ (p.CheckAndInit ctx).ready = false ∧
       (p.CheckAndInit ctx).pool = p) := by
  refine ⟨?_, ?_, ?_⟩
  · have h := run_dialInv evs (PoolWorld.fresh host) (fresh_dialInv host) sub
    unfold PoolWorld.dialInv at h
    rw [← List.one_le_count_iff]
    rcases h with ⟨h1, h2, _⟩ | ⟨h1, h2, _⟩ | ⟨h1, h2, _⟩
    · rw [h1, h2]; simp
    · rw [h1, h2]; simp
    · rw [h1, h2]; simp [Connected, Connecting]
  · intro hne
    rcases CheckAndInit_cases p ctx with ⟨hst, hd, _, hst1⟩ | ⟨_, hd, _⟩
    · exact ⟨hst, hd, hst1⟩
    · exact absurd hd hne
  · intro hst
    rcases CheckAndInit_cases p ctx with ⟨hst0, _, _, _⟩ | ⟨_, hd, hp⟩
    · rw [hst] at hst0
      simp [Connecting, Init] at hst0
    · refine ⟨hd, ?_, hp⟩
      have h2 := CheckAndInit_ready_iff p ctx
      cases hr : (p.CheckAndInit ctx).ready with
      | false => rfl
      | true =>
        obtain ⟨c, hl, hc⟩ := h2.mp hr
        simp [ConnPool.stateOf, hl, hc, Connected, Connecting] at hst

/-- Witness for C3: after two CheckAndInit calls a single dial is in flight, and a call
on the Connecting pool starts no dial. -/
theorem C3_at_most_one_dial_in_flight_witness :
    ((PoolWorld.fresh (Host.new 1 8)).run [.checkAndInit none, .checkAndInit none]).dials.count 0
      ≤ 1 ∧
    connectingPool.stateOf (getSubProtocol none) = some Connecting ∧
    (connectingPool.CheckAndInit none).dials = [] ∧
    (connectingPool.CheckAndInit none).ready = false ∧
    (connectingPool.CheckAndInit none).pool = connectingPool :=
  ⟨(C3_at_most_one_dial_in_flight (Host.new 1 8) [.checkAndInit none, .checkAndInit none] 0
      connectingPool none).1.1,
   by decide,
   (C3_at_most_one_dial_in_flight (Host.new 1 8) [] 0 connectingPool none).2.2 (by decide)⟩

/-- Every step keeps the stream client on Connected entries. -/
theorem step_clientsReady (w : PoolWorld) (h : w.pool.clientsReady = true) (ev : PoolEvent) :
    (w.step ev).pool.clientsReady = true := by
  unfold ConnPool.clientsReady at h ⊢
  cases ev with
  | checkAndInit ctx =>
    simp only [PoolWorld.step]
    cases hl : GoMap.load w.pool.activeClients (getSubProtocol ctx) with
    | none =>
      rw [CheckAndInit_none hl]
      exact GoMap.all_store _ _ _ _
        (GoMap.all_store _ _ _ _ h (by simp [fakeclient, Init, Connected]))
        (by simp [Connecting, Connected])
    | some c =>
      rw [CheckAndInit_some hl]
      split_ifs
      · exact h
      · exact GoMap.all_store _ _ _ _ h (by simp [Connecting, Connected])
      · exact h
  | dialDone s0 connectOK =>
    by_cases hmem : s0 ∈ w.dials
    · cases connectOK with
      | true =>
        obtain ⟨c, p1, hinit, _, _, hclient, hclients, _⟩ := init_ok w.pool s0 w.nextConn
        simp only [PoolWorld.step, hmem, if_true, hinit, hclients]
        exact GoMap.all_store _ _ _ _ h (by simp [hclient])
      | false =>
        simp only [PoolWorld.step, hmem, if_true, init_fail]
        exact GoMap.all_delete _ _ _ h
    · simpa [PoolWorld.step, hmem] using h
  | connEvent conn event =>
    cases hf : w.conns.find? (fun a => a.onConn conn) with
    | none => simpa [PoolWorld.step, hf] using h
    | some client =>
      simp only [PoolWorld.step, hf]
      split_ifs with hc
      · simp only [onConnectionEvent_clients, hc, if_true]
        exact GoMap.all_delete _ _ _ h
      · simp only [onConnectionEvent_clients, hc]
        exact h
  | newStream ctx rd =>
    have key : ∀ r, w.pool.NewStream ctx rd = some r →
        r.pool.activeClients.all
          (fun e => decide (e.2.state ≠ Connected) || e.2.client.isSome) = true := by
      intro r hn
      unfold ConnPool.NewStream at hn
      dsimp only at hn
      split at hn
      · simp only [Option.some.injEq] at hn
        rw [← hn]; exact h
      · next c hl =>
        by_cases hc : c.state = Connected
        · rw [if_neg (not_not.mpr hc)] at hn
          by_cases hcan : w.pool.host.requests.CanCreate = true
          · rw [if_neg (not_not.mpr hcan)] at hn
            cases hcl : c.client with
            | none => simp [hcl] at hn
            | some codec =>
              rw [hcl] at hn
              cases rd with
              | none =>
                simp only [Option.some.injEq] at hn
                rw [← hn]
                exact GoMap.all_store _ _ _ _ h (by simp)
              | some rcv =>
                simp only [Option.some.injEq] at hn
                rw [← hn]
                exact GoMap.all_store _ _ _ _ h (by simp)
          · rw [if_pos hcan] at hn
            simp only [Option.some.injEq] at hn
            rw [← hn]; exact h
        · rw [if_pos hc] at hn
          simp only [Option.some.injEq] at hn
          rw [← hn]; exact h
    cases hn : w.pool.NewStream ctx rd with
    | none => simpa [PoolWorld.step, hn] using h
    | some r =>
      simp only [PoolWorld.step, hn]
      split <;> exact key r hn
  | destroyStream conn id =>
    cases hf : w.streams.find? (fun s => s.isStream conn id) with
    | none => simpa [PoolWorld.step, hf] using h
    | some s =>
      simp only [PoolWorld.step, hf, (foldl_onStreamDestroy _ _).1]
      exact h

/-- Every pool reached from a fresh one has ready clients. -/
theorem run_clientsReady (host : Host) (evs : List PoolEvent) :
    ((PoolWorld.fresh host).run evs).pool.clientsReady = true := by
  have gen : ∀ (l : List PoolEvent) (w : PoolWorld), w.pool.clientsReady = true →
      (w.run l).pool.clientsReady = true := by
    intro l
    induction l with
    | nil => exact fun _ h => h
    | cons ev t ih => exact fun w h => ih (w.step ev) (step_clientsReady w h ev)
  exact gen evs _ rfl

/-! ### Request gauges -/

theorem activeInv_congr {w w1 : PoolWorld} {base : Int × Int × Int}
    (ha : w1.pool.active = w.pool.active) (hs : w1.streams = w.streams)
    (h : w.activeInv base) : w1.activeInv base := by
  unfold PoolWorld.activeInv PoolWorld.twoWay at *
  rw [ha, hs]
  exact h

/-- The gauge invariant survives every step. -/
theorem step_activeInv (w : PoolWorld) (base : Int × Int × Int) (hinv : w.activeInv base)
    (ev : PoolEvent) : (w.step ev).activeInv base := by
  cases ev with
  | checkAndInit ctx =>
    refine activeInv_congr ?_ ?_ hinv
    · simp [PoolWorld.step, ConnPool.active, CheckAndInit_host]
    · rfl
  | dialDone s0 connectOK =>
    by_cases hmem : s0 ∈ w.dials
    · cases connectOK with
      | true =>
        obtain ⟨c, p1, hinit, _, _, _, _, hact⟩ := init_ok w.pool s0 w.nextConn
        refine activeInv_congr ?_ ?_ hinv
        · simp [PoolWorld.step, hmem, hinit, hact]
        · simp [PoolWorld.step, hmem, hinit]
      | false =>
        refine activeInv_congr ?_ ?_ hinv
        · simp [PoolWorld.step, hmem, init_fail, ConnPool.active]
        · simp [PoolWorld.step, hmem, init_fail]
    · simpa [PoolWorld.step, hmem] using hinv
  | connEvent conn event =>
    cases hf : w.conns.find? (fun a => a.onConn conn) with
    | none => simpa [PoolWorld.step, hf] using hinv
    | some client =>
      refine activeInv_congr ?_ ?_ hinv
      · simp only [PoolWorld.step, hf]
        split_ifs <;> exact onConnectionEvent_active _ _ _
      · simp only [PoolWorld.step, hf]
        split_ifs <;> rfl
  | newStream ctx rd =>
    cases hn : w.pool.NewStream ctx rd with
    | none => simpa [PoolWorld.step, hn] using hinv
    | some r =>
      rcases (NewStream_effect hn).2 with ⟨ha, reason, hcb⟩ | ⟨ha, _, sender, hcb, hrcv, hls⟩ |
        ⟨ha, hrd, sender, hcb, hrcv, hls⟩
      · refine activeInv_congr ?_ ?_ hinv
        · simp [PoolWorld.step, hn, hcb, ha]
        · simp [PoolWorld.step, hn, hcb]
      · unfold PoolWorld.activeInv PoolWorld.twoWay at hinv ⊢
        simp only [PoolWorld.step, hn, hcb, ha, List.countP_cons, hrcv, Option.isSome_none,
          Bool.false_eq_true, if_false, Nat.add_zero, List.mem_cons, forall_eq_or_imp, hls,
          List.length_nil]
        exact ⟨hinv.1, trivial, hinv.2⟩
      · obtain ⟨rcv, hrcv1⟩ := Option.ne_none_iff_exists'.mp hrd
        subst hrcv1
        unfold PoolWorld.activeInv PoolWorld.twoWay at hinv ⊢
        simp only [PoolWorld.step, hn, hcb, ha, List.countP_cons, hrcv, Option.isSome_some,
          if_true, List.mem_cons, forall_eq_or_imp, hls, hinv.1]
        refine ⟨?_, trivial, hinv.2⟩
        push_cast
        simp only [Prod.mk.injEq]
        refine ⟨?_, ?_, ?_⟩ <;> ring
  | destroyStream conn id =>
    cases hf : w.streams.find? (fun s => s.isStream conn id) with
    | none => simpa [PoolWorld.step, hf] using hinv
    | some s =>
      have hmem : s ∈ w.streams := List.mem_of_find?_eq_some hf
      have hcount := find_removeFirst_countP (fun s : StreamSender => s.isStream conn id)
        (fun s : StreamSender => s.receiver.isSome) hf
      unfold PoolWorld.activeInv PoolWorld.twoWay at hinv ⊢
      have hlen := hinv.2 s hmem
      simp only [PoolWorld.step, hf, (foldl_onStreamDestroy _ _).2, hinv.1, hlen]
      refine ⟨?_, fun y hy => hinv.2 y (mem_removeFirst _ hy)⟩
      rw [← hcount]
      push_cast
      simp only [Prod.mk.injEq]
      refine ⟨?_, ?_, ?_⟩ <;> ring

theorem run_activeInv (evs : List PoolEvent) (w : PoolWorld) (base : Int × Int × Int)
    (hinv : w.activeInv base) : (w.run evs).activeInv base := by
  induction evs generalizing w with
  | nil => exact hinv
  | cons ev t ih => exact ih (w.step ev) (step_activeInv w base hinv ev)

theorem fresh_activeInv (host : Host) : (PoolWorld.fresh host).activeInv (NewConnPool host).active := by
  unfold PoolWorld.activeInv PoolWorld.twoWay PoolWorld.fresh
  simp [ConnPool.active]

/-- Claim C4: on a fresh pool, after any sequence of steps, UpstreamRequestActive on the
host and on the cluster and the request count of the resource manager all equal the
number of two-way streams handed out through OnReady and not yet destroyed, so they are
never negative.  Step by step: a NewStream call raises them by one exactly when it hands
out a two-way stream, and leaves them alone when it fails or hands out a one-way stream;
OnDestroyStream lowers them by one. -/
theorem C4_active_requests_match_live_streams (address maxRequests : Nat)
    (evs : List PoolEvent) (p : ConnPool) (ctx : Ctx) (rd : Option Receiver)
    (r : NewStreamResult) :
    (((PoolWorld.fresh (Host.new address maxRequests)).run evs).pool.host.hostStats.UpstreamRequestActive
        = ((PoolWorld.fresh (Host.new address maxRequests)).run evs).twoWay ∧
     ((PoolWorld.fresh (Host.new address maxRequests)).run evs).pool.host.clusterStats.UpstreamRequestActive
        = ((PoolWorld.fresh (Host.new address maxRequests)).run evs).twoWay ∧
     ((PoolWorld.fresh (Host.new address maxRequests)).run evs).pool.host.requests.current
        = ((PoolWorld.fresh (Host.new address maxRequests)).run evs).twoWay ∧
     0 ≤ ((PoolWorld.fresh (Host.new address maxRequests)).run evs).pool.host.hostStats.UpstreamRequestActive ∧
     0 ≤ ((PoolWorld.fresh (Host.new address maxRequests)).run evs).pool.host.clusterStats.UpstreamRequestActive ∧
     0 ≤ ((PoolWorld.fresh (Host.new address maxRequests)).run evs).pool.host.requests.current) ∧
    (p.NewStream ctx rd = some r →
      (r.callbacks.all PoolCallback.isReady = true ∧ rd.isSome = true →
        r.pool.active = (p.active.1 + 1, p.active.2.1 + 1, p.active.2.2 + 1)) ∧
      (r.callbacks.all PoolCallback.isReady = false ∨ rd = none → r.pool.active = p.active)) ∧
    p.onStreamDestroy.active = (p.active.1 - 1, p.active.2.1 - 1, p.active.2.2 - 1) := by
  refine ⟨?_, ?_, rfl⟩
  · have h := (run_activeInv evs _ _ (fresh_activeInv (Host.new address maxRequests))).1
    rw [show (NewConnPool (Host.new address maxRequests)).active = (0, 0, 0) from rfl] at h
    simp only [ConnPool.active, Prod.mk.injEq, zero_add] at h
    obtain ⟨h1, h2, h3⟩ := h
    exact ⟨h1, h2, h3, by omega, by omega, by omega⟩
  · intro hn
    rcases (NewStream_effect hn).2 with ⟨ha, reason, hcb⟩ | ⟨ha, hrd, sender, hcb, _, _⟩ |
      ⟨ha, hrd, sender, hcb, _, _⟩
    · refine ⟨?_, fun _ => ha⟩
      rintro ⟨h1, _⟩
      simp [hcb, PoolCallback.isReady] at h1
    · refine ⟨?_, fun _ => ha⟩
      rintro ⟨_, h2⟩
      simp [hrd] at h2
    · refine ⟨fun _ => ha, ?_⟩
      rintro (h1 | h2)
      · simp [hcb, PoolCallback.isReady] at h1
      · exact absurd h2 hrd

/-- Witness for C4: one two-way and one one-way stream handed out on the connected pool,
then the two-way stream destroyed. -/
theorem C4_active_requests_match_live_streams_witness :
    ((PoolWorld.fresh (Host.new 1 8)).run
        [.checkAndInit none, .dialDone 0 true, .newStream none (some 7), .newStream none none,
         .destroyStream 1 1]).pool.host.hostStats.UpstreamRequestActive = 0 ∧
    ((PoolWorld.fresh (Host.new 1 8)).run
        [.checkAndInit none, .dialDone 0 true, .newStream none (some 7),
         .newStream none none]).pool.host.hostStats.UpstreamRequestActive = 1 ∧
    ((connectedPool.NewStream none (some 7)).get (by decide)).pool.active = (1, 1, 1) := by
  refine ⟨?_, ?_, ?_⟩
  · rw [(C4_active_requests_match_live_streams 1 8 _ connectedPool none none
      ⟨connectedPool, []⟩).1.1]
    decide
  · rw [(C4_active_requests_match_live_streams 1 8 _ connectedPool none none
      ⟨connectedPool, []⟩).1.1]
    decide
  · exact ((C4_active_requests_match_live_streams 1 8 [] connectedPool none (some 7) _).2.1
      (Option.some_get _).symm).1 ⟨by decide, by decide⟩

/-! ## The stream connection -/

/-- Claim C6: when the request id of a response is in the stream map, onStreamRecv
returns that stream and leaves the map with that key removed and every other entry
unchanged; when it is not, it returns nil and leaves the connection unchanged.  Hence a
second response with the same request id finds no stream, and handling it calls no
receiver. -/
theorem C6_onStreamRecv_removes_stream (conn : StreamConnection) (m : GoMap Nat Stream)
    (cmd : SofaRpcCmd) (hm : conn.streams = some m) :
    (∀ s, GoMap.load m cmd.requestID = some s →
      conn.onStreamRecv cmd =
        ({ conn with streams := some (GoMap.delete m cmd.requestID) }, some s) ∧
      GoMap.load (GoMap.delete m cmd.requestID) cmd.requestID = none ∧
      (∀ k, k ≠ cmd.requestID →
        GoMap.load (GoMap.delete m cmd.requestID) k = GoMap.load m k) ∧
      (∀ cmd2 : SofaRpcCmd, cmd2.requestID = cmd.requestID → cmd2.commandType = RESPONSE →
        (conn.onStreamRecv cmd).1.onStreamRecv cmd2 = ((conn.onStreamRecv cmd).1, none) ∧
        (conn.onStreamRecv cmd).1.handleCommand (.sofa cmd2) none
          = some ((conn.onStreamRecv cmd).1, []))) ∧
    (GoMap.load m cmd.requestID = none → conn.onStreamRecv cmd = (conn, none)) := by
  refine ⟨?_, ?_⟩
  · intro s hs
    have h1 : conn.onStreamRecv cmd =
        ({ conn with streams := some (GoMap.delete m cmd.requestID) }, some s) := by
      simp [StreamConnection.onStreamRecv, hm, hs]
    refine ⟨h1, GoMap.load_delete_self _ _, fun k hk => GoMap.load_delete_ne _ (Ne.symm hk), ?_⟩
    intro cmd2 hid hty
    have h2 : (conn.onStreamRecv cmd).1.onStreamRecv cmd2 = ((conn.onStreamRecv cmd).1, none) := by
      rw [h1]
      simp [StreamConnection.onStreamRecv, hid, GoMap.load_delete_self]
    refine ⟨h2, ?_⟩
    simp [StreamConnection.handleCommand, StreamConnection.processStream, hty, h2, RESPONSE,
      REQUEST, REQUEST_ONEWAY]
  · intro hs
    simp [StreamConnection.onStreamRecv, hm, hs]

/-- Witness for C6: the response to stream 1 of a client connection takes the stream out
of the map. -/
theorem C6_onStreamRecv_removes_stream_witness :
    clientConnOneStream.streams = some [(1, ⟨false, 1, .ClientStream, some 9, none⟩)] ∧
    clientConnOneStream.onStreamRecv { response7 with requestID := 1 } =
      ({ clientConnOneStream with streams := some [] },
       some ⟨false, 1, .ClientStream, some 9, none⟩) :=
  ⟨by decide,
   ((C6_onStreamRecv_removes_stream clientConnOneStream
      [(1, ⟨false, 1, .ClientStream, some 9, none⟩)] { response7 with requestID := 1 }
      (by decide)).1 ⟨false, 1, .ClientStream, some 9, none⟩ (by decide)).1⟩

theorem encoded_append (a b : List Effect) : encoded (a ++ b) = encoded a ++ encoded b := by
  induction a with
  | nil => rfl
  | cons e t ih => cases e <;> simp [encoded, ih]

theorem encoded_deferred (s : Stream) :
    encoded (if s.direction = .ServerStream then [Effect.DestroyStream s.id] else []) = [] := by
  split_ifs <;> rfl

/-- What `endStream` hands to the encoder when a command is pending. -/
theorem encoded_endStream (s : Stream) (conn : StreamConnection) (io : SendOutcome)
    (c : SofaRpcCmd) (h : s.sendCmd = some c) :
    encoded (s.endStream conn io).2.2 =
      [{ c with requestID := s.id, header := GoMap.delete c.header HeaderGlobalTimeout }] := by
  obtain ⟨ef, we⟩ := io
  cases ef <;> cases we <;> cases hd : s.direction <;>
    simp [Stream.endStream, h, hd, encoded, encoded_append, Stream.ResetStream]

/-- A client stream, or a server stream given a response, keeps the command as is. -/
theorem AppendHeaders_keeps (s : Stream) (conn : StreamConnection)
    (newResponse : Byte → String → Option SofaRpcCmd) (io : SendOutcome) (c : SofaRpcCmd)
    (h : s.direction = .ClientStream ∨ c.commandType = RESPONSE) :
    (s.AppendHeaders conn newResponse io (.sofa c) false).stream = { s with sendCmd := some c } ∧
    (s.AppendHeaders conn newResponse io (.sofa c) false).effects = [] ∧
    (s.AppendHeaders conn newResponse io (.sofa c) true).effects =
      (Stream.endStream { s with sendCmd := some c } conn io).2.2 := by
  cases hd : s.direction with
  | ClientStream => simp [Stream.AppendHeaders, hd]
  | ServerStream =>
    have hc : c.commandType = RESPONSE := by
      rcases h with h | h
      · rw [hd] at h; cases h
      · exact h
    simp [Stream.AppendHeaders, hd, hc]

/-- Claim C7: for a server stream created by onNewStreamDetect from a request with
request id r, and any response command given to AppendHeaders, the command handed to the
encoder (whether the stream ends with the headers, with a later AppendData or with
AppendTrailers) carries request id r and no x-mosn-global-timeout header.  For a client
stream created by NewStream, the encoded request carries the stream id allocated by the
connection, whatever id the downstream request had. -/
theorem C7_encoded_command_carries_stream_id (conn : StreamConnection) (request c : SofaRpcCmd)
    (newResponse : Byte → String → Option SofaRpcCmd) (io io2 : SendOutcome)
    (data : Option (List Byte)) :
    (∀ conn1 s es, conn.onNewStreamDetect request = some (conn1, s, es) →
      c.commandType = RESPONSE →
      (∃ e, encoded (s.AppendHeaders conn1 newResponse io (.sofa c) true).effects = [e] ∧
        e.requestID = request.requestID ∧ GoMap.load e.header HeaderGlobalTimeout = none ∧
        e.commandType = c.commandType ∧ e.data = c.data) ∧
      (∃ e, encoded ((s.AppendHeaders conn1 newResponse io (.sofa c) false).stream.AppendData
          conn1 io2 data true).effects = [e] ∧
        e.requestID = request.requestID ∧ GoMap.load e.header HeaderGlobalTimeout = none ∧
        e.commandType = c.commandType ∧ e.data = data) ∧
      (∃ e, encoded ((s.AppendHeaders conn1 newResponse io (.sofa c) false).stream.AppendTrailers
          conn1 io2).effects = [e] ∧
        e.requestID = request.requestID ∧ GoMap.load e.header HeaderGlobalTimeout = none ∧
        e.commandType = c.commandType ∧ e.data = c.data)) ∧
    (∀ receiver conn1 s, conn.NewStream receiver = some (conn1, s) →
      s.id = (conn.currStreamID + 1) % uint64Mod ∧
      ∃ e, encoded (s.AppendHeaders conn1 newResponse io (.sofa c) true).effects = [e] ∧
        e.requestID = s.id ∧ GoMap.load e.header HeaderGlobalTimeout = none ∧
        e.commandType = c.commandType ∧ e.data = c.data) := by
  refine ⟨?_, ?_⟩
  · intro conn1 s es hs hc
    have hid : s.id = request.requestID := by
      unfold StreamConnection.onNewStreamDetect at hs
      cases hl : conn.serverStreamConnectionEventListener with
      | none => simp [hl] at hs
      | some px =>
        simp only [hl, Option.some.injEq, Prod.mk.injEq] at hs
        rw [← hs.2.1]
    obtain ⟨h1, _, h3⟩ := AppendHeaders_keeps s conn1 newResponse io c (Or.inr hc)
    refine ⟨?_, ?_, ?_⟩
    · rw [h3, encoded_endStream _ _ _ c rfl]
      exact ⟨_, rfl, hid, GoMap.load_delete_self _ _, rfl, rfl⟩
    · rw [h1]
      simp only [Stream.AppendData, if_true]
      rw [encoded_endStream _ _ _ { c with data := data } rfl]
      exact ⟨_, rfl, hid, GoMap.load_delete_self _ _, rfl, rfl⟩
    · rw [h1]
      simp only [Stream.AppendTrailers]
      rw [encoded_endStream _ _ _ c rfl]
      exact ⟨_, rfl, hid, GoMap.load_delete_self _ _, rfl, rfl⟩
  · intro receiver conn1 s hs
    have hs2 : s.id = (conn.currStreamID + 1) % uint64Mod ∧ s.direction = .ClientStream := by
      unfold StreamConnection.NewStream at hs
      cases receiver with
      | none =>
        simp only [Option.some.injEq, Prod.mk.injEq] at hs
        rw [← hs.2]
        exact ⟨rfl, rfl⟩
      | some rcv =>
        cases hm : conn.streams with
        | none => simp [hm] at hs
        | some m =>
          simp only [hm, Option.some.injEq, Prod.mk.injEq] at hs
          rw [← hs.2]
          exact ⟨rfl, rfl⟩
    obtain ⟨_, _, h3⟩ := AppendHeaders_keeps s conn1 newResponse io c (Or.inl hs2.2)
    refine ⟨hs2.1, ?_⟩
    rw [h3, encoded_endStream _ _ _ c rfl]
    exact ⟨_, rfl, rfl, GoMap.load_delete_self _ _, rfl, rfl⟩

/-- Witness for C7: the response to request 7 leaves a server stream with request id 7
and without the injected timeout header, though it arrived with request id 1. -/
theorem C7_encoded_command_carries_stream_id_witness :
    serverConn.onNewStreamDetect request7 =
      some (serverConnAfter7, serverStream7, [Effect.NewStreamDetect 7 (some 7)]) ∧
    ∃ e, encoded (serverStream7.AppendHeaders serverConnAfter7
        noResponse sendOK (.sofa { response7 with requestID := 1 }) true).effects = [e] ∧
      e.requestID = 7 ∧ GoMap.load e.header HeaderGlobalTimeout = none :=
  ⟨by decide, by
    obtain ⟨e, h1, h2, h3, _⟩ :=
      ((C7_encoded_command_carries_stream_id serverConn request7
        { response7 with requestID := 1 } noResponse sendOK sendOK none).1 serverConnAfter7
        serverStream7 [Effect.NewStreamDetect 7 (some 7)] (by decide) (by decide)).1
    exact ⟨e, h1, h2, h3⟩⟩

/-- Counterexample to C8: a heartbeat request with request id 42 on a server-side
connection is not answered by the stream layer.  Nothing is written; NewStreamDetect is
called, the proxy's active-stream list grows from empty to one stream, and the command
is delivered to that receiver. -/
theorem C8_heartbeat_counterexample :
    serverConn.handleCommand (.sofa heartbeat42) none =
      some (serverConnAfter42,
        [Effect.NewStreamDetect 42 (some 42),
         Effect.OnReceive 1 { heartbeat42 with header := [(HeaderGlobalTimeout, "0")] } none]) ∧
    serverConn.serverStreamConnectionEventListener = some ⟨[], 0⟩ ∧
    serverConnAfter42.serverStreamConnectionEventListener = some ⟨[⟨1, some 42⟩], 1⟩ ∧
    List.any [Effect.NewStreamDetect 42 (some 42),
         Effect.OnReceive 1 { heartbeat42 with header := [(HeaderGlobalTimeout, "0")] } none]
      Effect.isWrite = false := by
  decide

/-- Claim C8, amended: a request command on a server-side connection, a heartbeat
request included, is handled as a new stream.  The stream layer writes nothing itself;
it calls NewStreamDetect once for a server stream with the command's request id, so the
proxy's active-stream list grows by one, and delivers the command once to the receiver
obtained, with the timeout header injected. -/
theorem C8_heartbeat_request_opens_stream (conn : StreamConnection) (px : Proxy)
    (cmd : SofaRpcCmd) (hl : conn.serverStreamConnectionEventListener = some px)
    (hty : cmd.commandType = REQUEST) :
    ∃ conn1 es, conn.handleCommand (.sofa cmd) none = some (conn1, es) ∧
      es = [Effect.NewStreamDetect cmd.requestID (some cmd.requestID),
            Effect.OnReceive (px.currID + 1)
              { cmd with header :=
                  GoMap.store cmd.header HeaderGlobalTimeout (toString cmd.timeout) }
              cmd.data] ∧
      es.any Effect.isWrite = false ∧
      conn1.serverStreamConnectionEventListener =
        some ⟨px.activeSteams ++ [⟨px.currID + 1, some cmd.requestID⟩], px.currID + 1⟩ ∧
      conn1.streams = conn.streams := by
  have h : conn.handleCommand (.sofa cmd) none =
      some (⟨conn.contextManager, conn.currStreamID, conn.streams,
              conn.streamConnectionEventListener,
              some ⟨px.activeSteams ++ [⟨px.currID + 1, some cmd.requestID⟩], px.currID + 1⟩⟩,
            [Effect.NewStreamDetect cmd.requestID (some cmd.requestID),
             Effect.OnReceive (px.currID + 1)
               { cmd with header :=
                   GoMap.store cmd.header HeaderGlobalTimeout (toString cmd.timeout) }
               cmd.data]) := by
    simp [StreamConnection.handleCommand, StreamConnection.processStream,
      StreamConnection.onNewStreamDetect, Proxy.NewStreamDetect, hl, hty, REQUEST, REQUEST_ONEWAY]
  exact ⟨_, _, h, rfl, rfl, rfl, rfl⟩

/-- Witness for C8 as amended: the heartbeat request 42 on the server-side connection. -/
theorem C8_heartbeat_request_opens_stream_witness :
    ∃ conn1 es, serverConn.handleCommand (.sofa heartbeat42) none = some (conn1, es) ∧
      es.any Effect.isWrite = false ∧
      conn1.serverStreamConnectionEventListener = some ⟨[⟨1, some 42⟩], 1⟩ := by
  obtain ⟨conn1, es, h1, _, h3, h4, _⟩ :=
    C8_heartbeat_request_opens_stream serverConn ⟨[], 0⟩ heartbeat42 (by decide) (by decide)
  exact ⟨conn1, es, h1, h3, h4⟩

/-- Claim C9: handleError closes the transport connection, with (NoFlush, LocalClose)
and nothing else done, exactly when the error is ErrUnrecognizedCode, ErrUnKnownCmdType,
ErrUnKnownCmdCode or ErrNotSofarpcCmd, or is ErrCodecException or ErrDeserializeException
while the command is not a SofaRpcCmd with a request id above 0.  In every other case no
close is among its effects. -/
theorem C9_handleError_closes_iff (conn : StreamConnection) (cmd : Model) (err : Err) :
    ((err = .ErrUnrecognizedCode ∨ err = .ErrUnKnownCmdType ∨ err = .ErrUnKnownCmdCode ∨
        err = .ErrNotSofarpcCmd ∨
        ((err = .ErrCodecException ∨ err = .ErrDeserializeException) ∧
          ¬ ∃ c, cmd = .sofa c ∧ c.requestID > 0)) →
      conn.handleError cmd err = some (conn, [Effect.connClose .NoFlush .LocalClose])) ∧
    (¬ (err = .ErrUnrecognizedCode ∨ err = .ErrUnKnownCmdType ∨ err = .ErrUnKnownCmdCode ∨
        err = .ErrNotSofarpcCmd ∨
        ((err = .ErrCodecException ∨ err = .ErrDeserializeException) ∧
          ¬ ∃ c, cmd = .sofa c ∧ c.requestID > 0)) →
      ∀ conn1 es, conn.handleError cmd err = some (conn1, es) → es.any Effect.isClose = false) := by
  have hsofa : ∀ (e : Err), (e = .ErrCodecException ∨ e = .ErrDeserializeException) →
      ∀ c : SofaRpcCmd, c.requestID > 0 →
      ∀ conn1 es, conn.handleError (.sofa c) e = some (conn1, es) →
        es.any Effect.isClose = false := by
    intro e he c hc conn1 es h
    have key : ∀ r, (match conn.processStream c with
        | none => none
        | some (conn1, some stream, es) =>
          match stream.receiver with
          | some r => some (conn1, es ++ [Effect.OnDecodeError r e c])
          | none => none
        | some (conn1, none, es) => some (conn1, es)) = some r → r.2.any Effect.isClose = false := by
      intro r hr
      unfold StreamConnection.processStream at hr
      split_ifs at hr with h1 h2
      · unfold StreamConnection.onNewStreamDetect at hr
        cases hl : conn.serverStreamConnectionEventListener with
        | none => simp [hl] at hr
        | some px =>
          simp only [hl, Option.some.injEq] at hr
          rw [← hr]
          simp [Effect.isClose]
      · unfold StreamConnection.onStreamRecv at hr
        cases hm : conn.streams with
        | none =>
          simp only [hm, Option.some.injEq] at hr
          rw [← hr]; rfl
        | some m =>
          cases hld : GoMap.load m c.requestID with
          | none =>
            simp only [hm, hld, Option.some.injEq] at hr
            rw [← hr]; rfl
          | some st =>
            simp only [hm, hld] at hr
            cases hrc : st.receiver with
            | none => simp [hrc] at hr
            | some rc =>
              simp only [hrc, Option.some.injEq] at hr
              rw [← hr]
              simp [Effect.isClose]
      · simp only [Option.some.injEq] at hr
        rw [← hr]; rfl
    rcases he with he | he <;> subst he
    · simp only [StreamConnection.handleError, hc, if_true] at h
      exact key _ h
    · simp only [StreamConnection.handleError, hc, if_true] at h
      exact key _ h
  refine ⟨?_, ?_⟩
  · rintro (h | h | h | h | ⟨h | h, hn⟩) <;> subst h
    · rfl
    · rfl
    · rfl
    · rfl
    · cases cmd with
      | nil => rfl
      | other t => rfl
      | sofa c =>
        have hz : ¬ c.requestID > 0 := fun hc => hn ⟨c, rfl, hc⟩
        simp [StreamConnection.handleError, hz]
    · cases cmd with
      | nil => rfl
      | other t => rfl
      | sofa c =>
        have hz : ¬ c.requestID > 0 := fun hc => hn ⟨c, rfl, hc⟩
        simp [StreamConnection.handleError, hz]
  · intro hn conn1 es h
    cases err with
    | ErrUnrecognizedCode => exact absurd (Or.inl rfl) hn
    | ErrUnKnownCmdType => exact absurd (Or.inr (Or.inl rfl)) hn
    | ErrUnKnownCmdCode => exact absurd (Or.inr (Or.inr (Or.inl rfl))) hn
    | ErrNotSofarpcCmd => exact absurd (Or.inr (Or.inr (Or.inr (Or.inl rfl)))) hn
    | ErrCodecException =>
      cases cmd with
      | sofa c =>
        by_cases hc : c.requestID > 0
        · exact hsofa _ (Or.inl rfl) c hc conn1 es h
        · exact absurd (Or.inr (Or.inr (Or.inr (Or.inr
            ⟨Or.inl rfl, fun ⟨c1, h1, h2⟩ => hc (by cases h1; exact h2)⟩)))) hn
      | nil => exact absurd (Or.inr (Or.inr (Or.inr (Or.inr
            ⟨Or.inl rfl, fun ⟨c1, h1, _⟩ => by cases h1⟩)))) hn
      | other t => exact absurd (Or.inr (Or.inr (Or.inr (Or.inr
            ⟨Or.inl rfl, fun ⟨c1, h1, _⟩ => by cases h1⟩)))) hn
    | ErrDeserializeException =>
      cases cmd with
      | sofa c =>
        by_cases hc : c.requestID > 0
        · exact hsofa _ (Or.inr rfl) c hc conn1 es h
        · exact absurd (Or.inr (Or.inr (Or.inr (Or.inr
            ⟨Or.inr rfl, fun ⟨c1, h1, h2⟩ => hc (by cases h1; exact h2)⟩)))) hn
      | nil => exact absurd (Or.inr (Or.inr (Or.inr (Or.inr
            ⟨Or.inr rfl, fun ⟨c1, h1, _⟩ => by cases h1⟩)))) hn
      | other t => exact absurd (Or.inr (Or.inr (Or.inr (Or.inr
            ⟨Or.inr rfl, fun ⟨c1, h1, _⟩ => by cases h1⟩)))) hn
    | ErrNotResponseBuilder =>
      simp only [StreamConnection.handleError, Option.some.injEq, Prod.mk.injEq] at h
      rw [← h.2]; rfl
    | ErrNoStatusCodeForHijack =>
      simp only [StreamConnection.handleError, Option.some.injEq, Prod.mk.injEq] at h
      rw [← h.2]; rfl
    | ErrConnectionHasClosed =>
      simp only [StreamConnection.handleError, Option.some.injEq, Prod.mk.injEq] at h
      rw [← h.2]; rfl
    | other t =>
      simp only [StreamConnection.handleError, Option.some.injEq, Prod.mk.injEq] at h
      rw [← h.2]; rfl

/-- Witness for C9: a codec exception on a command without request id closes the
connection, and an error of another kind does not. -/
theorem C9_handleError_closes_iff_witness :
    serverConn.handleError (.sofa { request7 with requestID := 0 }) .ErrCodecException
      = some (serverConn, [Effect.connClose .NoFlush .LocalClose]) ∧
    List.any ([] : List Effect) Effect.isClose = false :=
  ⟨(C9_handleError_closes_iff serverConn (.sofa { request7 with requestID := 0 })
      .ErrCodecException).1
      (Or.inr (Or.inr (Or.inr (Or.inr ⟨Or.inl rfl, by
        rintro ⟨c, h1, h2⟩
        cases h1
        exact absurd h2 (by decide)⟩)))),
   (C9_handleError_closes_iff serverConn .nil (.other 3)).2 (by simp) serverConn []
      (by decide)⟩

/-- Counterexample to C10: a codec exception on a response with request id 5, on a
client connection whose stream map has no stream 5, is delivered to no receiver. -/
theorem C10_decode_error_counterexample :
    clientConnOneStream.handleError (.sofa { response7 with requestID := 5 }) .ErrCodecException
      = some (clientConnOneStream, []) ∧
    ¬ ∃ conn1 es r,
      clientConnOneStream.handleError (.sofa { response7 with requestID := 5 })
          .ErrCodecException = some (conn1, es) ∧
        Effect.OnDecodeError r .ErrCodecException { response7 with requestID := 5 } ∈ es := by
  have h : clientConnOneStream.handleError (.sofa { response7 with requestID := 5 })
      .ErrCodecException = some (clientConnOneStream, []) := by decide
  refine ⟨h, ?_⟩
  rintro ⟨conn1, es, r, h1, h2⟩
  rw [h] at h1
  simp only [Option.some.injEq, Prod.mk.injEq] at h1
  rw [← h1.2] at h2
  simp at h2

/-- Claim C10, amended: for ErrCodecException or ErrDeserializeException on a command
with request id above 0, handleError never closes the connection and calls a receiver
at most once.  OnDecodeError(err, cmd) is delivered exactly once when the command is a
request or one-way request on a connection with a server listener (to the receiver
NewStreamDetect returns for the new stream), and when it is a response whose request id
is in the stream map (to that stream's receiver, the stream leaving the map).  For a
response whose request id is not in the stream map, and for any other command type,
nothing is delivered. -/
theorem C10_decode_error_delivery (conn : StreamConnection) (c : SofaRpcCmd) (err : Err)
    (herr : err = .ErrCodecException ∨ err = .ErrDeserializeException)
    (hid : c.requestID > 0) :
    (∀ conn1 es, conn.handleError (.sofa c) err = some (conn1, es) →
      es.any Effect.isClose = false ∧ (es.filter Effect.isReceiverCall).length ≤ 1) ∧
    (c.commandType = REQUEST ∨ c.commandType = REQUEST_ONEWAY →
      ∀ px, conn.serverStreamConnectionEventListener = some px →
      ∃ conn1, conn.handleError (.sofa c) err =
        some (conn1,
          [Effect.NewStreamDetect c.requestID
              (if c.commandType = REQUEST_ONEWAY then none else some c.requestID),
           Effect.OnDecodeError (px.currID + 1) err c]) ∧
        conn1.streams = conn.streams) ∧
    (c.commandType = RESPONSE →
      ∀ m s rcv, conn.streams = some m → GoMap.load m c.requestID = some s →
        s.receiver = some rcv →
        conn.handleError (.sofa c) err =
          some ({ conn with streams := some (GoMap.delete m c.requestID) },
                [Effect.OnDecodeError rcv err c])) ∧
    (c.commandType = RESPONSE →
      (conn.streams = none ∨ ∃ m, conn.streams = some m ∧ GoMap.load m c.requestID = none) →
      conn.handleError (.sofa c) err = some (conn, [])) ∧
    (c.commandType ≠ REQUEST → c.commandType ≠ REQUEST_ONEWAY → c.commandType ≠ RESPONSE →
      conn.handleError (.sofa c) err = some (conn, [])) := by
  have hunf : conn.handleError (.sofa c) err =
      match conn.processStream c with
      | none => none
      | some (conn1, some stream, es) =>
        match stream.receiver with
        | some r => some (conn1, es ++ [Effect.OnDecodeError r err c])
        | none => none
      | some (conn1, none, es) => some (conn1, es) := by
    rcases herr with h | h <;> subst h <;> simp [StreamConnection.handleError, hid]
  refine ⟨?_, ?_, ?_, ?_, ?_⟩
  · intro conn1 es h
    rw [hunf] at h
    unfold StreamConnection.processStream at h
    split_ifs at h with h1 h2
    · unfold StreamConnection.onNewStreamDetect at h
      cases hl : conn.serverStreamConnectionEventListener with
      | none => simp [hl] at h
      | some px =>
        simp only [hl, Option.some.injEq, Prod.mk.injEq] at h
        rw [← h.2]
        simp [Effect.isClose, Effect.isReceiverCall]
    · unfold StreamConnection.onStreamRecv at h
      cases hm : conn.streams with
      | none =>
        simp only [hm, Option.some.injEq, Prod.mk.injEq] at h
        rw [← h.2]
        simp
      | some m =>
        cases hld : GoMap.load m c.requestID with
        | none =>
          simp only [hm, hld, Option.some.injEq, Prod.mk.injEq] at h
          rw [← h.2]
          simp
        | some st =>
          simp only [hm, hld] at h
          cases hrc : st.receiver with
          | none => simp [hrc] at h
          | some rc =>
            simp only [hrc, Option.some.injEq, Prod.mk.injEq] at h
            rw [← h.2]
            simp [Effect.isClose, Effect.isReceiverCall]
    · simp only [Option.some.injEq, Prod.mk.injEq] at h
      rw [← h.2]
      simp
  · intro hty px hl
    rw [hunf]
    simp only [StreamConnection.processStream, hty, if_true, StreamConnection.onNewStreamDetect,
      hl, Proxy.NewStreamDetect]
    exact ⟨_, rfl, rfl⟩
  · intro hty m s rcv hm hl hr
    rw [hunf]
    simp [StreamConnection.processStream, hty, StreamConnection.onStreamRecv, hm, hl, hr,
      RESPONSE, REQUEST, REQUEST_ONEWAY]
  · intro hty hm
    rw [hunf]
    rcases hm with hm | ⟨m, hm, hl⟩
    · simp [StreamConnection.processStream, hty, StreamConnection.onStreamRecv, hm,
        RESPONSE, REQUEST, REQUEST_ONEWAY]
    · simp [StreamConnection.processStream, hty, StreamConnection.onStreamRecv, hm, hl,
        RESPONSE, REQUEST, REQUEST_ONEWAY]
  · intro h1 h2 h3
    rw [hunf]
    simp [StreamConnection.processStream, h1, h2, h3]

/-- Witness for C10 as amended: a deserialize exception on request 7 reaches the
receiver of the new server stream once and closes nothing. -/
theorem C10_decode_error_delivery_witness :
    ∃ conn1, serverConn.handleError (.sofa request7) .ErrDeserializeException =
      some (conn1,
        [Effect.NewStreamDetect 7 (if request7.commandType = REQUEST_ONEWAY then none else some 7),
         Effect.OnDecodeError 1 .ErrDeserializeException request7]) ∧
      conn1.streams = serverConn.streams :=
  (C10_decode_error_delivery serverConn request7 .ErrDeserializeException (Or.inr rfl)
    (by decide)).2.1 (Or.inl rfl) ⟨[], 0⟩ rfl

/-! ## The dispatch loop -/

theorem onNewStreamDetect_contextManager {conn conn1 : StreamConnection} {cmd : SofaRpcCmd}
    {s : Stream} {es : List Effect} (h : conn.onNewStreamDetect cmd = some (conn1, s, es)) :
    conn1.contextManager = conn.contextManager ∧ conn1.currStreamID = conn.currStreamID ∧
      conn1.streams = conn.streams := by
  unfold StreamConnection.onNewStreamDetect at h
  cases hl : conn.serverStreamConnectionEventListener with
  | none => simp [hl] at h
  | some px =>
    simp only [hl, Option.some.injEq, Prod.mk.injEq] at h
    rw [← h.1]
    exact ⟨rfl, rfl, rfl⟩

theorem onStreamRecv_fields (conn : StreamConnection) (cmd : SofaRpcCmd) :
    (conn.onStreamRecv cmd).1.contextManager = conn.contextManager ∧
    (conn.onStreamRecv cmd).1.currStreamID = conn.currStreamID ∧
    ((conn.onStreamRecv cmd).1.streams = conn.streams ∨
      ∃ m, conn.streams = some m ∧
        (conn.onStreamRecv cmd).1.streams = some (GoMap.delete m cmd.requestID)) := by
  cases hm : conn.streams with
  | none =>
    have h : conn.onStreamRecv cmd = (conn, none) := by simp [StreamConnection.onStreamRecv, hm]
    rw [h]
    exact ⟨rfl, rfl, Or.inl hm⟩
  | some m =>
    cases hl : GoMap.load m cmd.requestID with
    | none =>
      have h : conn.onStreamRecv cmd = (conn, none) := by
        simp [StreamConnection.onStreamRecv, hm, hl]
      rw [h]
      exact ⟨rfl, rfl, Or.inl hm⟩
    | some s =>
      have h : conn.onStreamRecv cmd =
          ({ conn with streams := some (GoMap.delete m cmd.requestID) }, some s) := by
        simp [StreamConnection.onStreamRecv, hm, hl]
      rw [h]
      exact ⟨rfl, rfl, Or.inr ⟨m, rfl, rfl⟩⟩

/-- Processing a command changes neither the context manager nor the stream id counter,
and at most deletes one key of the stream map. -/
theorem processStream_fields {conn conn1 : StreamConnection} {cmd : SofaRpcCmd}
    {s : Option Stream} {es : List Effect} (h : conn.processStream cmd = some (conn1, s, es)) :
    conn1.contextManager = conn.contextManager ∧ conn1.currStreamID = conn.currStreamID ∧
    (conn1.streams = conn.streams ∨
      ∃ m k, conn.streams = some m ∧ conn1.streams = some (GoMap.delete m k)) := by
  unfold StreamConnection.processStream at h
  split_ifs at h with h1 h2
  · cases hd : conn.onNewStreamDetect cmd with
    | none => simp [hd] at h
    | some r =>
      obtain ⟨c2, s2, es2⟩ := r
      simp only [hd, Option.some.injEq, Prod.mk.injEq] at h
      obtain ⟨ha, hb, hc⟩ := onNewStreamDetect_contextManager hd
      rw [← h.1]
      exact ⟨ha, hb, Or.inl hc⟩
  · simp only [Option.some.injEq, Prod.mk.injEq] at h
    obtain ⟨ha, hb, hc⟩ := onStreamRecv_fields conn cmd
    rw [← h.1]
    refine ⟨ha, hb, ?_⟩
    rcases hc with hc | ⟨m, hm, hc⟩
    · exact Or.inl hc
    · exact Or.inr ⟨m, _, hm, hc⟩
  · simp only [Option.some.injEq, Prod.mk.injEq] at h
    rw [← h.1]
    exact ⟨rfl, rfl, Or.inl rfl⟩

theorem handleError_fields {conn conn1 : StreamConnection} {cmd : Model} {err : Err}
    {es : List Effect} (h : conn.handleError cmd err = some (conn1, es)) :
    conn1.contextManager = conn.contextManager ∧ conn1.currStreamID = conn.currStreamID ∧
    (conn1.streams = conn.streams ∨
      ∃ m k, conn.streams = some m ∧ conn1.streams = some (GoMap.delete m k)) := by
  have same : ∀ es0 : List Effect, some (conn, es0) = some (conn1, es) →
      conn1.contextManager = conn.contextManager ∧ conn1.currStreamID = conn.currStreamID ∧
      (conn1.streams = conn.streams ∨
        ∃ m k, conn.streams = some m ∧ conn1.streams = some (GoMap.delete m k)) := by
    intro es0 hx
    simp only [Option.some.injEq, Prod.mk.injEq] at hx
    rw [← hx.1]
    exact ⟨rfl, rfl, Or.inl rfl⟩
  have viaProcess : ∀ (c : SofaRpcCmd) (e : Err), (match conn.processStream c with
      | none => none
      | some (conn1, some stream, es) =>
        match stream.receiver with
        | some r => some (conn1, es ++ [Effect.OnDecodeError r e c])
        | none => none
      | some (conn1, none, es) => some (conn1, es)) = some (conn1, es) →
      conn1.contextManager = conn.contextManager ∧ conn1.currStreamID = conn.currStreamID ∧
      (conn1.streams = conn.streams ∨
        ∃ m k, conn.streams = some m ∧ conn1.streams = some (GoMap.delete m k)) := by
    intro c e hp
    cases hps : conn.processStream c with
    | none => simp [hps] at hp
    | some r =>
      obtain ⟨c2, s2, es2⟩ := r
      have hf := processStream_fields hps
      cases s2 with
      | none =>
        simp only [hps, Option.some.injEq, Prod.mk.injEq] at hp
        rw [← hp.1]; exact hf
      | some st =>
        cases hr : st.receiver with
        | none => simp [hps, hr] at hp
        | some rc =>
          simp only [hps, hr, Option.some.injEq, Prod.mk.injEq] at hp
          rw [← hp.1]; exact hf
  cases err with
  | ErrCodecException =>
    cases cmd with
    | sofa c =>
      by_cases hc : c.requestID > 0
      · simp only [StreamConnection.handleError, hc, if_true] at h
        exact viaProcess c _ h
      · simp only [StreamConnection.handleError, hc, if_false] at h
        exact same _ h
    | nil => exact same _ h
    | other t => exact same _ h
  | ErrDeserializeException =>
    cases cmd with
    | sofa c =>
      by_cases hc : c.requestID > 0
      · simp only [StreamConnection.handleError, hc, if_true] at h
        exact viaProcess c _ h
      · simp only [StreamConnection.handleError, hc, if_false] at h
        exact same _ h
    | nil => exact same _ h
    | other t => exact same _ h
  | ErrUnrecognizedCode => exact same _ h
  | ErrUnKnownCmdType => exact same _ h
  | ErrUnKnownCmdCode => exact same _ h
  | ErrNotSofarpcCmd => exact same _ h
  | ErrNotResponseBuilder => exact same _ h
  | ErrNoStatusCodeForHijack => exact same _ h
  | ErrConnectionHasClosed => exact same _ h
  | other t => exact same _ h

theorem handleCommand_fields {conn conn1 : StreamConnection} {model : Model} {err : Option Err}
    {es : List Effect} (h : conn.handleCommand model err = some (conn1, es)) :
    conn1.contextManager = conn.contextManager ∧ conn1.currStreamID = conn.currStreamID ∧
    (conn1.streams = conn.streams ∨
      ∃ m k, conn.streams = some m ∧ conn1.streams = some (GoMap.delete m k)) := by
  cases err with
  | some e => exact handleError_fields (by simpa [StreamConnection.handleCommand] using h)
  | none =>
    cases model with
    | nil => exact @handleError_fields conn conn1 .nil .ErrNotSofarpcCmd es h
    | other t => exact @handleError_fields conn conn1 (.other t) .ErrNotSofarpcCmd es h
    | sofa c =>
      simp only [StreamConnection.handleCommand] at h
      cases hps : conn.processStream c with
      | none => simp [hps] at h
      | some r =>
        obtain ⟨c2, s2, es2⟩ := r
        have hf := processStream_fields hps
        cases s2 with
        | none =>
          simp only [hps, Option.some.injEq, Prod.mk.injEq] at h
          rw [← h.1]; exact hf
        | some st =>
          cases hr : st.receiver with
          | none => simp [hps, hr] at h
          | some rc =>
            simp only [hps, hr, Option.some.injEq, Prod.mk.injEq] at h
            rw [← h.1]; exact hf

/-- When the decoder yields k commands and then stops, Dispatch does not run on beyond
k + 1 rounds, reports the handled commands in decode order and advances the context
manager exactly k times. -/
theorem Dispatch_calls_and_context (decode : List Byte → Decoded)
    (cmds : List Model) (stop : DecodeStop) (buf : List Byte) (conn : StreamConnection)
    (fuel : Nat) (hdec : decodesTo decode buf cmds stop) (hfuel : cmds.length < fuel) :
    conn.Dispatch decode fuel buf ≠ .outOfFuel ∧
    (∀ conn1 buf1 es hs, conn.Dispatch decode fuel buf = .returned conn1 buf1 es hs →
      hs = expectedCalls cmds stop ∧
      conn1.contextManager = conn.contextManager + cmds.length) ∧
    (cmds = [] → stop = .needMore →
      conn.Dispatch decode fuel buf = .returned conn (decode buf).rest [] []) ∧
    (cmds = [] → ∀ c e, stop = .failed c e →
      conn.Dispatch decode fuel buf =
        match conn.handleCommand c (some e) with
        | some (conn1, es) => .returned conn1 (decode buf).rest es [(c, some e)]
        | none => .panicked) := by
  induction cmds generalizing buf conn fuel with
  | nil =>
    obtain ⟨f, rfl⟩ : ∃ f, fuel = f + 1 := ⟨fuel - 1, by simp at hfuel; omega⟩
    cases stop with
    | needMore =>
      have hd : (decode buf).cmd = .nil ∧ (decode buf).err = none := hdec
      have hr : conn.Dispatch decode (f + 1) buf = .returned conn (decode buf).rest [] [] := by
        simp [StreamConnection.Dispatch, hd.1, hd.2]
      refine ⟨(by rw [hr]; simp), ?_, fun _ _ => hr, fun _ c e h => (by cases h)⟩
      intro conn1 buf1 es hs h
      rw [hr] at h
      simp only [DispatchResult.returned.injEq] at h
      rw [← h.1, ← h.2.2.2]
      exact ⟨rfl, rfl⟩
    | failed c e =>
      have hd : (decode buf).cmd = c ∧ (decode buf).err = some e := hdec
      have hr : conn.Dispatch decode (f + 1) buf =
          match conn.handleCommand c (some e) with
          | some (conn1, es) => .returned conn1 (decode buf).rest es [(c, some e)]
          | none => .panicked := by
        simp only [StreamConnection.Dispatch, hd.1, hd.2]
        cases conn.handleCommand c (some e) with
        | none => simp
        | some r => simp
      refine ⟨?_, ?_, fun _ h => (by cases h), fun _ c1 e1 h => (by cases h; exact hr)⟩
      · rw [hr]
        cases conn.handleCommand c (some e) <;> simp
      · intro conn1 buf1 es hs h
        rw [hr] at h
        cases hc : conn.handleCommand c (some e) with
        | none => simp [hc] at h
        | some r =>
          obtain ⟨c2, es2⟩ := r
          simp only [hc, DispatchResult.returned.injEq] at h
          rw [← h.1, ← h.2.2.2]
          exact ⟨rfl, by simpa using (handleCommand_fields hc).1⟩
  | cons c cs ih =>
    obtain ⟨f, rfl⟩ : ∃ f, fuel = f + 1 := ⟨fuel - 1, by simp at hfuel; omega⟩
    have hf : cs.length < f := by simpa using hfuel
    obtain ⟨hc, hne, herr, hrest⟩ : (decode buf).cmd = c ∧ c ≠ .nil ∧ (decode buf).err = none ∧
      decodesTo decode (decode buf).rest cs stop := hdec
    refine ⟨?_, ?_, fun h => (by cases h), fun h => (by cases h)⟩
    · simp only [StreamConnection.Dispatch, hc, herr, hne, false_and, if_false]
      cases hh : conn.handleCommand c none with
      | none => simp
      | some r =>
        obtain ⟨c1, es1⟩ := r
        have hi := (ih (decode buf).rest { c1 with contextManager := c1.contextManager + 1 } f
          hrest hf).1
        simp only [ne_eq, not_true_eq_false, if_false]
        cases hd : StreamConnection.Dispatch decode f
            { c1 with contextManager := c1.contextManager + 1 } (decode buf).rest with
        | returned a b d e => simp
        | panicked => simp
        | outOfFuel => exact absurd hd hi
    · intro conn1 buf1 es hs h
      simp only [StreamConnection.Dispatch, hc, herr, hne, false_and, if_false] at h
      cases hh : conn.handleCommand c none with
      | none => simp [hh] at h
      | some r =>
        obtain ⟨c1, es1⟩ := r
        have hi := (ih (decode buf).rest { c1 with contextManager := c1.contextManager + 1 } f
          hrest hf).2.1
        simp only [hh, ne_eq, not_true_eq_false, if_false] at h
        cases hd : StreamConnection.Dispatch decode f
            { c1 with contextManager := c1.contextManager + 1 } (decode buf).rest with
        | panicked => simp [hd] at h
        | outOfFuel => simp [hd] at h
        | returned a b d e =>
          simp only [hd, DispatchResult.returned.injEq] at h
          obtain ⟨h1, h2⟩ := hi a b d e hd
          rw [← h.1, ← h.2.2.2, h1, h2]
          refine ⟨?_, ?_⟩
          · cases stop <;> simp [expectedCalls]
          · simp only [(handleCommand_fields hh).1, List.length_cons]
            omega

/-- Dispatch does to the connection and its collaborators exactly what calling
handleCommand on each decoded command in decode order does, and leaves the buffer the
decoder left. -/
theorem Dispatch_eq_handleCommandsInOrder (decode : List Byte → Decoded)
    (cmds : List Model) (stop : DecodeStop) (buf : List Byte) (conn : StreamConnection)
    (fuel : Nat) (hdec : decodesTo decode buf cmds stop) (hfuel : cmds.length < fuel) :
    conn.Dispatch decode fuel buf =
      match handleCommandsInOrder conn (expectedCalls cmds stop) with
      | some (conn1, es) =>
        .returned conn1 (bufferAfter decode cmds.length buf) es (expectedCalls cmds stop)
      | none => .panicked := by
  induction cmds generalizing buf conn fuel with
  | nil =>
    obtain ⟨f, rfl⟩ : ∃ f, fuel = f + 1 := ⟨fuel - 1, by simp at hfuel; omega⟩
    cases stop with
    | needMore =>
      have hd : (decode buf).cmd = .nil ∧ (decode buf).err = none := hdec
      simp [StreamConnection.Dispatch, hd.1, hd.2, expectedCalls, handleCommandsInOrder,
        bufferAfter]
    | failed c e =>
      have hd : (decode buf).cmd = c ∧ (decode buf).err = some e := hdec
      simp only [StreamConnection.Dispatch, hd.1, hd.2, expectedCalls, handleCommandsInOrder,
        bufferAfter, List.map_nil, List.nil_append, List.length_nil]
      cases conn.handleCommand c (some e) with
      | none => simp
      | some r => simp [handleCommandsInOrder]
  | cons c cs ih =>
    obtain ⟨f, rfl⟩ : ∃ f, fuel = f + 1 := ⟨fuel - 1, by simp at hfuel; omega⟩
    have hf : cs.length < f := by simpa using hfuel
    obtain ⟨hc, hne, herr, hrest⟩ : (decode buf).cmd = c ∧ c ≠ .nil ∧ (decode buf).err = none ∧
      decodesTo decode (decode buf).rest cs stop := hdec
    have hcalls : expectedCalls (c :: cs) stop = (c, none) :: expectedCalls cs stop := by
      cases stop <;> simp [expectedCalls]
    rw [hcalls]
    simp only [StreamConnection.Dispatch, hc, herr, hne, false_and, if_false,
      handleCommandsInOrder, bufferAfter, List.length_cons]
    cases hh : conn.handleCommand c none with
    | none => simp
    | some r =>
      obtain ⟨c1, es1⟩ := r
      have hi := ih (decode buf).rest { c1 with contextManager := c1.contextManager + 1 } f
        hrest hf
      simp only [ne_eq, not_true_eq_false, if_false, if_true]
      rw [hi]
      cases handleCommandsInOrder { c1 with contextManager := c1.contextManager + 1 }
          (expectedCalls cs stop) with
      | none => simp
      | some r2 => simp

/-- Claim C11: when the decoder yields k commands and then need-more, Dispatch never
runs on beyond k + 1 rounds and does exactly what k calls of handleCommand do, one on
each command in decode order with a nil error, each on the connection the call before
left: it returns that connection, the effects of those calls in order and the buffer
the decoder left, and it advances the context manager exactly k times.  With k = 0 (as
on a zero-byte buffer) it returns at once with no effect and the connection unchanged.
When the decoder instead stops with an error, that error is handled once, after the
commands before it, and the context manager is advanced only for those commands; the
loop then returns without decoding further.  Dispatch panics exactly when one of these
handleCommand calls does. -/
theorem C11_Dispatch_handles_in_decode_order (decode : List Byte → Decoded)
    (cmds : List Model) (stop : DecodeStop) (buf : List Byte) (conn : StreamConnection)
    (fuel : Nat) (hdec : decodesTo decode buf cmds stop) (hfuel : cmds.length < fuel) :
    (conn.Dispatch decode fuel buf =
      match handleCommandsInOrder conn (expectedCalls cmds stop) with
      | some (conn1, es) =>
        .returned conn1 (bufferAfter decode cmds.length buf) es (expectedCalls cmds stop)
      | none => .panicked) ∧
    conn.Dispatch decode fuel buf ≠ .outOfFuel ∧
    (∀ conn1 buf1 es hs, conn.Dispatch decode fuel buf = .returned conn1 buf1 es hs →
      hs = expectedCalls cmds stop ∧
      conn1.contextManager = conn.contextManager + cmds.length) ∧
    (cmds = [] → stop = .needMore →
      conn.Dispatch decode fuel buf = .returned conn (decode buf).rest [] []) ∧
    (cmds = [] → ∀ c e, stop = .failed c e →
      conn.Dispatch decode fuel buf =
        match conn.handleCommand c (some e) with
        | some (conn1, es) => .returned conn1 (decode buf).rest es [(c, some e)]
        | none => .panicked) :=
  ⟨Dispatch_eq_handleCommandsInOrder decode cmds stop buf conn fuel hdec hfuel,
   Dispatch_calls_and_context decode cmds stop buf conn fuel hdec hfuel⟩

/-- Witness for C11: two request frames on a server-side connection are handled in
order: each opens a server stream through NewStreamDetect and is delivered to the
receiver, and the context manager moves on twice. -/
theorem C11_Dispatch_handles_in_decode_order_witness :
    decodesTo byteDecoder [7, 9] decoded7and9 .needMore ∧
    (∃ conn1 es, serverConn.Dispatch byteDecoder 5 [7, 9] =
        .returned conn1 [] es (expectedCalls decoded7and9 .needMore) ∧
      handleCommandsInOrder serverConn (expectedCalls decoded7and9 .needMore) =
        some (conn1, es) ∧
      es.length = 4 ∧ (es.filter Effect.isNewStreamDetect).length = 2 ∧
      conn1.contextManager = serverConn.contextManager + 2) ∧
    serverConn.Dispatch byteDecoder 5 [7, 9] ≠ .outOfFuel :=
  have h : decodesTo byteDecoder [7, 9] decoded7and9 .needMore := by
    simp only [decodesTo, decoded7and9, byteDecoder]
    decide
  have hall := C11_Dispatch_handles_in_decode_order byteDecoder decoded7and9 .needMore [7, 9]
    serverConn 5 h (by decide)
  ⟨h, (by
      have h1 := hall.1
      cases hc : handleCommandsInOrder serverConn (expectedCalls decoded7and9 .needMore) with
      | none => exact absurd hc (by decide)
      | some r =>
        obtain ⟨conn1, es⟩ := r
        rw [hc] at h1
        have hb : bufferAfter byteDecoder decoded7and9.length [7, 9] = [] := by decide
        rw [hb] at h1
        have hlen : (handleCommandsInOrder serverConn
            (expectedCalls decoded7and9 .needMore)).map
              (fun r => (r.2.length, (r.2.filter Effect.isNewStreamDetect).length,
                r.1.contextManager)) = some (4, 2, serverConn.contextManager + 2) := by
          decide
        rw [hc] at hlen
        simp only [Option.map_some', Option.some.injEq, Prod.mk.injEq] at hlen
        exact ⟨conn1, es, h1, rfl, hlen.1, hlen.2.1, hlen.2.2⟩),
    hall.2.1⟩

/-! ## Stream allocation -/

namespace GoMap

variable {K V : Type} [DecidableEq K]

theorem mem_delete {m : GoMap K V} {k : K} {e : K × V} (h : e ∈ delete m k) : e ∈ m := by
  induction m with
  | nil => simp [delete] at h
  | cons x t ih =>
    obtain ⟨k1, v1⟩ := x
    by_cases hk : k1 = k
    · simp only [delete, hk, if_true] at h
      exact List.mem_cons_of_mem _ (ih h)
    · simp only [delete, hk, if_false, List.mem_cons] at h
      rcases h with h1 | h2
      · exact h1 ▸ List.mem_cons_self _ _
      · exact List.mem_cons_of_mem _ (ih h2)

theorem delete_of_absent {m : GoMap K V} {k : K} (h : ∀ e ∈ m, e.1 ≠ k) : delete m k = m := by
  induction m with
  | nil => rfl
  | cons x t ih =>
    obtain ⟨k1, v1⟩ := x
    have hk : k1 ≠ k := h (k1, v1) (List.mem_cons_self _ _)
    simp only [delete, hk, if_false]
    rw [ih (fun e he => h e (List.mem_cons_of_mem _ he))]

theorem load_of_absent {m : GoMap K V} {k : K} (h : ∀ e ∈ m, e.1 ≠ k) : load m k = none := by
  induction m with
  | nil => rfl
  | cons x t ih =>
    obtain ⟨k1, v1⟩ := x
    have hk : k1 ≠ k := h (k1, v1) (List.mem_cons_self _ _)
    simp only [load, hk, if_false]
    exact ih (fun e he => h e (List.mem_cons_of_mem _ he))

end GoMap

/-- What one `NewStream` does on a connection with a stream map whose keys are bounded
by the id counter, short of the `uint64` wrap. -/
theorem NewStream_spec {conn : StreamConnection} {m : GoMap Nat Stream}
    (hm : conn.streams = some m) (hk : conn.keysBounded)
    (hlt : conn.currStreamID + 1 < uint64Mod) (receiver : Option Receiver) :
    ∃ conn1 s, conn.NewStream receiver = some (conn1, s) ∧
      s.id = conn.currStreamID + 1 ∧ s.receiver = receiver ∧ s.direction = .ClientStream ∧
      conn1.currStreamID = conn.currStreamID + 1 ∧ conn1.keysBounded ∧
      conn1.contextManager = conn.contextManager ∧
      (receiver ≠ none →
        conn1.streams = some (GoMap.store m s.id s) ∧ GoMap.load (GoMap.store m s.id s) s.id = some s ∧
        conn1.ActiveStreamsNum = conn.ActiveStreamsNum + 1) ∧
      (receiver = none →
        conn1.streams = some m ∧ GoMap.load m s.id = none ∧
        conn1.ActiveStreamsNum = conn.ActiveStreamsNum) := by
  have hmod : (conn.currStreamID + 1) % uint64Mod = conn.currStreamID + 1 := Nat.mod_eq_of_lt hlt
  have habsent : ∀ e ∈ m, e.1 ≠ conn.currStreamID + 1 := by
    intro e he
    have := hk m hm e he
    omega
  cases receiver with
  | none =>
    have hn : conn.NewStream none =
        some ({ conn with currStreamID := (conn.currStreamID + 1) % uint64Mod },
          ⟨false, (conn.currStreamID + 1) % uint64Mod, .ClientStream, none, none⟩) := rfl
    refine ⟨_, _, hn, hmod, rfl, rfl, hmod, ?_, rfl,
      fun h => absurd rfl h, fun _ => ⟨hm, ?_, ?_⟩⟩
    · intro m1 hm1 e he
      have hm2 : m1 = m := by
        have : conn.streams = some m1 := hm1
        rw [hm] at this
        exact (Option.some.inj this).symm
      have := hk m hm e (hm2 ▸ he)
      show e.1 ≤ (conn.currStreamID + 1) % uint64Mod
      omega
    · show GoMap.load m ((conn.currStreamID + 1) % uint64Mod) = none
      rw [hmod]
      exact GoMap.load_of_absent habsent
    · simp [StreamConnection.ActiveStreamsNum, hm]
  | some rcv =>
    have hn : conn.NewStream (some rcv) =
        some ({ conn with
                currStreamID := (conn.currStreamID + 1) % uint64Mod,
                streams := some (GoMap.store m ((conn.currStreamID + 1) % uint64Mod)
                  ⟨false, (conn.currStreamID + 1) % uint64Mod, .ClientStream, some rcv, none⟩) },
          ⟨false, (conn.currStreamID + 1) % uint64Mod, .ClientStream, some rcv, none⟩) := by
      simp [StreamConnection.NewStream, hm]
    refine ⟨_, _, hn, hmod, rfl, rfl, hmod, ?_, rfl,
      fun _ => ⟨rfl, GoMap.load_store_self _ _ _, ?_⟩, fun h => (by cases h)⟩
    · intro m1 hm1 e he
      have hm2 : m1 = GoMap.store m ((conn.currStreamID + 1) % uint64Mod)
          ⟨false, (conn.currStreamID + 1) % uint64Mod, .ClientStream, some rcv, none⟩ :=
        (Option.some.inj hm1).symm
      rw [hm2, GoMap.store, List.mem_cons] at he
      show e.1 ≤ (conn.currStreamID + 1) % uint64Mod
      rcases he with he | he
      · rw [he]
      · have := hk m hm e (GoMap.mem_delete he)
        omega
    · simp only [StreamConnection.ActiveStreamsNum, hm, GoMap.len, GoMap.store, List.length_cons,
        hmod, GoMap.delete_of_absent habsent]

theorem ResetStream_fields (s : Stream) (conn : StreamConnection) (reason : StreamResetReason) :
    (s.ResetStream conn reason).1.contextManager = conn.contextManager ∧
    (s.ResetStream conn reason).1.currStreamID = conn.currStreamID ∧
    ((s.ResetStream conn reason).1.streams = conn.streams ∨
      ∃ m k, conn.streams = some m ∧
        (s.ResetStream conn reason).1.streams = some (GoMap.delete m k)) := by
  unfold Stream.ResetStream
  split_ifs
  · cases hm : conn.streams with
    | none => exact ⟨rfl, rfl, Or.inl (by simp [hm])⟩
    | some m => exact ⟨rfl, rfl, Or.inr ⟨m, s.id, rfl, by simp [hm]⟩⟩
  · exact ⟨rfl, rfl, Or.inl rfl⟩

/-- Deleting a key keeps the stream map present and its keys bounded. -/
theorem keysBounded_of_fields {conn conn1 : StreamConnection}
    (hid : conn1.currStreamID = conn.currStreamID)
    (hs : conn1.streams = conn.streams ∨
      ∃ m k, conn.streams = some m ∧ conn1.streams = some (GoMap.delete m k))
    (hk : conn.keysBounded) (hsome : ∃ m, conn.streams = some m) :
    conn1.keysBounded ∧ ∃ m, conn1.streams = some m := by
  rcases hs with hs | ⟨m, k, hm, hs⟩
  · refine ⟨?_, by rw [hs]; exact hsome⟩
    intro m1 hm1 e he
    rw [hid]
    exact hk m1 (hs ▸ hm1) e he
  · refine ⟨?_, _, hs⟩
    intro m1 hm1 e he
    rw [hs] at hm1
    have := (Option.some.inj hm1)
    rw [hid]
    exact hk m hm e (GoMap.mem_delete (this ▸ he))

/-- Ids handed out by a run of operations count up from the id counter. -/
theorem runOps_ids (ops : List ConnOp) :
    ∀ (conn conn1 : StreamConnection) (ss : List Stream),
      (∃ m, conn.streams = some m) → conn.keysBounded →
      conn.runOps ops = some (conn1, ss) → conn.currStreamID + ss.length < uint64Mod →
      ss.map (fun s => s.id) = List.range' (conn.currStreamID + 1) ss.length ∧
      conn1.currStreamID = conn.currStreamID + ss.length ∧ conn1.keysBounded ∧
      ∃ m1, conn1.streams = some m1 := by
  induction ops with
  | nil =>
    intro conn conn1 ss hsome hk hrun _
    simp only [StreamConnection.runOps, Option.some.injEq, Prod.mk.injEq] at hrun
    rw [← hrun.1, ← hrun.2]
    exact ⟨rfl, rfl, hk, hsome⟩
  | cons op ops ih =>
    intro conn conn1 ss hsome hk hrun hlt
    cases op with
    | NewStream receiver =>
      simp only [StreamConnection.runOps] at hrun
      cases hn : conn.NewStream receiver with
      | none => simp [hn] at hrun
      | some r =>
        obtain ⟨c1, s⟩ := r
        cases hr : c1.runOps ops with
        | none => simp [hn, hr] at hrun
        | some r2 =>
          obtain ⟨c2, ss2⟩ := r2
          simp only [hn, hr, Option.some.injEq, Prod.mk.injEq] at hrun
          obtain ⟨hc, hss⟩ := hrun
          subst hc; subst hss
          simp only [List.length_cons] at hlt
          obtain ⟨m, hm⟩ := hsome
          obtain ⟨c1', s', hn', hid, _, _, hcur, hk1, _, hsome1, hnone1⟩ :=
            NewStream_spec hm hk (by omega) receiver
          rw [hn] at hn'
          simp only [Option.some.injEq, Prod.mk.injEq] at hn'
          obtain ⟨e1, e2⟩ := hn'
          subst e1; subst e2
          have hs1 : ∃ m1, c1.streams = some m1 := by
            cases receiver with
            | none => exact ⟨_, (hnone1 rfl).1⟩
            | some rc => exact ⟨_, (hsome1 (by simp)).1⟩
          obtain ⟨h1, h2, h3, h4⟩ := ih c1 c2 ss2 hs1 hk1 hr (by omega)
          refine ⟨?_, by rw [h2, hcur, List.length_cons]; omega, h3, h4⟩
          simp only [List.map_cons, List.length_cons, List.range'_succ, hid, h1, hcur]
    | handleCommand model err =>
      simp only [StreamConnection.runOps] at hrun
      cases hh : conn.handleCommand model err with
      | none => simp [hh] at hrun
      | some r =>
        obtain ⟨c1, es⟩ := r
        simp only [hh] at hrun
        obtain ⟨_, hid, hs⟩ := handleCommand_fields hh
        obtain ⟨hk1, hsome1⟩ := keysBounded_of_fields hid hs hk hsome
        have := ih c1 conn1 ss hsome1 hk1 hrun (by rw [hid]; exact hlt)
        rw [hid] at this
        exact this
    | ResetStream s reason =>
      simp only [StreamConnection.runOps] at hrun
      obtain ⟨_, hid, hs⟩ := ResetStream_fields s conn reason
      obtain ⟨hk1, hsome1⟩ := keysBounded_of_fields hid hs hk hsome
      have := ih _ conn1 ss hsome1 hk1 hrun (by rw [hid]; exact hlt)
      rw [hid] at this
      exact this

/-- Claim C17: on a connection created with client callbacks, whatever commands are
handled and streams reset in between, the streams returned by NewStream carry the ids
1, 2, 3, ... in call order, so they are pairwise distinct, as long as fewer than 2^64
are allocated; and the next NewStream takes the next id, registers the stream in the
stream map and raises ActiveStreamsNum by one when the receiver is non-nil, and leaves
map and count alone when the receiver is nil. -/
theorem C17_NewStream_ids_count_up (serverCallbacks : Option Proxy) (ops : List ConnOp)
    (conn1 : StreamConnection) (ss : List Stream) (receiver : Option Receiver)
    (hrun : (newStreamConnection true serverCallbacks).runOps ops = some (conn1, ss))
    (hlt : ss.length + 1 < uint64Mod) :
    ss.map (fun s => s.id) = List.range' 1 ss.length ∧
    (ss.map (fun s => s.id)).Nodup ∧
    ∃ conn2 s, conn1.NewStream receiver = some (conn2, s) ∧
      s.id = ss.length + 1 ∧ s.receiver = receiver ∧
      (receiver ≠ none →
        (∃ m, conn2.streams = some m ∧ GoMap.load m s.id = some s) ∧
        conn2.ActiveStreamsNum = conn1.ActiveStreamsNum + 1) ∧
      (receiver = none →
        conn2.streams = conn1.streams ∧
        (∀ m, conn2.streams = some m → GoMap.load m s.id = none) ∧
        conn2.ActiveStreamsNum = conn1.ActiveStreamsNum) := by
  have hk0 : (newStreamConnection true serverCallbacks).keysBounded := by
    intro m hm e he
    simp only [newStreamConnection, if_true, Option.some.injEq] at hm
    rw [← hm] at he
    cases he
  obtain ⟨h1, h2, h3, m1, h4⟩ := runOps_ids ops (newStreamConnection true serverCallbacks)
    conn1 ss ⟨[], rfl⟩ hk0 hrun (by simp only [newStreamConnection]; omega)
  have hcur : conn1.currStreamID = ss.length := by
    rw [h2]; simp [newStreamConnection]
  have hids : ss.map (fun s => s.id) = List.range' 1 ss.length := by
    rw [h1]; simp [newStreamConnection]
  refine ⟨hids, by rw [hids]; exact List.nodup_range' _ _, ?_⟩
  obtain ⟨conn2, s, hn, hid, hrcv, _, _, _, _, hsome, hnone⟩ :=
    NewStream_spec h4 h3 (by rw [hcur]; exact hlt) receiver
  refine ⟨conn2, s, hn, by rw [hid, hcur], hrcv, ?_, ?_⟩
  · intro hne
    obtain ⟨ha, hb, hc⟩ := hsome hne
    exact ⟨⟨_, ha, hb⟩, hc⟩
  · intro he
    obtain ⟨ha, hb, hc⟩ := hnone he
    refine ⟨by rw [ha, h4], ?_, hc⟩
    intro m hm
    rw [ha] at hm
    rw [← Option.some.inj hm]
    exact hb

/-- Witness for C17: after a two-way and a one-way stream the ids are 1 and 2, and the
third stream gets id 3. -/
theorem C17_NewStream_ids_count_up_witness :
    clientConn.runOps exampleOps =
      some ({ clientConn with currStreamID := 2, streams := some [] },
        [⟨false, 1, .ClientStream, some 9, none⟩, ⟨false, 2, .ClientStream, none, none⟩]) ∧
    ∃ conn2 s, StreamConnection.NewStream
        { clientConn with currStreamID := 2, streams := some [] } (some 4) = some (conn2, s) ∧
      s.id = 3 := by
  have hrun : (newStreamConnection true none).runOps exampleOps =
      some ({ clientConn with currStreamID := 2, streams := some [] },
        [⟨false, 1, .ClientStream, some 9, none⟩, ⟨false, 2, .ClientStream, none, none⟩]) := by
    decide
  refine ⟨hrun, ?_⟩
  obtain ⟨_, _, conn2, s, h1, h2, _⟩ :=
    C17_NewStream_ids_count_up none exampleOps _ _ (some 4) hrun (by decide)
  exact ⟨conn2, s, h1, h2⟩

/-! ## The proxy read filter -/

/-- Claim C12: with no server stream connection yet, OnData runs protocol selection
once; on EAGAIN it does nothing more, on FAILED it closes the connection with
(NoFlush, OnReadErrClose), and in both cases leaves serverStreamConn unset and dispatches
nothing; otherwise it creates the server stream connection and dispatches the buffer
once.  With the server stream connection set it dispatches the buffer without running
selection.  It returns Stop in every case. -/
theorem C12_OnData_detects_then_dispatches
    (selectProtocol : String → List Byte → String × MatchResult) (p : ProxyFilter)
    (tlsProtocol : Option String) (buf : List Byte) :
    (p.serverStreamConn = none →
      ((selectProtocol (tlsProtocol.getD "") buf).2 = .EAGAIN →
        p.OnData selectProtocol tlsProtocol buf =
          (p, .Stop, [ProxyEffect.SelectStreamFactoryProtocol (tlsProtocol.getD "") buf])) ∧
      ((selectProtocol (tlsProtocol.getD "") buf).2 = .FAILED →
        p.OnData selectProtocol tlsProtocol buf =
          (p, .Stop, [ProxyEffect.SelectStreamFactoryProtocol (tlsProtocol.getD "") buf,
                      ProxyEffect.connClose .NoFlush .OnReadErrClose])) ∧
      ((selectProtocol (tlsProtocol.getD "") buf).2 = .ok →
        p.OnData selectProtocol tlsProtocol buf =
          ({ p with serverStreamConn := some (selectProtocol (tlsProtocol.getD "") buf).1 },
           .Stop,
           [ProxyEffect.SelectStreamFactoryProtocol (tlsProtocol.getD "") buf,
            ProxyEffect.CreateServerStreamConnection
              (selectProtocol (tlsProtocol.getD "") buf).1,
            ProxyEffect.Dispatch buf]))) ∧
    (∀ protocol, p.serverStreamConn = some protocol →
      p.OnData selectProtocol tlsProtocol buf = (p, .Stop, [ProxyEffect.Dispatch buf])) ∧
    (p.OnData selectProtocol tlsProtocol buf).2.1 = .Stop := by
  have hprot : (match tlsProtocol with
      | some negotiated => negotiated
      | none => "") = tlsProtocol.getD "" := by
    cases tlsProtocol <;> rfl
  have key : ∀ (protocol : String) (err : MatchResult),
      selectProtocol (tlsProtocol.getD "") buf = (protocol, err) → p.serverStreamConn = none →
      p.OnData selectProtocol tlsProtocol buf =
        if err = .EAGAIN then
          (p, .Stop, [ProxyEffect.SelectStreamFactoryProtocol (tlsProtocol.getD "") buf])
        else if err = .FAILED then
          (p, .Stop, [ProxyEffect.SelectStreamFactoryProtocol (tlsProtocol.getD "") buf,
                      ProxyEffect.connClose .NoFlush .OnReadErrClose])
        else
          ({ p with serverStreamConn := some protocol }, .Stop,
           [ProxyEffect.SelectStreamFactoryProtocol (tlsProtocol.getD "") buf,
            ProxyEffect.CreateServerStreamConnection protocol, ProxyEffect.Dispatch buf]) := by
    intro protocol err hsel hunset
    simp only [ProxyFilter.OnData, hunset, hprot, hsel]
  refine ⟨?_, ?_, ?_⟩
  · intro hunset
    refine ⟨?_, ?_, ?_⟩
    · intro h
      rw [key _ _ (Prod.ext rfl rfl) hunset, h]
      rfl
    · intro h
      rw [key _ _ (Prod.ext rfl rfl) hunset, h]
      rfl
    · intro h
      rw [key _ _ (Prod.ext rfl rfl) hunset, h]
      rfl
  · intro protocol hset
    simp only [ProxyFilter.OnData, hset]
  · cases hs : p.serverStreamConn with
    | some protocol => simp only [ProxyFilter.OnData, hs]
    | none =>
      rw [key _ _ (Prod.ext rfl rfl) hs]
      cases (selectProtocol (tlsProtocol.getD "") buf).2 <;> rfl

/-- Witness for C12: the first bytes of a SofaRPC connection create the server stream
connection and are dispatched; nothing is closed. -/
theorem C12_OnData_detects_then_dispatches_witness :
    proxyThreeStreams.serverStreamConn = none ∧
    (selectByFirstByte ((none : Option String).getD "") [1, 2]).2 = .ok ∧
    proxyThreeStreams.OnData selectByFirstByte none [1, 2] =
      ({ proxyThreeStreams with serverStreamConn := some "SofaRpc" }, .Stop,
       [ProxyEffect.SelectStreamFactoryProtocol "" [1, 2],
        ProxyEffect.CreateServerStreamConnection "SofaRpc", ProxyEffect.Dispatch [1, 2]]) :=
  ⟨rfl, rfl,
   ((C12_OnData_detects_then_dispatches selectByFirstByte proxyThreeStreams none [1, 2]).1
      rfl).2.2 rfl⟩

/-- Claim C14: on a close event onDownstreamEvent delivers
OnResetStream(StreamConnectionTermination) once to each active stream, in the order of
the active-stream list, and moves DownstreamConnectionDestroy by +1 and
DownstreamConnectionActive by -1 on the global and on the listener stats; on any other
event it resets no stream and changes nothing. -/
theorem C14_onDownstreamEvent_resets_all (p : ProxyFilter) (event : ConnectionEvent) :
    (event.IsClose = true →
      (p.onDownstreamEvent event).2 =
        p.proxy.activeSteams.map
          (fun ds => ProxyEffect.OnResetStream ds .StreamConnectionTermination) ∧
      (p.onDownstreamEvent event).2.length = p.proxy.activeSteams.length ∧
      (p.onDownstreamEvent event).1.stats.DownstreamConnectionDestroy
        = p.stats.DownstreamConnectionDestroy + 1 ∧
      (p.onDownstreamEvent event).1.stats.DownstreamConnectionActive
        = p.stats.DownstreamConnectionActive - 1 ∧
      (p.onDownstreamEvent event).1.listenerStats.DownstreamConnectionDestroy
        = p.listenerStats.DownstreamConnectionDestroy + 1 ∧
      (p.onDownstreamEvent event).1.listenerStats.DownstreamConnectionActive
        = p.listenerStats.DownstreamConnectionActive - 1 ∧
      (p.onDownstreamEvent event).1.stats.DownstreamConnectionTotal
        = p.stats.DownstreamConnectionTotal ∧
      (p.onDownstreamEvent event).1.listenerStats.DownstreamConnectionTotal
        = p.listenerStats.DownstreamConnectionTotal ∧
      (p.onDownstreamEvent event).1.proxy = p.proxy ∧
      (p.onDownstreamEvent event).1.serverStreamConn = p.serverStreamConn) ∧
    (event.IsClose = false → p.onDownstreamEvent event = (p, [])) := by
  refine ⟨?_, ?_⟩
  · intro h
    simp [ProxyFilter.onDownstreamEvent, h]
  · intro h
    simp [ProxyFilter.onDownstreamEvent, h]

/-- Witness for C14: a remote close with three active streams resets the three, in order. -/
theorem C14_onDownstreamEvent_resets_all_witness :
    ConnectionEvent.RemoteClose.IsClose = true ∧
    (proxyThreeStreams.onDownstreamEvent .RemoteClose).2 =
      [ProxyEffect.OnResetStream ⟨1, some 7⟩ .StreamConnectionTermination,
       ProxyEffect.OnResetStream ⟨2, some 8⟩ .StreamConnectionTermination,
       ProxyEffect.OnResetStream ⟨3, none⟩ .StreamConnectionTermination] :=
  ⟨rfl, ((C14_onDownstreamEvent_resets_all proxyThreeStreams .RemoteClose).1 rfl).1⟩

/-- Claim C15: streamResetReasonToResponseFlag maps StreamConnectionFailed to
UpstreamConnectionFailure, StreamConnectionTermination to UpstreamConnectionTermination,
StreamLocalReset to UpstreamLocalReset, StreamRemoteReset to UpstreamRemoteReset,
StreamOverflow to UpstreamOverflow, and every other reason to the zero flag. -/
theorem C15_streamResetReasonToResponseFlag_table (reason : StreamResetReason) :
    streamResetReasonToResponseFlag .StreamConnectionFailed = UpstreamConnectionFailure ∧
    streamResetReasonToResponseFlag .StreamConnectionTermination
      = UpstreamConnectionTermination ∧
    streamResetReasonToResponseFlag .StreamLocalReset = UpstreamLocalReset ∧
    streamResetReasonToResponseFlag .StreamRemoteReset = UpstreamRemoteReset ∧
    streamResetReasonToResponseFlag .StreamOverflow = UpstreamOverflow ∧
    (reason ≠ .StreamConnectionFailed → reason ≠ .StreamConnectionTermination →
      reason ≠ .StreamLocalReset → reason ≠ .StreamRemoteReset → reason ≠ .StreamOverflow →
      streamResetReasonToResponseFlag reason = 0) := by
  refine ⟨rfl, rfl, rfl, rfl, rfl, ?_⟩
  intro h1 h2 h3 h4 h5
  cases reason <;> first | rfl | contradiction

/-- Witness for C15: a reason outside the table, StreamConnectionSuccessed, gives the
zero flag. -/
theorem C15_streamResetReasonToResponseFlag_table_witness :
    streamResetReasonToResponseFlag .StreamConnectionSuccessed = 0 :=
  (C15_streamResetReasonToResponseFlag_table .StreamConnectionSuccessed).2.2.2.2.2
    (by decide) (by decide) (by decide) (by decide) (by decide)

/-! ## HTTP/2 -/

theorem take_eq_take_iff_getElem? {α : Type} (a b : List α) (n : Nat) :
    a.take n = b.take n ↔ ∀ i, i < n → a[i]? = b[i]? := by
  constructor
  · intro h i hi
    rw [← List.getElem?_take_of_lt hi, h, List.getElem?_take_of_lt hi]
  · intro h
    apply List.ext_getElem?
    intro i
    by_cases hi : i < n
    · rw [List.getElem?_take_of_lt hi, List.getElem?_take_of_lt hi]
      exact h i hi
    · rw [List.getElem?_take_eq_none (Nat.le_of_not_lt hi),
        List.getElem?_take_eq_none (Nat.le_of_not_lt hi)]

/-- Claim C13: with P the client preface, ProtocolMatch returns ok exactly when the
magic bytes are at least as long as P and start with P; EAGAIN exactly when they are
shorter than P and a leading part of P (the empty magic included); and FAILED exactly
when magic and P differ at some index below both lengths.  The result depends neither on
the context nor on the negotiated protocol.  The preface has 24 bytes. -/
theorem C13_ProtocolMatch_preface (P m : List Byte) (ctx ctx2 : Ctx) (prot prot2 : String) :
    (Http2.ProtocolMatch P ctx prot m = .ok ↔ P.length ≤ m.length ∧ m.take P.length = P) ∧
    (Http2.ProtocolMatch P ctx prot m = .EAGAIN ↔ m.length < P.length ∧ P.take m.length = m) ∧
    (Http2.ProtocolMatch P ctx prot m = .FAILED ↔
      ∃ i, i < min m.length P.length ∧ m[i]? ≠ P[i]?) ∧
    Http2.ProtocolMatch P ctx prot m = Http2.ProtocolMatch P ctx2 prot2 m ∧
    Http2.ClientPreface.length = 24 := by
  have hfail : ∀ n, ¬ (m.take n = P.take n) ↔ ∃ i, i < n ∧ m[i]? ≠ P[i]? := by
    intro n
    rw [take_eq_take_iff_getElem?]
    constructor
    · intro h
      by_contra hne
      exact h (fun i hi => by
        by_contra hd
        exact hne ⟨i, hi, hd⟩)
    · rintro ⟨i, hi, hd⟩ h
      exact hd (h i hi)
  have hform : Http2.ProtocolMatch P ctx prot m =
      if P.length ≤ m.length then (if m.take P.length = P then .ok else .FAILED)
      else (if m = P.take m.length then .EAGAIN else .FAILED) := by
    by_cases hlen : P.length ≤ m.length
    · simp [Http2.ProtocolMatch, hlen]
    · simp [Http2.ProtocolMatch, hlen]
  have hP : P.take P.length = P := List.take_length P
  have hm : m.take m.length = m := List.take_length m
  refine ⟨?_, ?_, ?_, rfl, rfl⟩
  · rw [hform]
    by_cases hlen : P.length ≤ m.length
    · by_cases heq : m.take P.length = P
      · simp [hlen, heq]
      · simp [hlen, heq]
    · by_cases heq : m = P.take m.length
      · rw [if_neg hlen, if_pos heq]
        simp [hlen]
      · rw [if_neg hlen, if_neg heq]
        simp [hlen]
  · rw [hform]
    by_cases hlen : P.length ≤ m.length
    · have hnot : ¬ m.length < P.length := by omega
      by_cases heq : m.take P.length = P
      · rw [if_pos hlen, if_pos heq]
        simp [hnot]
      · rw [if_pos hlen, if_neg heq]
        simp [hnot]
    · have hlt : m.length < P.length := by omega
      by_cases heq : m = P.take m.length
      · rw [if_neg hlen, if_pos heq]
        simp [hlt, heq.symm]
      · rw [if_neg hlen, if_neg heq]
        have : ¬ P.take m.length = m := fun h => heq h.symm
        simp [this]
  · rw [hform]
    by_cases hlen : P.length ≤ m.length
    · rw [Nat.min_eq_right hlen, ← hfail, hP]
      by_cases heq : m.take P.length = P
      · rw [if_pos hlen, if_pos heq]
        simp [heq]
      · rw [if_pos hlen, if_neg heq]
        simp [heq]
    · rw [Nat.min_eq_left (by omega), ← hfail, hm]
      by_cases heq : m = P.take m.length
      · rw [if_neg hlen, if_pos heq]
        exact ⟨fun h => (by cases h), fun h => absurd heq h⟩
      · rw [if_neg hlen, if_neg heq]
        exact ⟨fun _ => heq, fun _ => rfl⟩

/-- Witness for C13: the first three bytes of the preface ask for more, the whole
preface followed by a byte matches, and a buffer starting with another byte fails. -/
theorem C13_ProtocolMatch_preface_witness :
    Http2.ProtocolMatch Http2.ClientPreface none "" [80, 82, 73] = .EAGAIN ∧
    Http2.ProtocolMatch Http2.ClientPreface none "h2" (Http2.ClientPreface ++ [0]) = .ok ∧
    Http2.ProtocolMatch Http2.ClientPreface none "" [71, 69, 84] = .FAILED :=
  ⟨(C13_ProtocolMatch_preface Http2.ClientPreface [80, 82, 73] none none "" "").2.1.mpr
      (by decide),
   (C13_ProtocolMatch_preface Http2.ClientPreface (Http2.ClientPreface ++ [0]) none none
      "h2" "").1.mpr (by decide),
   (C13_ProtocolMatch_preface Http2.ClientPreface [71, 69, 84] none none "" "").2.2.1.mpr
      ⟨0, by decide, by decide⟩⟩

/-- Claim C16: for a StreamError with stream id i, handleError removes only key i from
the stream map and resets only the stream found there, with StreamLocalReset on a server
connection and StreamRemoteReset on a client connection, and does not close the
transport; when no stream has id i nothing is removed or reset.  For a ConnectionError
it closes the transport with OnReadErrClose, for any other error with RemoteClose, and
in both cases removes and resets no stream. -/
theorem C16_handleError_stream_scoped (sconn : Http2.ServerStreamConnection)
    (cconn : Http2.ClientStreamConnection) (i code tag : Nat) :
    ((∀ s, GoMap.load sconn.streams i = some s →
        (sconn.handleError (some (.StreamError i))).1.streams = GoMap.delete sconn.streams i ∧
        Http2.resets (sconn.handleError (some (.StreamError i))).2 = [(s.id, .StreamLocalReset)] ∧
        Http2.closes (sconn.handleError (some (.StreamError i))).2 = []) ∧
     (GoMap.load sconn.streams i = none →
        (sconn.handleError (some (.StreamError i))).1 = sconn ∧
        Http2.resets (sconn.handleError (some (.StreamError i))).2 = [] ∧
        Http2.closes (sconn.handleError (some (.StreamError i))).2 = []) ∧
     (∀ k, k ≠ i → GoMap.load (GoMap.delete sconn.streams i) k = GoMap.load sconn.streams k) ∧
     (sconn.handleError (some (.ConnectionError code))).1 = sconn ∧
     Http2.resets (sconn.handleError (some (.ConnectionError code))).2 = [] ∧
     Http2.closes (sconn.handleError (some (.ConnectionError code))).2 = [.OnReadErrClose] ∧
     (sconn.handleError (some (.other tag))).1 = sconn ∧
     Http2.resets (sconn.handleError (some (.other tag))).2 = [] ∧
     Http2.closes (sconn.handleError (some (.other tag))).2 = [.RemoteClose]) ∧
    ((∀ s, GoMap.load cconn.streams i = some s →
        (cconn.handleError (some (.StreamError i))).1.streams = GoMap.delete cconn.streams i ∧
        Http2.resets (cconn.handleError (some (.StreamError i))).2 = [(s.id, .StreamRemoteReset)] ∧
        Http2.closes (cconn.handleError (some (.StreamError i))).2 = []) ∧
     (GoMap.load cconn.streams i = none →
        (cconn.handleError (some (.StreamError i))).1 = cconn ∧
        Http2.resets (cconn.handleError (some (.StreamError i))).2 = [] ∧
        Http2.closes (cconn.handleError (some (.StreamError i))).2 = []) ∧
     (∀ k, k ≠ i → GoMap.load (GoMap.delete cconn.streams i) k = GoMap.load cconn.streams k) ∧
     (cconn.handleError (some (.ConnectionError code))).1 = cconn ∧
     Http2.resets (cconn.handleError (some (.ConnectionError code))).2 = [] ∧
     Http2.closes (cconn.handleError (some (.ConnectionError code))).2 = [.OnReadErrClose] ∧
     (cconn.handleError (some (.other tag))).1 = cconn ∧
     Http2.resets (cconn.handleError (some (.other tag))).2 = [] ∧
     Http2.closes (cconn.handleError (some (.other tag))).2 = [.RemoteClose]) := by
  refine ⟨⟨?_, ?_, fun k hk => GoMap.load_delete_ne _ (Ne.symm hk), rfl, rfl, rfl, rfl, rfl, rfl⟩,
    ⟨?_, ?_, fun k hk => GoMap.load_delete_ne _ (Ne.symm hk), rfl, rfl, rfl, rfl, rfl, rfl⟩⟩
  · intro s hs
    simp [Http2.ServerStreamConnection.handleError, hs, Http2.resets, Http2.closes, Http2.serverStreamReset,
      Http2.clientStreamReset]
  · intro hs
    simp [Http2.ServerStreamConnection.handleError, hs, Http2.resets, Http2.closes, Http2.serverStreamReset,
      Http2.clientStreamReset]
  · intro s hs
    simp [Http2.ClientStreamConnection.handleError, hs, Http2.resets, Http2.closes, Http2.serverStreamReset,
      Http2.clientStreamReset]
  · intro hs
    simp [Http2.ClientStreamConnection.handleError, hs, Http2.resets, Http2.closes, Http2.serverStreamReset,
      Http2.clientStreamReset]

/-- Witness for C16: a stream error on stream 3 of a server connection with the streams
1, 3 and 5 removes and resets stream 3 alone. -/
theorem C16_handleError_stream_scoped_witness :
    GoMap.load Http2.serverThreeStreams.streams 3 = some ⟨3, some 2, none⟩ ∧
    (Http2.serverThreeStreams.handleError (some (.StreamError 3))).1.streams
      = GoMap.delete Http2.serverThreeStreams.streams 3 ∧
    Http2.resets (Http2.serverThreeStreams.handleError (some (.StreamError 3))).2
      = [(3, .StreamLocalReset)] ∧
    Http2.closes (Http2.serverThreeStreams.handleError (some (.StreamError 3))).2 = [] :=
  ⟨rfl, (C16_handleError_stream_scoped Http2.serverThreeStreams ⟨[]⟩ 3 0 0).1.1
    ⟨3, some 2, none⟩ rfl⟩

/-! ## xDS conversion -/

/-- A weight inside the bounds is never written to the host, whose Weight keeps the zero
value. -/
theorem ConvertEndpointsConfig_in_range (MinHostWeight MaxHostWeight w port : Nat)
    (addr : String) (meta : Option (GoMap String String))
    (h1 : MinHostWeight ≤ w) (h2 : w ≤ MaxHostWeight) :
    ConvertEndpointsConfig MinHostWeight MaxHostWeight
      (some [{ address := .SocketAddress addr (.PortValue port), metadata := meta,
               loadBalancingWeight := some w }]) =
      some [{ Address := addr ++ ":" ++ toString port, Weight := 0,
              MetaData := convertMeta meta }] := by
  have h3 : ¬ w < MinHostWeight := by omega
  have h4 : ¬ w > MaxHostWeight := by omega
  simp [ConvertEndpointsConfig, h3, h4]

/-- Claim C18, at the failing input: with the bounds 1 and 128, an endpoint with load
balancing weight 50 is converted to a host of Weight 0, which is neither 50 nor inside
the bounds. -/
theorem C18_weight_in_range_becomes_zero :
    (ConvertEndpointsConfig 1 128 (some [endpointWeight50])).map
      (fun hosts => hosts.map (fun h => h.Weight)) = some [0] ∧
    (ConvertEndpointsConfig 1 128
      (some [{ endpointWeight50 with loadBalancingWeight := some 0 }])).map
      (fun hosts => hosts.map (fun h => h.Weight)) = some [1] ∧
    (ConvertEndpointsConfig 1 128
      (some [{ endpointWeight50 with loadBalancingWeight := some 500 }])).map
      (fun hosts => hosts.map (fun h => h.Weight)) = some [128] := by
  decide

/-- Claim C20: convertHeaders returns nil for a nil list, and otherwise a list of the
same length in which the element at each index has Regex true and Value the pattern when
the regex match is non-empty, Regex false and Value the exact-match string otherwise, and
Name the input name without its first character when that is ':' and the input name
unchanged otherwise. -/
theorem C20_convertHeaders_elementwise (xdsHeaders : List (Option XdsHeaderMatcher)) :
    convertHeaders none = none ∧
    ∃ out, convertHeaders (some xdsHeaders) = some out ∧ out.length = xdsHeaders.length ∧
      ∀ (i : Nat) (h : i < xdsHeaders.length) (h2 : i < out.length),
        (XdsHeaderMatcher.GetRegexMatch xdsHeaders[i] ≠ "" →
          out[i].Regex = true ∧ out[i].Value = XdsHeaderMatcher.GetRegexMatch xdsHeaders[i]) ∧
        (XdsHeaderMatcher.GetRegexMatch xdsHeaders[i] = "" →
          out[i].Regex = false ∧ out[i].Value = XdsHeaderMatcher.GetExactMatch xdsHeaders[i]) ∧
        (∀ rest, (XdsHeaderMatcher.GetName xdsHeaders[i]).data = ':' :: rest →
          out[i].Name = String.mk rest) ∧
        ((∀ rest, (XdsHeaderMatcher.GetName xdsHeaders[i]).data ≠ ':' :: rest) →
          out[i].Name = XdsHeaderMatcher.GetName xdsHeaders[i]) := by
  have hname : ∀ (name : String),
      (∀ rest, name.data = ':' :: rest → dropPseudoColon name = String.mk rest) ∧
      ((∀ rest, name.data ≠ ':' :: rest) → dropPseudoColon name = name) := by
    intro name
    unfold dropPseudoColon
    constructor
    · intro rest hr
      simp [hr]
    · intro hne
      split
      · next rest hr => exact absurd hr (hne rest)
      · rfl
  refine ⟨rfl, _, rfl, by simp, ?_⟩
  intro i h h2
  simp only [List.getElem_map]
  by_cases hre : XdsHeaderMatcher.GetRegexMatch xdsHeaders[i] = ""
  · refine ⟨fun hn => absurd hre hn, fun _ => ?_, ?_, ?_⟩
    · simp [hre]
    · intro rest hr
      simpa [hre] using (hname _).1 rest hr
    · intro hr
      simpa [hre] using (hname _).2 hr
  · refine ⟨fun _ => ?_, fun hn => absurd hn hre, ?_, ?_⟩
    · simp [hre]
    · intro rest hr
      simpa [hre] using (hname _).1 rest hr
    · intro hr
      simpa [hre] using (hname _).2 hr

/-- Witness for C20: an exact matcher and a regex matcher on a pseudo header. -/
theorem C20_convertHeaders_elementwise_witness :
    convertHeaders (some exampleHeaders) =
      some [{ Name := "end-user", Value := "jason", Regex := false },
            { Name := "path", Value := "/v1/.*", Regex := true }] ∧
    ∃ out, convertHeaders (some exampleHeaders) = some out ∧
      out.length = exampleHeaders.length := by
  refine ⟨by decide, ?_⟩
  obtain ⟨out, h1, h2, _⟩ := (C20_convertHeaders_elementwise exampleHeaders).2
  exact ⟨out, h1, h2⟩

/-! ## The LeastActiveRequest load balancer -/

theorem leastActive_eq_none {l : List LbHost} (h : leastActive l = none) : l = [] := by
  cases l with
  | nil => rfl
  | cons x t =>
    simp only [leastActive] at h
    cases ht : leastActive t <;> simp [ht] at h

theorem leastActive_spec {l : List LbHost} {m : Int} (h : leastActive l = some m) :
    (∀ x ∈ l, m ≤ x.active) ∧ ∃ x ∈ l, x.active = m := by
  induction l generalizing m with
  | nil => simp [leastActive] at h
  | cons x t ih =>
    simp only [leastActive] at h
    cases ht : leastActive t with
    | none =>
      have : t = [] := leastActive_eq_none ht
      subst this
      simp only [ht, Option.some.injEq] at h
      subst h
      exact ⟨by simp, x, by simp, rfl⟩
    | some m1 =>
      simp only [ht, Option.some.injEq] at h
      obtain ⟨h1, y, hy, hym⟩ := ih ht
      subst h
      refine ⟨?_, ?_⟩
      · intro z hz
        rcases List.mem_cons.mp hz with hz | hz
        · subst hz; exact min_le_left _ _
        · exact le_trans (min_le_right _ _) (h1 z hz)
      · rcases le_total x.active m1 with hle | hle
        · exact ⟨x, List.mem_cons_self _ _, by rw [min_eq_left hle]⟩
        · exact ⟨y, List.mem_cons_of_mem _ hy, by rw [min_eq_right hle, hym]⟩

theorem pickAt_mem (l : List LbHost) (r : Nat) (hne : l ≠ []) : ∃ x ∈ l, pickAt l r = some x := by
  induction l generalizing r with
  | nil => exact absurd rfl hne
  | cons x t ih =>
    cases t with
    | nil => exact ⟨x, List.mem_cons_self _ _, rfl⟩
    | cons g t2 =>
      by_cases hr : r < x.weight
      · exact ⟨x, List.mem_cons_self _ _, by simp [pickAt, hr]⟩
      · obtain ⟨y, hy, hp⟩ := ih (r - x.weight) (by simp)
        exact ⟨y, List.mem_cons_of_mem _ hy, by simp [pickAt, hr, hp]⟩

/-- What the modelled ChooseHost returns: nothing exactly when no host is healthy,
otherwise a healthy host of least activity among the healthy. -/
theorem leastActiveRequestChooseHost_spec (seed : Nat) (hosts : List LbHost) :
    ((∀ x ∈ hosts, x.healthy = false) → leastActiveRequestChooseHost seed hosts = none) ∧
    ((∃ x ∈ hosts, x.healthy = true) →
      ∃ x, leastActiveRequestChooseHost seed hosts = some x ∧ x ∈ hosts ∧ x.healthy = true ∧
        ∀ g ∈ hosts, g.healthy = true → x.active ≤ g.active) := by
  constructor
  · intro hall
    cases hosts with
    | nil => rfl
    | cons a t =>
      have hf : (a :: t).filter (fun h => h.healthy) = [] := by
        rw [List.filter_eq_nil_iff]
        intro x hx
        simp [hall x hx]
      simp only [leastActiveRequestChooseHost, hf, leastActive]
  · rintro ⟨x, hx, hxh⟩
    cases hosts with
    | nil => simp at hx
    | cons a t =>
      have hxf : x ∈ (a :: t).filter (fun h => h.healthy) := List.mem_filter.mpr ⟨hx, hxh⟩
      cases hm : leastActive ((a :: t).filter (fun h => h.healthy)) with
      | none =>
        rw [leastActive_eq_none hm] at hxf
        simp at hxf
      | some m =>
        obtain ⟨hmin, y, hy, hym⟩ := leastActive_spec hm
        have hcand : (List.filter (fun h => decide (h.active = m))
            ((a :: t).filter (fun h => h.healthy))) ≠ [] := by
          intro hnil
          have : y ∈ List.filter (fun h => decide (h.active = m))
              ((a :: t).filter (fun h => h.healthy)) :=
            List.mem_filter.mpr ⟨hy, by simp [hym]⟩
          rw [hnil] at this
          simp at this
        obtain ⟨z, hz, hp⟩ := pickAt_mem _
          (seed % max 1 ((List.filter (fun h => decide (h.active = m))
            ((a :: t).filter (fun h => h.healthy))).map (fun h => h.weight)).sum) hcand
        obtain ⟨hz1, hz2⟩ := List.mem_filter.mp hz
        obtain ⟨hz3, hz4⟩ := List.mem_filter.mp hz1
        refine ⟨z, ?_, hz3, hz4, ?_⟩
        · simp only [leastActiveRequestChooseHost, hm, weightedPick]
          exact hp
        · intro g hg hgh
          have hzm : z.active = m := by simpa using hz2
          rw [hzm]
          exact hmin g (List.mem_filter.mpr ⟨hg, hgh⟩)

/-- Counterexample to C19: a host set with two hosts, both unhealthy, is not empty, yet
ChooseHost returns nil; and no host of the set is healthy, so no healthy host could be
returned. -/
theorem C19_chooseHost_counterexample :
    unhealthyPair ≠ [] ∧
    (∀ seed, leastActiveRequestChooseHost seed unhealthyPair = none) ∧
    (∀ x ∈ unhealthyPair, x.healthy = false) ∧
    leastActiveRequestChooseHost 0 [{ address := 1, weight := 1, healthy := false, active := 0 }]
      = none := by
  refine ⟨by decide, fun seed => ?_, by decide, by decide⟩
  exact (leastActiveRequestChooseHost_spec seed unhealthyPair).1 (by decide)

/-- Claim C19, amended: ChooseHost returns nil exactly when the host set has no healthy
host, in particular when it has no hosts; it returns the single host when the set has
exactly one host and that host is healthy; and whenever it returns a host, that host
belongs to the set, is healthy, and has the least UpstreamRequestActive counter among the
healthy hosts. -/
theorem C19_chooseHost_least_active_healthy (seed : Nat) (hosts : List LbHost) :
    (leastActiveRequestChooseHost seed hosts = none ↔ ∀ x ∈ hosts, x.healthy = false) ∧
    leastActiveRequestChooseHost seed [] = none ∧
    (∀ h, hosts = [h] → h.healthy = true → leastActiveRequestChooseHost seed hosts = some h) ∧
    (∀ h, leastActiveRequestChooseHost seed hosts = some h →
      h ∈ hosts ∧ h.healthy = true ∧ ∀ g ∈ hosts, g.healthy = true → h.active ≤ g.active) := by
  obtain ⟨hnone, hsome⟩ := leastActiveRequestChooseHost_spec seed hosts
  have hiff : leastActiveRequestChooseHost seed hosts = none ↔ ∀ x ∈ hosts, x.healthy = false := by
    constructor
    · intro h x hx
      cases hxh : x.healthy with
      | false => rfl
      | true =>
        obtain ⟨y, hy, _⟩ := hsome ⟨x, hx, hxh⟩
        rw [h] at hy
        cases hy
    · exact hnone
  refine ⟨hiff, rfl, ?_, ?_⟩
  · intro h hh hhealthy
    obtain ⟨y, hy, hmem, _⟩ := hsome ⟨h, by rw [hh]; exact List.mem_singleton_self h, hhealthy⟩
    rw [hh] at hmem
    rw [hy, List.mem_singleton.mp hmem]
  · intro h hh
    have hex : ∃ x ∈ hosts, x.healthy = true := by
      by_contra hno
      have : leastActiveRequestChooseHost seed hosts = none :=
        hnone (fun x hx => by
          cases hxh : x.healthy with
          | false => rfl
          | true => exact absurd ⟨x, hx, hxh⟩ hno)
      rw [this] at hh
      cases hh
    obtain ⟨y, hy, h1, h2, h3⟩ := hsome hex
    rw [hy] at hh
    cases hh
    exact ⟨h1, h2, h3⟩

/-- Witness for C19 as amended: among a host with 4 active requests, an unhealthy idle
host and a host with 2, the last is chosen. -/
theorem C19_chooseHost_least_active_healthy_witness :
    leastActiveRequestChooseHost 0 mixedHosts =
      some { address := 3, weight := 2, healthy := true, active := 2 } ∧
    ({ address := 3, weight := 2, healthy := true, active := 2 } : LbHost) ∈ mixedHosts ∧
    ({ address := 3, weight := 2, healthy := true, active := 2 } : LbHost).healthy = true :=
  have h : leastActiveRequestChooseHost 0 mixedHosts =
      some { address := 3, weight := 2, healthy := true, active := 2 } := by decide
  ⟨h, ((C19_chooseHost_least_active_healthy 0 mixedHosts).2.2.2 _ h).1,
      ((C19_chooseHost_least_active_healthy 0 mixedHosts).2.2.2 _ h).2.1⟩

/-! ## xDS conversion: fault injection -/

/-- A fault that decodes is converted to the fault config of its fields. -/
theorem convertStreamFaultInjectConfig_ok (c : Codec) (s : Option Struct) (fault : HTTPFault)
    (hdec : c.toHTTPFault s = .ok fault) :
    convertStreamFaultInjectConfig c s = .ok (.StreamFaultInject
      { Delay := some { Percent := convertIstioPercentage (FaultDelay.GetPercentage fault.Delay),
                        Duration := (FaultDelay.GetFixedDelay fault.Delay).getD 0 },
        Abort := some { Status := (FaultAbort.GetHttpStatus fault.Abort : Int),
                        Percent := convertIstioPercentage (FaultAbort.GetPercentage fault.Abort) },
        UpstreamCluster := fault.UpstreamCluster,
        Headers := convertHeaders fault.Headers }) := by
  unfold convertStreamFaultInjectConfig
  rw [hdec]
  cases h : FaultDelay.GetFixedDelay fault.Delay <;> simp [makeJsonMap, h]

/-- One entry of the per-route map changes the fault entry of the result only when its
key is a fault key. -/
theorem convertPerRouteEntry_fault (c : Codec) (s : Struct) (cfg : FilterConfig)
    (hcfg : convertStreamFaultInjectConfig c (some s) = .ok cfg)
    (acc : GoMap String PerRouteValue) (e : String × Option Struct)
    (he : (e.1 = FaultStream ∨ e.1 = IstioFault) → e.2 = some s) :
    GoMap.load (convertPerRouteEntry c acc e) FaultStream =
      if e.1 = FaultStream ∨ e.1 = IstioFault then some (.Config cfg)
      else GoMap.load acc FaultStream := by
  obtain ⟨key, config⟩ := e
  simp only at he
  unfold convertPerRouteEntry
  simp only
  by_cases hm : key = MIXER
  · have hk : ¬ (key = FaultStream ∨ key = IstioFault) := by
      subst hm
      decide
    rw [if_pos hm, if_neg hk]
    cases c.toServiceConfig config with
    | error _ => rfl
    | ok sc =>
      subst hm
      exact GoMap.load_store_ne acc _ (by decide)
  · rw [if_neg hm]
    by_cases hk : key = FaultStream ∨ key = IstioFault
    · rw [if_pos hk, if_pos hk, he hk, hcfg]
      exact GoMap.load_store_self acc _ _
    · rw [if_neg hk, if_neg hk]
      by_cases hp : key = PayloadLimit
      · rw [if_pos hp]
        by_cases hen : c.PayLoadLimitEnable = true
        · rw [if_pos hen]
          cases convertStreamPayloadLimitConfig c config with
          | error _ => rfl
          | ok cfg1 => exact GoMap.load_store_ne acc _ (by decide)
        · rw [if_neg hen]
      · rw [if_neg hp]

theorem foldl_convertPerRouteEntry_fault (c : Codec) (s : Struct) (cfg : FilterConfig)
    (hcfg : convertStreamFaultInjectConfig c (some s) = .ok cfg)
    (m : GoMap String (Option Struct))
    (hall : ∀ e ∈ m, (e.1 = FaultStream ∨ e.1 = IstioFault) → e.2 = some s)
    (acc : GoMap String PerRouteValue) :
    GoMap.load (m.foldl (convertPerRouteEntry c) acc) FaultStream =
      if ∃ e ∈ m, e.1 = FaultStream ∨ e.1 = IstioFault then some (.Config cfg)
      else GoMap.load acc FaultStream := by
  induction m generalizing acc with
  | nil => simp
  | cons e t ih =>
    rw [List.foldl_cons, ih (fun e1 h1 => hall e1 (List.mem_cons_of_mem _ h1)),
      convertPerRouteEntry_fault c s cfg hcfg acc e (hall e (List.mem_cons_self _ _))]
    by_cases ht : ∃ e1 ∈ t, e1.1 = FaultStream ∨ e1.1 = IstioFault
    · have : ∃ e1 ∈ e :: t, e1.1 = FaultStream ∨ e1.1 = IstioFault := by
        obtain ⟨e1, h1, h2⟩ := ht
        exact ⟨e1, List.mem_cons_of_mem _ h1, h2⟩
      rw [if_pos ht, if_pos this]
    · rw [if_neg ht]
      by_cases hk : e.1 = FaultStream ∨ e.1 = IstioFault
      · rw [if_pos hk, if_pos ⟨e, List.mem_cons_self _ _, hk⟩]
      · have : ¬ ∃ e1 ∈ e :: t, e1.1 = FaultStream ∨ e1.1 = IstioFault := by
          rintro ⟨e1, h1, h2⟩
          rcases List.mem_cons.1 h1 with h3 | h3
          · exact hk (h3 ▸ h2)
          · exact ht ⟨e1, h3, h2⟩
        rw [if_neg hk, if_neg this]

/-- Claim C21: for an HTTPFault configuration that decodes from its struct,
convertStreamFilter under the name "envoy.fault" or the mosn fault name yields a filter
of type v2.FaultStream, and convertPerRouteConfig on a map whose fault keys carry that
struct yields an entry under v2.FaultStream, both with the same fault config: the abort
HTTP status, the abort and delay percentages converted by convertIstioPercentage, the
fixed delay, the upstream cluster and the headers converted by convertHeaders.  A nil
struct given to convertStreamFilter yields type v2.FaultStream with the empty fault
config. -/
theorem C21_fault_conversion (c : Codec) (s : Struct) (fault : HTTPFault) (name : String)
    (m : GoMap String (Option Struct))
    (hdec : c.toHTTPFault (some s) = .ok fault)
    (hname : name = FaultStream ∨ name = IstioFault)
    (hmem : (name, some s) ∈ m)
    (hall : ∀ e ∈ m, (e.1 = FaultStream ∨ e.1 = IstioFault) → e.2 = some s) :
    (∃ cfg : StreamFaultInject,
      convertStreamFilter c name (some s) =
        { Type_ := FaultStream, Config := some (.StreamFaultInject cfg) } ∧
      GoMap.load (convertPerRouteConfig c m) FaultStream =
        some (.Config (.StreamFaultInject cfg)) ∧
      cfg.Abort = some
        { Status := (FaultAbort.GetHttpStatus fault.Abort : Int),
          Percent := convertIstioPercentage (FaultAbort.GetPercentage fault.Abort) } ∧
      cfg.Delay = some
        { Percent := convertIstioPercentage (FaultDelay.GetPercentage fault.Delay),
          Duration := (FaultDelay.GetFixedDelay fault.Delay).getD 0 } ∧
      cfg.UpstreamCluster = fault.UpstreamCluster ∧
      cfg.Headers = convertHeaders fault.Headers) ∧
    convertStreamFilter c name none =
      { Type_ := FaultStream, Config := some (.StreamFaultInject {}) } := by
  have hcfg := convertStreamFaultInjectConfig_ok c (some s) fault hdec
  have hmix : name ≠ MIXER := by
    rcases hname with h | h <;> subst h <;> decide
  constructor
  · refine ⟨{ Delay := some
                { Percent := convertIstioPercentage (FaultDelay.GetPercentage fault.Delay),
                  Duration := (FaultDelay.GetFixedDelay fault.Delay).getD 0 },
              Abort := some
                { Status := (FaultAbort.GetHttpStatus fault.Abort : Int),
                  Percent := convertIstioPercentage (FaultAbort.GetPercentage fault.Abort) },
              UpstreamCluster := fault.UpstreamCluster,
              Headers := convertHeaders fault.Headers }, ?_, ?_, rfl, rfl, rfl, rfl⟩
    · unfold convertStreamFilter
      simp only [if_neg hmix, if_pos hname, hcfg]
      rfl
    · unfold convertPerRouteConfig
      rw [foldl_convertPerRouteEntry_fault c s _ hcfg m hall, if_pos ⟨_, hmem, hname⟩]
  · unfold convertStreamFilter
    simp only [if_neg hmix, if_pos hname]
    rfl

/-- Witness for C21: the fault of the package's tests under the name "envoy.fault",
next to an entry that does not convert. -/
theorem C21_fault_conversion_witness :
    convertStreamFilter exampleCodec "envoy.fault" (some ⟨"fault"⟩) =
      { Type_ := "fault",
        Config := some (.StreamFaultInject
          { Delay := some { Percent := 100, Duration := 1000000000 },
            Abort := some { Status := 500, Percent := 100 },
            UpstreamCluster := "testupstream",
            Headers := some [{ Name := "end-user", Value := "jason", Regex := false }] }) } ∧
    ∃ cfg : StreamFaultInject,
      GoMap.load (convertPerRouteConfig exampleCodec
        [("mixer", some ⟨"m"⟩), ("envoy.fault", some ⟨"fault"⟩)]) FaultStream =
        some (.Config (.StreamFaultInject cfg)) ∧
      cfg.UpstreamCluster = "testupstream" := by
  have h := C21_fault_conversion exampleCodec ⟨"fault"⟩ exampleFault "envoy.fault"
    [("mixer", some ⟨"m"⟩), ("envoy.fault", some ⟨"fault"⟩)] rfl (Or.inr rfl) (by decide)
    (by decide)
  obtain ⟨⟨cfg, _, h2, _, _, h5, _⟩, _⟩ := h
  exact ⟨by decide, cfg, h2, h5⟩

/-! ## xDS conversion: endpoints, TCP routes, percentages -/

/-- Claim C22: ConvertEndpointsConfig returns nil for a nil endpoint group, a non-nil
empty list for a group without endpoints, and otherwise a non-nil list whose addresses
are, in input order, those of the endpoints with a socket address and a numeric or named
port ("address:port") or with a pipe address (the path); every other endpoint is
skipped, so the list is never longer than the input. -/
theorem C22_ConvertEndpointsConfig_hosts (MinHostWeight MaxHostWeight : Nat)
    (lbEndpoints : List LbEndpoint) :
    ConvertEndpointsConfig MinHostWeight MaxHostWeight none = none ∧
    ConvertEndpointsConfig MinHostWeight MaxHostWeight (some []) = some [] ∧
    ∃ hosts, ConvertEndpointsConfig MinHostWeight MaxHostWeight (some lbEndpoints) = some hosts ∧
      hosts.map (fun h => h.Address) = lbEndpoints.filterMap (fun e =>
        match e.address with
        | .SocketAddress addr (.PortValue port) => some (addr ++ ":" ++ toString port)
        | .SocketAddress addr (.NamedPort name) => some (addr ++ ":" ++ name)
        | .SocketAddress _ .unset => none
        | .Pipe path => some path
        | .unset => none) ∧
      hosts.length ≤ lbEndpoints.length := by
  refine ⟨rfl, rfl, _, rfl, ?_, List.length_filterMap_le _ _⟩
  rw [List.map_filterMap]
  congr 1
  funext e
  rcases h : e.address with ⟨addr, port | name | _⟩ | path | _ <;> simp only [h] <;>
    simp <;> split_ifs <;> exact ⟨_, rfl, rfl⟩

/-- Claim C27: convertIstioPercentage returns 0 for nil and, for numerator n over a
denominator that stands for D (100, 10^4 or 10^6), the integer part of 100 * n / D, that
is n, n / 100 and n / 10000; the result is at most 100 when n ≤ D, grows with n, and is 0
for a fraction below one percent. -/
theorem C27_convertIstioPercentage_floor (n m D : Nat) (d : DenominatorType)
    (hd : d.scale = some D) :
    convertIstioPercentage none = 0 ∧
    convertIstioPercentage (some ⟨n, d⟩) = 100 * n / D ∧
    convertIstioPercentage (some ⟨n, .HUNDRED⟩) = n ∧
    convertIstioPercentage (some ⟨n, .TEN_THOUSAND⟩) = n / 100 ∧
    convertIstioPercentage (some ⟨n, .MILLION⟩) = n / 10000 ∧
    (n ≤ D → convertIstioPercentage (some ⟨n, d⟩) ≤ 100) ∧
    (n ≤ m → convertIstioPercentage (some ⟨n, d⟩) ≤ convertIstioPercentage (some ⟨m, d⟩)) ∧
    (100 * n < D → convertIstioPercentage (some ⟨n, d⟩) = 0) := by
  refine ⟨rfl, ?_, rfl, rfl, rfl, ?_, ?_, ?_⟩
  · cases d <;> simp [DenominatorType.scale] at hd <;> subst hd <;>
      simp only [convertIstioPercentage] <;> omega
  · intro h
    cases d <;> simp [DenominatorType.scale] at hd <;> subst hd <;>
      simp only [convertIstioPercentage] <;> omega
  · intro h
    cases d <;> simp [DenominatorType.scale] at hd <;>
      simp only [convertIstioPercentage] <;> omega
  · intro h
    cases d <;> simp [DenominatorType.scale] at hd <;> subst hd <;>
      simp only [convertIstioPercentage] <;> omega

/-- Witness for C27: 2500 parts in ten thousand are 25 percent. -/
theorem C27_convertIstioPercentage_floor_witness :
    convertIstioPercentage (some ⟨2500, .TEN_THOUSAND⟩) = 100 * 2500 / 10000 ∧
    convertIstioPercentage (some ⟨2500, .TEN_THOUSAND⟩) = 25 ∧
    (100 * 99 < 10000 → convertIstioPercentage (some ⟨99, .TEN_THOUSAND⟩) = 0) :=
  ⟨(C27_convertIstioPercentage_floor 2500 2500 10000 .TEN_THOUSAND rfl).2.1, by decide,
   (C27_convertIstioPercentage_floor 99 99 10000 .TEN_THOUSAND rfl).2.2.2.2.2.2.2⟩

/-- Claim C23: convertTCPRoute returns nil for a nil DeprecatedV1 and otherwise one route
per input route, in order, with Cluster and both port strings copied, SourceAddrs
converted from the source IP list and DestinationAddrs from the destination IP list;
convertCidrRange maps a nil list to nil and otherwise each range, at its index, to its
address prefix and the value of its prefix length. -/
theorem C23_convertTCPRoute_elementwise (routes : List (Option XdsTCPRoute))
    (cidr : List (Option XdsCidrRange)) :
    convertTCPRoute none = none ∧
    (∃ out, convertTCPRoute (some ⟨routes⟩) = some out ∧ out.length = routes.length ∧
      ∀ (i : Nat) (h : i < routes.length) (h2 : i < out.length) (r : XdsTCPRoute),
        routes[i] = some r →
          out[i].Cluster = r.Cluster ∧
          out[i].SourcePort = r.SourcePorts ∧
          out[i].DestinationPort = r.DestinationPorts ∧
          out[i].SourceAddrs = convertCidrRange r.SourceIpList ∧
          out[i].DestinationAddrs = convertCidrRange r.DestinationIpList) ∧
    convertCidrRange none = none ∧
    (∃ out, convertCidrRange (some cidr) = some out ∧ out.length = cidr.length ∧
      ∀ (i : Nat) (h : i < cidr.length) (h2 : i < out.length) (r : XdsCidrRange),
        cidr[i] = some r →
          out[i].Address = r.AddressPrefix ∧ out[i].Length = r.PrefixLen.getD 0) := by
  refine ⟨rfl, ⟨_, rfl, by simp, ?_⟩, rfl, ⟨_, rfl, by simp, ?_⟩⟩
  · intro i h h2 r hr
    simp [hr]
  · intro i h h2 r hr
    simp [hr]

/-- Witness for C23: the route of the package's test, source 192.168.1.2/32 port 40,
destination 192.168.1.1/32 port 50. -/
theorem C23_convertTCPRoute_elementwise_witness :
    ∃ out, convertTCPRoute (some ⟨[some testRoute]⟩) = some out ∧ out.length = 1 ∧
      ∀ h2 : 0 < out.length,
        out[0].Cluster = "tcp" ∧
        out[0].SourceAddrs = some [{ Address := "192.168.1.2", Length := 32 }] ∧
        out[0].DestinationAddrs = some [{ Address := "192.168.1.1", Length := 32 }] := by
  obtain ⟨out, h1, h2, h3⟩ := (C23_convertTCPRoute_elementwise [some testRoute] []).2.1
  refine ⟨out, h1, h2, fun h => ?_⟩
  obtain ⟨a, _, _, d, e⟩ := h3 0 (by decide) h testRoute rfl
  exact ⟨a, d.trans (by decide), e.trans (by decide)⟩

/-! ## HTTP/2: body chunks -/

theorem foldl_receiveData (chunks : List (List Byte)) (s : Http2.H2Stream) :
    (chunks.foldl Http2.H2Stream.receiveData s).sendData =
      if chunks = [] then s.sendData else some (s.sendData.getD [] ++ chunks) := by
  induction chunks generalizing s with
  | nil => rfl
  | cons c t ih =>
    rw [List.foldl_cons, ih]
    by_cases ht : t = []
    · simp [ht, Http2.H2Stream.receiveData]
    · simp [ht, Http2.H2Stream.receiveData]

theorem foldl_append_flatten (l : List (List Byte)) (acc : List Byte) :
    l.foldl (fun data buf => data ++ buf) acc = acc ++ l.flatten := by
  induction l generalizing acc with
  | nil => simp
  | cons c t ih => simp [ih]

theorem buildData_some (s : Http2.H2Stream) (l : List (List Byte)) (h : s.sendData = some l) :
    s.buildData = l.flatten := by
  unfold Http2.H2Stream.buildData
  rw [h]
  dsimp only
  by_cases h1 : l.length = 1
  · rw [if_pos h1]
    match l, h1 with
    | [c], _ => simp
  · rw [if_neg h1, foldl_append_flatten]
    rfl

/-- Claim C28: when the body chunks of a stream are stored in arrival order, buildData
returns their bytes concatenated in that order, of length the sum of the chunk lengths;
without a chunk it returns an empty buffer, with one chunk that chunk's bytes. -/
theorem C28_buildData_concatenates (s : Http2.H2Stream) (chunks : List (List Byte))
    (c : List Byte) (hs : s.sendData = none) :
    (chunks.foldl Http2.H2Stream.receiveData s).buildData = chunks.flatten ∧
    (chunks.foldl Http2.H2Stream.receiveData s).buildData.length =
      (chunks.map List.length).sum ∧
    s.buildData = [] ∧
    (s.receiveData c).buildData = c := by
  have hnone : s.buildData = [] := by
    unfold Http2.H2Stream.buildData
    rw [hs]
    rfl
  have hall : (chunks.foldl Http2.H2Stream.receiveData s).buildData = chunks.flatten := by
    by_cases hc : chunks = []
    · subst hc
      simpa using hnone
    · apply buildData_some
      rw [foldl_receiveData, if_neg hc, hs]
      rfl
  refine ⟨hall, ?_, hnone, ?_⟩
  · rw [hall, List.length_flatten]
  · have h1 := buildData_some (s.receiveData c) [c] (by simp [Http2.H2Stream.receiveData, hs])
    simpa using h1

/-- Witness for C28: three data frames on a fresh stream. -/
theorem C28_buildData_concatenates_witness :
    (([[1, 2], [], [3]] : List (List Byte)).foldl Http2.H2Stream.receiveData
      ⟨1, some 1, none⟩).buildData = [1, 2, 3] :=
  (C28_buildData_concatenates ⟨1, some 1, none⟩ [[1, 2], [], [3]] [] rfl).1

/-! ## The worker pool and the shutdown wait -/

theorem wrapInt64_of_range (x : Int) (h1 : -9223372036854775808 ≤ x)
    (h2 : x < 9223372036854775808) : wrapInt64 x = x := by
  unfold wrapInt64
  omega

/-- Claim C25, as stated, fails: for the configuration value 2^55, an int greater than
0, the pool is not created with size 256 * 2^55; the product wraps to -2^63. -/
theorem C25_initWorkerPool_counterexample :
    (initWorkerPool 8 (.int 36028797018963968) true).2 ≠
      [InitEffect.initGlobalStats, InitEffect.NewWorkerPool (256 * 36028797018963968)] ∧
    (initWorkerPool 8 (.int 36028797018963968) true).2 =
      [InitEffect.initGlobalStats, InitEffect.NewWorkerPool (-9223372036854775808)] := by
  decide

/-- Claim C25, amended: with NumCPU a processor count (between 0 and 2^55),
initWorkerPool creates the worker pool with size 256 * NumCPU by default, and with size
256 * p when the configuration value is an int p with 0 < p < 2^55; for a value that is
not an int, or is zero or negative, the default size is used; it always returns nil. -/
theorem C25_initWorkerPool_size (NumCPU : Int) (data : ConfigData) (endParsing : Bool)
    (hcpu : 0 ≤ NumCPU ∧ NumCPU < 36028797018963968) :
    (initWorkerPool NumCPU data endParsing).1 = none ∧
    (∀ p, data = .int p → 0 < p → p < 36028797018963968 →
      (initWorkerPool NumCPU data endParsing).2 =
        [InitEffect.initGlobalStats, InitEffect.NewWorkerPool (256 * p)]) ∧
    (∀ p, data = .int p → p ≤ 0 →
      (initWorkerPool NumCPU data endParsing).2 =
        [InitEffect.initGlobalStats, InitEffect.NewWorkerPool (256 * NumCPU)]) ∧
    (∀ t, data = .other t →
      (initWorkerPool NumCPU data endParsing).2 =
        [InitEffect.initGlobalStats, InitEffect.NewWorkerPool (256 * NumCPU)]) := by
  have hdef : wrapInt64 (NumCPU * 256) = 256 * NumCPU := by
    rw [wrapInt64_of_range _ (by omega) (by omega)]
    omega
  refine ⟨rfl, ?_, ?_, ?_⟩
  · intro p hp h0 h1
    subst hp
    have hp : wrapInt64 (p * 256) = 256 * p := by
      rw [wrapInt64_of_range _ (by omega) (by omega)]
      omega
    simp [initWorkerPool, h0, hp]
  · intro p hp h0
    subst hp
    have : ¬ p > 0 := by omega
    simp [initWorkerPool, this, hdef]
  · intro t ht
    subst ht
    simp [initWorkerPool, hdef]

/-- Witness for C25: eight processors, and a configured value of four. -/
theorem C25_initWorkerPool_size_witness :
    (initWorkerPool 8 (.int 4) true).1 = none ∧
    (initWorkerPool 8 (.int 4) true).2 =
      [InitEffect.initGlobalStats, InitEffect.NewWorkerPool (256 * 4)] ∧
    (initWorkerPool 8 (.other "nil") true).2 =
      [InitEffect.initGlobalStats, InitEffect.NewWorkerPool (256 * 8)] :=
  ⟨(C25_initWorkerPool_size 8 (.int 4) true (by decide)).1,
   (C25_initWorkerPool_size 8 (.int 4) true (by decide)).2.1 4 rfl (by decide) (by decide),
   (C25_initWorkerPool_size 8 (.other "nil") true (by decide)).2.2.2 "nil" rfl⟩

/-- Without overflow, the timer of WaitConnectionsDone runs for twice the grace duration
plus twice the connection read timeout, and every registered server is stopped once. -/
theorem WaitConnectionsDone_timer (ConnReadTimeout duration : Int) (servers : List Server)
    (hd : 0 ≤ duration ∧ duration < 2000000000000000000)
    (hc : 0 ≤ ConnReadTimeout ∧ ConnReadTimeout < 2000000000000000000) :
    WaitConnectionsDone ConnReadTimeout servers duration =
      (none, [ServerEffect.NewTimer (2 * duration + 2 * ConnReadTimeout)] ++
        servers.map (fun s => ServerEffect.handlerStopConnection s.serverName) ++
        [ServerEffect.receiveTimer]) := by
  unfold WaitConnectionsDone StopConnection
  rw [wrapInt64_of_range (2 * duration) (by omega) (by omega),
    wrapInt64_of_range (2 * ConnReadTimeout) (by omega) (by omega),
    wrapInt64_of_range _ (by omega) (by omega)]

/-- Claim C26, at the failing input: with a connection read timeout of 15 seconds and a
grace duration of 30 seconds, WaitConnectionsDone stops each of the two registered
servers once and returns nil, but after a timer of 90 seconds, not of
2 * 30 + 15 = 75 seconds. -/
theorem C26_WaitConnectionsDone_adds_read_timeout_twice :
    WaitConnectionsDone (15 * Second) [⟨"ingress"⟩, ⟨"egress"⟩] (30 * Second) =
      (none, [ServerEffect.NewTimer (90 * Second),
              ServerEffect.handlerStopConnection "ingress",
              ServerEffect.handlerStopConnection "egress",
              ServerEffect.receiveTimer]) ∧
    90 * Second ≠ 2 * (30 * Second) + 15 * Second := by
  decide

/-! ## HTTP/2: the stream-map mutex -/

/-- On no mutex state does the server's ActiveStreamsNum return: it blocks while the
write lock is held, and otherwise its deferred Unlock meets a mutex that is only
read-locked. -/
theorem server_ActiveStreamsNum_never_returns (conn : Http2.ServerStreamConnection)
    (mutex : Http2.RWMutex) :
    conn.ActiveStreamsNum mutex =
      if mutex.writer then .blocked else .fatal "sync: Unlock of unlocked RWMutex" [] := by
  unfold Http2.ServerStreamConnection.ActiveStreamsNum Http2.RWMutex.RLock
  by_cases hw : mutex.writer = true
  · simp [hw]
  · simp [hw, Http2.RWMutex.Unlock]

/-- On no mutex state does the server's Reset return: without a writer it resets every
stream and then stops on its deferred Unlock. -/
theorem server_Reset_never_returns (conn : Http2.ServerStreamConnection)
    (mutex : Http2.RWMutex) (reason : StreamResetReason) :
    conn.Reset mutex reason =
      if mutex.writer then .blocked
      else .fatal "sync: Unlock of unlocked RWMutex"
        (conn.streams.foldl (fun es e => es ++ Http2.serverStreamReset e.2 reason) []) := by
  unfold Http2.ServerStreamConnection.Reset Http2.RWMutex.RLock
  by_cases hw : mutex.writer = true
  · simp [hw]
  · simp [hw, Http2.RWMutex.Unlock]

/-- The client's ActiveStreamsNum, started on an unlocked mutex, returns the number of
streams and leaves the mutex unlocked. -/
theorem client_ActiveStreamsNum_unlocked (conn : Http2.ClientStreamConnection) :
    conn.ActiveStreamsNum Http2.RWMutex.unlocked =
      .returned (GoMap.len conn.streams) Http2.RWMutex.unlocked [] := by
  simp [Http2.ClientStreamConnection.ActiveStreamsNum, Http2.RWMutex.RLock,
    Http2.RWMutex.RUnlock, Http2.RWMutex.unlocked]

/-- Claim C29, at the failing input: on a server connection with the streams 1, 3 and 5
and an unlocked mutex, ActiveStreamsNum takes the read lock and releases the write lock,
which stops the program with "Unlock of unlocked RWMutex" instead of returning 3, and
Reset does the same after resetting the three streams; the client's ActiveStreamsNum on
the same streams returns 3 and leaves the mutex unlocked. -/
theorem C29_server_RLock_released_with_Unlock :
    Http2.serverThreeStreams.ActiveStreamsNum Http2.RWMutex.unlocked =
      .fatal "sync: Unlock of unlocked RWMutex" [] ∧
    Http2.serverThreeStreams.Reset Http2.RWMutex.unlocked .StreamConnectionTermination =
      .fatal "sync: Unlock of unlocked RWMutex"
        [.h2sReset 1, .ResetStream 1 .StreamConnectionTermination,
         .h2sReset 3, .ResetStream 3 .StreamConnectionTermination,
         .h2sReset 5, .ResetStream 5 .StreamConnectionTermination] ∧
    Http2.clientThreeStreams.ActiveStreamsNum Http2.RWMutex.unlocked =
      .returned 3 Http2.RWMutex.unlocked [] := by
  decide

/-! ## xDS conversion: listeners -/

theorem convertListenerFilters_foldl (fs : List XdsListenerFilter) (acc : List V2Filter) :
    fs.foldl (fun filters filter =>
      let listenerfilter := convertListenerFilter filter.Name
      if listenerfilter.Type_ ≠ "" then filters ++ [listenerfilter] else filters) acc =
    acc ++ (fs.filter (fun f => decide (f.Name = ORIGINALDST_LISTENER_FILTER))).map
      (fun _ => ({ Type_ := ORIGINALDST_LISTENER_FILTER, Config := none } : V2Filter)) := by
  induction fs generalizing acc with
  | nil => simp
  | cons f t ih =>
    rw [List.foldl_cons, ih]
    by_cases hf : f.Name = ORIGINALDST_LISTENER_FILTER
    · have h2 : convertListenerFilter f.Name =
          { Type_ := ORIGINALDST_LISTENER_FILTER, Config := none } := by
        rw [convertListenerFilter, if_pos hf, hf]
      have h3 : ({ Type_ := ORIGINALDST_LISTENER_FILTER, Config := none } : V2Filter).Type_ ≠
          "" := by decide
      simp only [h2]
      rw [if_pos h3, List.filter_cons_of_pos (by simpa using hf)]
      simp
    · have h2 : convertListenerFilter f.Name = {} := by
        rw [convertListenerFilter, if_neg hf]
      have h3 : ¬ ({} : V2Filter).Type_ ≠ "" := by decide
      simp only [h2]
      rw [if_neg h3, List.filter_cons_of_neg (by simpa using hf)]

/-- The listener filters kept by convertListenerFilters are the original-destination
ones, in input order. -/
theorem convertListenerFilters_some (fs : List XdsListenerFilter) :
    convertListenerFilters (some fs) =
      some ((fs.filter (fun f => decide (f.Name = ORIGINALDST_LISTENER_FILTER))).map
        (fun _ => ({ Type_ := ORIGINALDST_LISTENER_FILTER, Config := none } : V2Filter))) := by
  simp only [convertListenerFilters]
  rw [convertListenerFilters_foldl]
  simp

theorem convertFilterChains_foldl (c : Codec) (chains : List XdsFilterChain)
    (acc : List V2FilterChain) :
    chains.foldl (fun filterChains xdsFilterChain =>
      filterChains ++ [({ FilterChainMatch := xdsFilterChain.FilterChainMatch,
                          Filters := convertFilters c xdsFilterChain.Filters } : V2FilterChain)])
      acc =
    acc ++ chains.map (fun ch =>
      ({ FilterChainMatch := ch.FilterChainMatch,
         Filters := convertFilters c ch.Filters } : V2FilterChain)) := by
  induction chains generalizing acc with
  | nil => simp
  | cons ch t ih => rw [List.foldl_cons, ih]; simp

theorem convertFilterChains_some (c : Codec) (chains : List XdsFilterChain) :
    convertFilterChains c (some chains) =
      some (chains.map (fun ch =>
        ({ FilterChainMatch := ch.FilterChainMatch,
           Filters := convertFilters c ch.Filters } : V2FilterChain))) := by
  simp only [convertFilterChains]
  rw [convertFilterChains_foldl]
  simp

theorem convertFilters_isSome (c : Codec) (fs : Option (List XdsFilter)) :
    (convertFilters c fs).isSome = fs.isSome := by
  cases fs <;> rfl

/-- A supported, non-virtual listener whose only filter chain has a filter slice that is
empty but not nil ends ConvertListenerConfig with an index panic. -/
theorem ConvertListenerConfig_panics (c : Codec) (l : XdsListener) (ch : XdsFilterChain)
    (hs : isSupport (some l) = true) (hv : l.Name ≠ "virtual")
    (hch : l.FilterChains = some [ch]) (hf : ch.Filters = some []) :
    ConvertListenerConfig c (some l) = .error (.indexOutOfRange 0 0) := by
  unfold ConvertListenerConfig
  simp only [hs, hv, hch, convertFilterChains_some, not_true_eq_false, if_false,
    List.map_cons, List.map_nil, hf, convertFilters]
  simp [index, hf]

/-- Every other supported, non-virtual listener is converted, with its listener filters
converted by convertListenerFilters. -/
theorem ConvertListenerConfig_returns (c : Codec) (l : XdsListener)
    (hs : isSupport (some l) = true) (hv : l.Name ≠ "virtual")
    (hne : ¬ ∃ ch, l.FilterChains = some [ch] ∧ ch.Filters = some []) :
    ∃ r, ConvertListenerConfig c (some l) = .ok (some r) ∧
      r.ListenerFilters = convertListenerFilters l.ListenerFilters := by
  unfold ConvertListenerConfig
  simp only [hs, hv, not_true_eq_false, if_false]
  rcases hch : l.FilterChains with _ | chains
  · exact ⟨_, rfl, rfl⟩
  · rw [convertFilterChains_some]
    match chains, hch with
    | [], _ => exact ⟨_, rfl, rfl⟩
    | _ :: _ :: _, _ => exact ⟨_, rfl, rfl⟩
    | [ch], hch =>
      simp only [List.map_cons, List.map_nil]
      rcases hf : ch.Filters with _ | fs
      · exact ⟨_, rfl, rfl⟩
      · match fs, hf with
        | [], hf => exact absurd ⟨ch, hch, hf⟩ hne
        | f :: t, hf =>
          simp only [convertFilters, Option.getD_some, index, List.getElem?_cons_zero, hf]
          exact ⟨_, rfl, rfl⟩

/-- Claim C24: a supported, non-virtual listener is converted unless its only filter
chain has an empty, non-nil filter slice, and the ListenerFilters of the result are nil
when the listener has no listener filters and otherwise exactly its listener filters
named v2.ORIGINALDST_LISTENER_FILTER, in input order, each converted to a filter with
that name as Type and no config. -/
theorem C24_ListenerFilters_original_dst (c : Codec) (l : XdsListener)
    (hs : isSupport (some l) = true) (hv : l.Name ≠ "virtual") :
    ((∃ r, ConvertListenerConfig c (some l) = .ok (some r)) ↔
      ¬ ∃ ch, l.FilterChains = some [ch] ∧ ch.Filters = some []) ∧
    ∀ r, ConvertListenerConfig c (some l) = .ok (some r) →
      (l.ListenerFilters = none → r.ListenerFilters = none) ∧
      (∀ fs, l.ListenerFilters = some fs →
        r.ListenerFilters =
          some ((fs.filter (fun f => decide (f.Name = ORIGINALDST_LISTENER_FILTER))).map
            (fun f => ({ Type_ := f.Name, Config := none } : V2Filter)))) := by
  have hmap : ∀ fs : List XdsListenerFilter,
      (fs.filter (fun f => decide (f.Name = ORIGINALDST_LISTENER_FILTER))).map
        (fun f => ({ Type_ := f.Name, Config := none } : V2Filter)) =
      (fs.filter (fun f => decide (f.Name = ORIGINALDST_LISTENER_FILTER))).map
        (fun _ => ({ Type_ := ORIGINALDST_LISTENER_FILTER, Config := none } : V2Filter)) := by
    intro fs
    apply List.map_congr_left
    intro f hf
    have := (List.mem_filter.1 hf).2
    simp only [decide_eq_true_eq] at this
    rw [this]
  have hpanic : (∃ ch, l.FilterChains = some [ch] ∧ ch.Filters = some []) →
      ConvertListenerConfig c (some l) = .error (.indexOutOfRange 0 0) := by
    rintro ⟨ch, hch, hf⟩
    exact ConvertListenerConfig_panics c l ch hs hv hch hf
  constructor
  · constructor
    · rintro ⟨r, hr⟩ hshape
      rw [hpanic hshape] at hr
      cases hr
    · intro hne
      obtain ⟨r, hr, _⟩ := ConvertListenerConfig_returns c l hs hv hne
      exact ⟨r, hr⟩
  · intro r hr
    have hne : ¬ ∃ ch, l.FilterChains = some [ch] ∧ ch.Filters = some [] := by
      intro hshape
      rw [hpanic hshape] at hr
      cases hr
    obtain ⟨r1, hr1, hlf⟩ := ConvertListenerConfig_returns c l hs hv hne
    rw [hr] at hr1
    cases hr1
    constructor
    · intro hnone
      rw [hlf, hnone]
      rfl
    · intro fs hfs
      rw [hlf, hfs, convertListenerFilters_some, hmap]

/-- Witness for C24: of three listener filters only the original-destination one is
kept. -/
theorem C24_ListenerFilters_original_dst_witness :
    ∃ r, ConvertListenerConfig exampleCodec (some listenerMixer) = .ok (some r) ∧
      r.ListenerFilters = some [{ Type_ := "original_dst", Config := none }] := by
  have h := C24_ListenerFilters_original_dst exampleCodec listenerMixer (by decide) (by decide)
  have hne : ¬ ∃ ch, listenerMixer.FilterChains = some [ch] ∧ ch.Filters = some [] := by
    rintro ⟨ch, h1, h2⟩
    simp only [listenerMixer, Option.some.injEq, List.cons.injEq, and_true] at h1
    subst h1
    simp at h2
  obtain ⟨r, hr⟩ := h.1.2 hne
  exact ⟨r, hr, ((h.2 r hr).2 _ rfl).trans (by decide)⟩

/-- Claim C30, at the failing input: a listener accepted by isSupport whose only filter
chain has a filter slice that is empty but not nil makes ConvertListenerConfig read
Filters[0] of a slice of length 0, an index panic; a chain whose only filter converts to
no network filter is read in bounds. -/
theorem C30_empty_filter_slice_index_panics (c : Codec) :
    isSupport (some listenerEmptyFilters) = true ∧
    ConvertListenerConfig c (some listenerEmptyFilters) = .error (.indexOutOfRange 0 0) ∧
    isSupport (some listenerMixer) = true ∧
    ∃ r, ConvertListenerConfig c (some listenerMixer) = .ok (some r) ∧
      r.FilterChains = some [{ FilterChainMatch := "<nil>", Filters := some [] }] ∧
      r.StreamFilters = some [] := by
  refine ⟨by decide, ?_, by decide, ?_⟩
  · exact ConvertListenerConfig_panics c listenerEmptyFilters { Filters := some [] } (by decide)
      (by decide) rfl rfl
  · exact ⟨{ Name := "0.0.0.0_80", BindToPort := true, Inspector := true,
             UseOriginalDst := false, PerConnBufferLimitBytes := 0,
             ListenerFilters := some [{ Type_ := "original_dst", Config := none }],
             FilterChains := some [{ FilterChainMatch := "<nil>", Filters := some [] }],
             StreamFilters := some [] }, by rfl, rfl, rfl⟩

end Mosn
